import Mathlib

/-!
# Verification development for the HTTPS-intercepting proxy (`src/proxy.c`)
and for its companion client library (`src/c/src/llmproxy.c`)

Shallow embedding of the proxy core.  A byte is a natural number, a buffer is the
list of the bytes it holds (`len` bytes for a buffer handed around with its length).
The request buffers and the buffered responses of the enhancing mode are followed by a
NUL terminator (`request[bytes_read] = 0`, `full_response[total_received] = 0`), so the
C string that `strstr`/`strcasestr`/`strncmp` see there is `cstr buf`: the bytes before
the first NUL byte.  The receive buffers of the fast relay (`response`,
`server_buffer`) are never terminated: there the string functions read on into the
bytes a read left untouched, and the relay is modelled on the memory from the start of
the buffer on (`inject_header_unterminated`, `relay_chunks`).
Allocation is taken to succeed and `send`/`SSL_write` to deliver what they are given.
-/

namespace Proxy

/-! ## C strings -/

/-- Bytes of an ASCII literal of the source. -/
def bytes (s : String) : List Nat := s.toList.map Char.toNat

/-- The C string held in a buffer: the bytes before the first NUL byte (the whole
buffer when it holds none, the terminator then being the byte that follows it). -/
def cstr : List Nat → List Nat
  | [] => []
  | c :: cs => if c = 0 then [] else c :: cstr cs

/-- C `strlen`. -/
def strlen (buf : List Nat) : Nat := (cstr buf).length

/-- C `tolower` in the "C" locale (the program never calls `setlocale`). -/
def tolower (c : Nat) : Nat := if 65 ≤ c ∧ c ≤ 90 then c + 32 else c

/-- Offset of the first position of `hay` at which `needle` starts. -/
def find_first (needle : List Nat) : List Nat → Option Nat
  | [] => if needle.isEmpty then some 0 else none
  | c :: cs =>
    if needle.isPrefixOf (c :: cs) then some 0
    else (find_first needle cs).map (· + 1)

/-- C `strstr(buf, needle)`, as the offset of the match from `buf` (`none` for NULL).
A pointer `buf + k` of the source is the buffer `buf.drop k`. -/
def strstr (buf needle : List Nat) : Option Nat := find_first needle (cstr buf)

/-- GNU `strcasestr(buf, needle)`: `strstr` up to the case of ASCII letters. -/
def strcasestr (buf needle : List Nat) : Option Nat :=
  find_first (needle.map tolower) ((cstr buf).map tolower)

/-- Whether C `strncmp(s1, s2, n) == 0`: the first `n` bytes agree, or the strings
agree up to a NUL met earlier.  A byte read at the end of a buffer is its terminator. -/
def strncmp_eq : List Nat → List Nat → Nat → Bool
  | _, _, 0 => true
  | s1, s2, n + 1 =>
    if s1.headD 0 ≠ s2.headD 0 then false
    else if s1.headD 0 = 0 then true
    else strncmp_eq s1.tail s2.tail n

/-- The response head: the bytes before the first CRLF CRLF (everything when the
response holds no such separator). -/
def response_head (resp : List Nat) : List Nat :=
  match find_first (bytes "\r\n\r\n") resp with
  | some q => resp.take q
  | none => resp

/-! ## Header injection (`inject_header`, proxy.c 1046-1071) -/

/-- The marker line `new_header` of `inject_header`. -/
def new_header : List Nat := bytes "X-Proxy:CS112\r\n"

/-- Source `inject_header(response, &response_len, buffer_size)`: `response` holds
`response.length` bytes; the result is the buffer's first `*response_len` bytes after
the call.  The `memmove` shifts the bytes from `insert_pos` on up by the length of
`new_header` and the `memcpy` writes `new_header` into the gap. -/
def inject_header (response : List Nat) (buffer_size : Nat) : List Nat :=
  match strstr response (bytes "\r\n") with
  | none => response
  | some header_end =>
    if (strstr response (bytes "X-Proxy:")).isSome then response
    else
      let insert_pos := header_end + 2
      if response.length + new_header.length ≥ buffer_size then response
      else response.take insert_pos ++ new_header ++ response.drop insert_pos

/-- The guard of both callers of `inject_header` on a received response of `bytes`
bytes: `bytes >= 5 && strncmp(response, "HTTP/", 5) == 0`. -/
def begins_with_http (response : List Nat) : Bool :=
  decide (response.length ≥ 5) && strncmp_eq response (bytes "HTTP/") 5

/-- What the fallback path of the enhancing mode writes to the client for the buffered
original `response` (proxy.c 447-453 and 873-884), `buffer_size` being the size of the
buffer it was received in (2 MiB).  The code has written the terminator after the
received bytes (`full_response[total_received] = 0`), so `inject_header` sees the C
string of `response`.  The streaming path, whose buffers hold no terminator, is
`relay_chunk`. -/
def forward_response (buffer_size : Nat) (response : List Nat) : List Nat :=
  if begins_with_http response then inject_header response buffer_size else response

/-! ## Request dispatch (`handle_client`, proxy.c 226-261) -/

/-- What `handle_client` does with the first receive. -/
inductive Dispatch where
  /-- Nothing was received (`bytes_read <= 0`): the socket is closed, nothing is sent. -/
  | closed
  /-- The call `handle_https_connect(client_fd, request, bytes_read)`. -/
  | https_connect (request : List Nat)
  /-- The call `handle_http_request(client_fd, request, bytes_read)`. -/
  | http_request (request : List Nat)
  /-- The reply `send(client_fd, err, strlen(err), 0)`, and no handler. -/
  | reply (err : List Nat)
  deriving DecidableEq

/-- Source `handle_client`, on the `bytes_read` bytes of its one `recv`. -/
def handle_client (request : List Nat) : Dispatch :=
  if request.length = 0 then Dispatch.closed
  else if strncmp_eq request (bytes "CONNECT ") 8 then Dispatch.https_connect request
  else if strncmp_eq request (bytes "GET ") 4
      || strncmp_eq request (bytes "POST ") 5
      || strncmp_eq request (bytes "HEAD ") 5 then Dispatch.http_request request
  else Dispatch.reply (bytes "HTTP/1.1 501 Not Implemented\r\n\r\n")

/-! ## Accept-Encoding excision (proxy.c 297-307 and 704-712) -/

/-- The request bytes handed to `send`/`SSL_write` after the excision block: the first
`req_len` (`request_bytes`) bytes of the request buffer.  `request` is what was
received; `line_end` is found from `accept_encoding + 2`; the `memmove` copies the C
string at `line_end` with its terminator over the buffer from `accept_encoding` on,
and the length becomes `strlen(request)`. -/
def strip_accept_encoding (request : List Nat) : List Nat :=
  match strcasestr request (bytes "\r\nAccept-Encoding:") with
  | none => request
  | some accept_encoding =>
    match strstr (request.drop (accept_encoding + 2)) (bytes "\r\n") with
    | none => request
    | some k =>
      let line_end := accept_encoding + 2 + k
      let tail := cstr (request.drop line_end)
      let moved := request.take accept_encoding ++ tail ++ [0]
        ++ request.drop (accept_encoding + tail.length + 1)
      moved.take (strlen moved)

/-- The bytes `handle_http_request` forwards upstream (proxy.c 297-326); the tunnel in
enhancing mode forwards `strip_accept_encoding` of the request it read. -/
def forwarded_request (llm_enabled : Bool) (request : List Nat) : List Nat :=
  if llm_enabled then strip_accept_encoding request else request

/-! ## Content-type detection (proxy.c 1082-1125) -/

/-- The loop `while (*ct_start == ' ') ct_start++`: the number of leading spaces. -/
def skip_spaces : List Nat → Nat
  | [] => 0
  | c :: cs => if c = 32 then skip_spaces cs + 1 else 0

/-- Source `extract_content_type(headers)`: the copied value, `none` for NULL. -/
def extract_content_type (headers : List Nat) : Option (List Nat) :=
  match (strcasestr headers (bytes "Content-Type:")).orElse
      (fun _ => strcasestr headers (bytes "content-type:")) with
  | none => none
  | some i =>
    let after := headers.drop (i + 13)
    let ct_start := after.drop (skip_spaces after)
    match (strstr ct_start (bytes "\r\n")).orElse (fun _ => strstr ct_start (bytes "\n")) with
    | none => none
    | some len => some (ct_start.take len)

/-- Source `is_html_content_type(content_type)`. -/
def is_html_content_type (content_type : Option (List Nat)) : Bool :=
  match content_type with
  | none => false
  | some ct => (strcasestr ct (bytes "text/html")).isSome

/-! ## Buffered responses in enhancing mode (proxy.c 361-455 and 733-888) -/

/-- The constant `max_response` of both handlers. -/
def max_response : Nat := 2 * 1024 * 1024

/-- The flag `should_enhance` of both handlers (proxy.c 382-398, 780-796) for a
buffered response of `total_received = full_response.length` bytes. -/
def should_enhance (full_response : List Nat) : Bool :=
  match strstr full_response (bytes "\r\n\r\n") with
  | none => false
  | some headers_end =>
    if full_response.length > 0 then
      let body_len := full_response.length - (headers_end + 4)
      let content_type := extract_content_type full_response
      let is_html := is_html_content_type content_type
      let is_compressed := (strcasestr full_response (bytes "Content-Encoding:")).isSome
      is_html && !is_compressed && decide (body_len > 0) && decide (body_len < max_response)
    else false

/-- Output of C `%zu`. -/
def decimal (n : Nat) : List Nat := (Nat.toDigits 10 n).map Char.toNat

/-- The header block the `snprintf` of proxy.c 422-427 (835-840) produces. -/
def enhanced_headers (enhanced_len : Nat) : List Nat :=
  bytes "\r\nX-Proxy:CS112\r\nContent-Length: " ++ decimal enhanced_len
    ++ bytes "\r\nContent-Type: text/html; charset=utf-8\r\nConnection: close\r\n\r\n"

/-- One buffered exchange with the client. -/
structure LlmExchange where
  /-- Arguments `(html, url)` of the call to `send_to_flask_enhance`, when it is made. -/
  flask_call : Option (List Nat × List Nat)
  /-- Bytes written to the client; `none` when the `memcpy` of the enhanced body runs
  past the end of `new_response` (no behaviour is defined then). -/
  to_client : Option (List Nat)
  deriving DecidableEq

/-- The enhancing branch of both handlers once the response is buffered (proxy.c
382-455 and 780-888).  `enhanced` is what `send_to_flask_enhance` returns if it is
called: `some e` for a non-NULL result of `enhanced_len = e.length` bytes. -/
def llm_response (full_url full_response : List Nat) (enhanced : Option (List Nat)) :
    LlmExchange :=
  let fallback := forward_response max_response full_response
  if should_enhance full_response then
    match strstr full_response (bytes "\r\n\r\n") with
    | none => { flask_call := none, to_client := some fallback }
    | some headers_end =>
      let body := full_response.drop (headers_end + 4)
      let call := some (body, full_url)
      match enhanced with
      | none => { flask_call := call, to_client := some fallback }
      | some enhanced_html =>
        if 0 < enhanced_html.length ∧ enhanced_html.length < max_response then
          match strstr full_response (bytes "\r\n") with
          | none => { flask_call := call, to_client := some fallback }
          | some status_len =>
            let resp_len := status_len + (enhanced_headers enhanced_html.length).length
            if resp_len + enhanced_html.length ≤ max_response then
              { flask_call := call,
                to_client := some (full_response.take status_len
                  ++ enhanced_headers enhanced_html.length ++ enhanced_html) }
            else { flask_call := call, to_client := none }
        else { flask_call := call, to_client := some fallback }
  else { flask_call := none, to_client := some fallback }

/-- The `snprintf(full_url, sizeof(full_url), "<scheme>%s%s", hostname, url)` of both
handlers (`full_url` has 4096 bytes). -/
def build_full_url (scheme hostname url : List Nat) : List Nat :=
  (scheme ++ cstr hostname ++ cstr url).take 4095

/-- Enhancing branch of `handle_http_request`; `url` is the request-URI it parsed. -/
def handle_http_request_llm (hostname url full_response : List Nat)
    (enhanced : Option (List Nat)) : LlmExchange :=
  llm_response (build_full_url (bytes "http://") hostname url) full_response enhanced

/-- C `strchr(buf, c)` for a byte `c` other than NUL. -/
def strchr (buf : List Nat) (c : Nat) : Option Nat := find_first [c] (cstr buf)

/-- The request-URI `handle_https_connect` copies out of the request it forwarded
(proxy.c 799-812): the text between the first two spaces, empty when it is missing or
does not fit `url[2048]`. -/
def tunnel_url (client_request : List Nat) : List Nat :=
  match strchr client_request 32 with
  | none => []
  | some sp =>
    let url_start := client_request.drop (sp + 1)
    match strchr url_start 32 with
    | none => []
    | some url_len => if url_len < 2048 then url_start.take url_len else []

/-- Enhancing branch of `handle_https_connect`; `client_request` is the request
buffer after the excision. -/
def handle_https_connect_llm (hostname client_request full_response : List Nat)
    (enhanced : Option (List Nat)) : LlmExchange :=
  llm_response (build_full_url (bytes "https://") hostname (tunnel_url client_request))
    full_response enhanced

/-! ## Certificate minting (`generate_cert`, proxy.c 954-1044) -/

/-- Attribute types of the names `generate_cert` builds. -/
inductive Attr where
  | C | O | CN
  deriving DecidableEq

/-- The extensions `generate_cert` asks for. -/
inductive Nid where
  | basic_constraints | key_usage | ext_key_usage | subject_alt_name
  deriving DecidableEq

/-- The fields of an X.509 certificate that `generate_cert` sets. -/
structure X509 where
  version : Nat
  serial : Int
  notBefore : Int
  notAfter : Int
  subject : List (Attr × List Nat)
  issuer : List (Attr × List Nat)
  pubkey : Nat
  extensions : List (Nid × List Nat)
  /-- The key that signed the certificate. -/
  signed_with : Nat
  deriving DecidableEq

/-- The loaded CA material: the subject name of `ca_cert` and the key `ca_key`. -/
structure CA where
  subject : List (Attr × List Nat)
  key : Nat
  deriving DecidableEq

/-- What OpenSSL answers to the calls of `generate_cert` that can fail on their
arguments (`true` is success).  `name_entry` is `X509_NAME_add_entry_by_txt`, whose
result the code discards (OpenSSL rejects, for one, a commonName of more than 64
characters); `ext_conf` is `X509V3_EXT_conf_nid` returning non-NULL.  The other calls
whose result is discarded (`ASN1_INTEGER_set`, `X509_gmtime_adj`,
`X509_set_issuer_name`, `X509_add_ext`) fail on allocation only and are taken to
succeed. -/
structure OpenSSL where
  x509_new : Bool
  set_version : Bool
  name_entry : Attr → List Nat → Bool
  set_pubkey : Bool
  ext_conf : Nid → List Nat → Bool
  sign : Bool

/-- The value `hostname[i]` adds to the `unsigned long` serial: `char` is signed on the
x86-64 Linux target, so a byte from 128 on is sign-extended. -/
def char_to_ulong (c : Nat) : Nat := if c < 128 then c else c + 2 ^ 64 - 256

/-- The loop of proxy.c 969-972, in `unsigned long` arithmetic. -/
def serial_of (now : Nat) (hostname : List Nat) : Nat :=
  hostname.foldl (fun serial c => (serial * 31 + char_to_ulong c) % 2 ^ 64) (now % 2 ^ 64)

/-- The `long` that `ASN1_INTEGER_set` receives for an `unsigned long` argument. -/
def ulong_to_long (v : Nat) : Int := if v < 2 ^ 63 then (v : Int) else (v : Int) - 2 ^ 64

/-- Source `generate_cert(hostname)`, `none` for NULL: `hostname` is the C string,
`now` the value of `time(NULL)`.  A name entry or an extension that OpenSSL does not
accept is left out and the function goes on. -/
def generate_cert (lib : OpenSSL) (ca : CA) (now : Nat) (hostname : List Nat) : Option X509 :=
  if ¬ lib.x509_new then none
  else if ¬ lib.set_version then none
  else
    let subject :=
      [(Attr.C, bytes "US"), (Attr.O, bytes "CS112 Proxy"), (Attr.CN, hostname)].filter
        (fun entry => lib.name_entry entry.1 entry.2)
    if ¬ lib.set_pubkey then none
    else
      let san := (bytes "DNS:" ++ hostname).take 511
      let extensions :=
        [(Nid.basic_constraints, bytes "CA:FALSE"),
         (Nid.key_usage, bytes "digitalSignature,keyEncipherment"),
         (Nid.ext_key_usage, bytes "serverAuth"),
         (Nid.subject_alt_name, san)].filter (fun ext => lib.ext_conf ext.1 ext.2)
      if ¬ lib.sign then none
      else some {
        version := 2
        serial := ulong_to_long (serial_of now hostname)
        notBefore := (now : Int) - 86400
        notAfter := (now : Int) + 31536000
        subject := subject
        issuer := ca.subject
        pubkey := ca.key
        extensions := extensions
        signed_with := ca.key }

/-- An OpenSSL that accepts every call. -/
def OpenSSL.accepting : OpenSSL :=
  { x509_new := true, set_version := true, name_entry := fun _ _ => true,
    set_pubkey := true, ext_conf := fun _ _ => true, sign := true }

/-! ## Enhancement client: the cooldown (`send_to_flask_enhance`, proxy.c 1128-1160) -/

/-- The globals `flask_available` and `last_flask_check`. -/
structure FlaskState where
  flask_available : Bool
  last_flask_check : Int
  deriving DecidableEq

/-- The program starts with `flask_available = 1`, `last_flask_check = 0`. -/
def FlaskState.initial : FlaskState := { flask_available := true, last_flask_check := 0 }

/-- What the socket layer answers once a call reaches it. -/
inductive Backend where
  /-- The call of `socket()` fails. -/
  | no_socket
  /-- The call of `connect()` fails. -/
  | refused
  /-- The call of `connect()` succeeds; `result` is what the rest of the function
  (proxy.c 1162-1305, which touches neither global) returns. -/
  | connected (result : Option (List Nat))
  deriving DecidableEq

/-- The socket calls of `send_to_flask_enhance`. -/
inductive Syscall where
  | socket | connect
  deriving DecidableEq

/-- One call of `send_to_flask_enhance`: the globals after it, the socket calls it
made, and its result (`none` for NULL). -/
structure FlaskCall where
  state : FlaskState
  syscalls : List Syscall
  result : Option (List Nat)
  deriving DecidableEq

/-- Source `send_to_flask_enhance` at time `now = time(NULL)`, up to the point where the
connection is established. -/
def send_to_flask_enhance (st : FlaskState) (now : Int) (backend : Backend) : FlaskCall :=
  if st.flask_available = false ∧ now - st.last_flask_check < 60 then
    { state := st, syscalls := [], result := none }
  else
    match backend with
    | Backend.no_socket => { state := st, syscalls := [Syscall.socket], result := none }
    | Backend.refused =>
      { state := { flask_available := false, last_flask_check := now },
        syscalls := [Syscall.socket, Syscall.connect], result := none }
    | Backend.connected result =>
      { state := { st with flask_available := true },
        syscalls := [Syscall.socket, Syscall.connect], result := result }

/-- A sequence of calls, each at its own time and with its own answer of the socket
layer, threaded through the globals. -/
def flask_calls (st : FlaskState) : List (Int × Backend) → FlaskState × List FlaskCall
  | [] => (st, [])
  | (now, backend) :: rest =>
    let call := send_to_flask_enhance st now backend
    let later := flask_calls call.state rest
    (later.1, call :: later.2)


/-! ## Enhancement client: the exchange (`send_to_flask_enhance`, proxy.c 1162-1305)

`EVP_EncodeBlock` and `EVP_DecodeBlock` are OpenSSL's; they are modelled from
OpenSSL's `crypto/evp/encode.c` and documentation. -/

/-- The base64 digit of a 6-bit value (OpenSSL's table `data_bin2ascii`). -/
def b64_char (v : Nat) : Nat :=
  if v < 26 then 65 + v
  else if v < 52 then 97 + (v - 26)
  else if v < 62 then 48 + (v - 52)
  else if v = 62 then 43
  else 47

/-- OpenSSL `EVP_EncodeBlock(t, f, n)` on the `n` bytes `f`: the text written to `t`
(its length is the return value).  Standard base64, padded with '=', no line breaks. -/
def EVP_EncodeBlock : List Nat → List Nat
  | [] => []
  | [a] => [b64_char (a / 4), b64_char (a % 4 * 16), 61, 61]
  | [a, b] => [b64_char (a / 4), b64_char (a % 4 * 16 + b / 16), b64_char (b % 16 * 4), 61]
  | a :: b :: c :: rest =>
    b64_char (a / 4) :: b64_char (a % 4 * 16 + b / 16) :: b64_char (b % 16 * 4 + c / 64)
      :: b64_char (c % 64) :: EVP_EncodeBlock rest

/-- OpenSSL `conv_ascii2bin` (table `data_ascii2bin`): the 6-bit value of a base64
digit, 0 for '=', `0xE0` for space and tab, `0xF0` for LF, `0xF1` for CR, `0xF2` for
'-' and `0x1A`, and `0xFF` for every other byte. -/
def conv_ascii2bin (c : Nat) : Nat :=
  if 65 ≤ c ∧ c ≤ 90 then c - 65
  else if 97 ≤ c ∧ c ≤ 122 then c - 97 + 26
  else if 48 ≤ c ∧ c ≤ 57 then c - 48 + 52
  else if c = 43 then 62
  else if c = 47 then 63
  else if c = 61 then 0
  else if c = 32 ∨ c = 9 then 0xE0
  else if c = 10 then 0xF0
  else if c = 13 then 0xF1
  else if c = 45 ∨ c = 26 then 0xF2
  else 0xFF

/-- OpenSSL `B64_NOT_BASE64(a)`, that is `(a | 0x13) == 0xF3`, on the values of
`conv_ascii2bin`: white space, end of line and end of file. -/
def B64_NOT_BASE64 (a : Nat) : Bool := a = 0xE0 || a = 0xF0 || a = 0xF1 || a = 0xF2

/-- The loop `while (n > 3 && B64_NOT_BASE64(conv_ascii2bin(f[n - 1]))) n--` of
`EVP_DecodeBlock`, on the reversed input. -/
def strip_line_end : List Nat → List Nat
  | [] => []
  | c :: cs =>
    if (c :: cs).length > 3 ∧ B64_NOT_BASE64 (conv_ascii2bin c) = true then strip_line_end cs
    else c :: cs

/-- The block loop of `EVP_DecodeBlock`: three bytes for every four digits, `none` when
a digit has the bit `0x80` (the function returns -1). -/
def decode_quads : List Nat → Option (List Nat)
  | a :: b :: c :: d :: rest =>
    let a := conv_ascii2bin a
    let b := conv_ascii2bin b
    let c := conv_ascii2bin c
    let d := conv_ascii2bin d
    if a ≥ 128 ∨ b ≥ 128 ∨ c ≥ 128 ∨ d ≥ 128 then none
    else
      match decode_quads rest with
      | none => none
      | some t =>
        some ((a * 4 + b / 16) % 256 :: (b % 16 * 16 + c / 4) % 256 :: (c % 4 * 64 + d) % 256 :: t)
  | _ => some []

/-- OpenSSL `EVP_DecodeBlock(t, f, n)` on the `n` bytes `f`: the bytes written to `t`
(their number is the return value), `none` for the return value -1.  Leading white
space and the line end are dropped, the rest must be a multiple of four digits; a
'=' counts as the digit 0, so padding comes out as zero bytes. -/
def EVP_DecodeBlock (f : List Nat) : Option (List Nat) :=
  let f := f.dropWhile (fun c => conv_ascii2bin c = 0xE0)
  let f := (strip_line_end f.reverse).reverse
  if f.length % 4 ≠ 0 then none else decode_quads f

/-- The JSON text `json_body` the client builds with `strcpy`/`strcat` (proxy.c
1162-1198) from the C strings `html` and `url`. -/
def flask_json_body (html url : List Nat) : List Nat :=
  bytes "\x7b\"html_base64\":\"" ++ EVP_EncodeBlock (cstr html) ++ bytes "\",\"url\":\""
    ++ cstr url ++ bytes "\"\x7d"

/-- The bytes the client sends to the backend (proxy.c 1200-1214): the request head
of the `snprintf` into `http_request[2048]`, then `json_body`. -/
def flask_request (html url : List Nat) : List Nat :=
  (bytes "POST /enhance HTTP/1.1\r\nHost: 127.0.0.1:5000\r\nContent-Type: application/json\r\nContent-Length: "
      ++ decimal (flask_json_body html url).length
      ++ bytes "\r\nConnection: close\r\n\r\n").take 2047
    ++ flask_json_body html url

/-- The number of '=' among the last two bytes of the payload (proxy.c 1288-1290). -/
def b64_padding (b64 : List Nat) : Nat :=
  (if b64.length > 0 ∧ b64.getD (b64.length - 1) 0 = 61 then 1 else 0)
    + (if b64.length > 1 ∧ b64.getD (b64.length - 2) 0 = 61 then 1 else 0)

/-- Decoding of the `b64_len` bytes of a payload (proxy.c 1268-1305): the first
`*out_len` bytes of `decoded`, `none` for NULL.  The terminator the code writes after
them is not part of the result (for an empty payload it is written one byte past an
allocation of zero bytes). -/
def flask_decode (b64 : List Nat) : Option (List Nat) :=
  match EVP_DecodeBlock b64 with
  | none => none
  | some decoded =>
    let decoded_len : Int := (decoded.length : Int) - (b64_padding b64 : Int)
    if decoded_len ≥ 0 then some (decoded.take decoded_len.toNat) else some []

/-- Location and decoding of the field in the text after the response head (proxy.c
1245-1305); `json_start` is the buffer from `json_start` on. -/
def parse_html_base64 (json_start : List Nat) : Option (List Nat) :=
  match strstr json_start (bytes "\"html_base64\":") with
  | none => none
  | some i =>
    let after := json_start.drop (i + 14)
    let b64_field := after.drop (skip_spaces after)
    if b64_field.headD 0 ≠ 34 then none
    else
      let b64_field := b64_field.drop 1
      let b64 := (cstr b64_field).takeWhile (fun c => c ≠ 34)
      flask_decode b64

/-- What `send_to_flask_enhance` returns once connected, for the `total_received`
bytes `response` it read from the backend (proxy.c 1236-1305). -/
def flask_result (response : List Nat) : Option (List Nat) :=
  match strstr response (bytes "\r\n\r\n") with
  | none => none
  | some i => parse_html_base64 (response.drop (i + 4))

/-- What the backend side of one call does. -/
inductive Network where
  /-- The call of `socket()` fails. -/
  | no_socket
  /-- The call of `connect()` fails. -/
  | refused
  /-- The connection is made and `response` is what the backend sends until it
  closes. -/
  | answered (response : List Nat)
  deriving DecidableEq

/-- Source `send_to_flask_enhance(html, url, out_len)` as a whole: the cooldown, the
connection and the exchange.  The receive loop (proxy.c 1224-1233) asks for at most
`max_response - total_received - 1` bytes, so of what the backend sends the first
`max_response - 1` bytes are kept and the rest is never read. -/
def enhance (st : FlaskState) (now : Int) (network : Network) : FlaskCall :=
  send_to_flask_enhance st now
    (match network with
     | Network.no_socket => Backend.no_socket
     | Network.refused => Backend.refused
     | Network.answered response =>
       Backend.connected (flask_result (response.take (max_response - 1))))

/-! ## Parsing of numbers and tokens (C library) -/

/-- C `isspace` in the "C" locale. -/
def isspace (c : Nat) : Bool := c = 32 || (9 ≤ c && c ≤ 13)

/-- The digit loop of `strtol` in base 10: the value of the leading decimal digits. -/
def digits_value : Nat → List Nat → Nat
  | acc, [] => acc
  | acc, c :: cs => if 48 ≤ c ∧ c ≤ 57 then digits_value (acc * 10 + (c - 48)) cs else acc

/-- C `strtol(s, NULL, 10)` on a C string, `long` having 64 bits: white space is
skipped, a sign is read, the leading digits are the value, clamped to the range of
`long`. -/
def strtol (s : List Nat) : Int :=
  match (cstr s).dropWhile isspace with
  | 45 :: t => max (-(digits_value 0 t : Int)) (-(2 ^ 63))
  | 43 :: t => min (digits_value 0 t : Int) (2 ^ 63 - 1)
  | t => min (digits_value 0 t : Int) (2 ^ 63 - 1)

/-- C `atoi(s)`, which glibc defines as `(int) strtol(s, NULL, 10)`: the low 32 bits
of the `long`, read as a signed `int`. -/
def atoi (s : List Nat) : Int := (strtol s + 2 ^ 31) % 2 ^ 32 - 2 ^ 31

/-- One `%Ns` directive of `sscanf` on the rest of the input: white space is skipped,
then up to `width` bytes that are not white space are read; `none` when the input is
at its end.  The result is the token and the input left. -/
def scan_s (width : Nat) (input : List Nat) : Option (List Nat × List Nat) :=
  match input.dropWhile isspace with
  | [] => none
  | c :: cs =>
    let token := ((c :: cs).takeWhile (fun x => !isspace x)).take width
    some (token, (c :: cs).drop token.length)

/-- The call `sscanf(request, "%15s %2047s %15s", method, url, version)`: the three
tokens when it returns 3, `none` otherwise. -/
def sscanf3 (request : List Nat) : Option (List Nat × List Nat × List Nat) :=
  match scan_s 15 (cstr request) with
  | none => none
  | some (method, rest1) =>
    match scan_s 2047 rest1 with
    | none => none
    | some (url, rest2) =>
      match scan_s 15 rest2 with
      | none => none
      | some (version, _) => some (method, url, version)

/-! ## Set-up of a plain-HTTP exchange (`handle_http_request`, proxy.c 264-315) -/

/-- Source `connect_to_server(hostname, port)` (proxy.c 902-931) up to the call of
`connect`: the name handed to `gethostbyname` (a C string) and the TCP port of the
address.  `htons` takes a `uint16_t`, so the `int port` is reduced modulo 2^16. -/
def connect_to_server (hostname : List Nat) (port : Int) : List Nat × Nat :=
  (cstr hostname, (port % 65536).toNat)

/-- Source `parse_host_port(host_header, NULL, &port)`: the C string left in
`host_header` and the value of `port` after the call. -/
def parse_host_port (host_header : List Nat) (port : Int) : List Nat × Int :=
  match strchr host_header 58 with
  | none => (host_header, port)
  | some colon => (host_header.take colon, atoi (host_header.drop (colon + 1)))

/-- The array `hostname` and the variable `port` after the block of proxy.c
276-289. -/
def host_of_request (request : List Nat) : List Nat × Int :=
  match strstr request (bytes "Host: ") with
  | none => ([], 80)
  | some i =>
    let host_line := request.drop (i + 6)
    match strstr host_line (bytes "\r\n") with
    | none => ([], 80)
    | some len =>
      if len < 256 then parse_host_port (host_line.take len) 80 else ([], 80)

/-- The set-up of a handler as seen from outside. -/
structure Setup where
  /-- Arguments of the call `connect_to_server(hostname, port)`, when it is made. -/
  upstream : Option (List Nat × Int)
  /-- The texts written to the client socket with `send`, in order. -/
  plaintext : List (List Nat)
  /-- Whether the handler goes on to the exchange with the origin. -/
  proceeds : Bool
  deriving DecidableEq

/-- Source `handle_http_request` up to the connection to the origin (proxy.c
264-315); `connected` is whether `connect_to_server` returns a socket. -/
def handle_http_request (request : List Nat) (connected : Bool) : Setup :=
  match sscanf3 request with
  | none =>
    { upstream := none, plaintext := [bytes "HTTP/1.1 400 Bad Request\r\n\r\n"],
      proceeds := false }
  | some _ =>
    let host := host_of_request request
    if host.1.headD 0 = 0 then
      { upstream := none, plaintext := [bytes "HTTP/1.1 400 Bad Request\r\n\r\n"],
        proceeds := false }
    else if ¬ connected then
      { upstream := some host, plaintext := [bytes "HTTP/1.1 502 Bad Gateway\r\n\r\n"],
        proceeds := false }
    else { upstream := some host, plaintext := [], proceeds := true }

/-! ## Set-up of a tunnel (`handle_https_connect`, proxy.c 461-582) -/

/-- The arguments `hostname` and `port` that `handle_https_connect` reads from the
request (proxy.c 465-487), `none` when it answers 400.  The request begins with
"CONNECT ", so `request + 8` is `request.drop 8`. -/
def connect_target (request : List Nat) : Option (List Nat × Int) :=
  match strchr (request.drop 8) 32 with
  | none => none
  | some host_len =>
    if host_len ≥ 256 then none
    else
      let hostname := (request.drop 8).take host_len
      match strchr hostname 58 with
      | none => some (hostname, 443)
      | some colon => some (hostname.take colon, atoi (hostname.drop (colon + 1)))

/-- Outcomes of the steps of the tunnel set-up, in the order of the source (`true` is
success). -/
structure TunnelSteps where
  connect_to_server : Bool
  create_ssl_context_client : Bool
  ssl_new_upstream : Bool
  ssl_connect : Bool
  create_ssl_context_server : Bool
  generate_cert : Bool
  ssl_new_downstream : Bool
  ssl_accept : Bool
  deriving DecidableEq

/-- Source `handle_https_connect` up to the point where both TLS sessions are up
(proxy.c 461-582).  After that point the function writes to the client through
`SSL_write` only. -/
def handle_https_connect (request : List Nat) (steps : TunnelSteps) : Setup :=
  match connect_target request with
  | none =>
    { upstream := none, plaintext := [bytes "HTTP/1.1 400 Bad Request\r\n\r\n"],
      proceeds := false }
  | some target =>
    if ¬ steps.connect_to_server ∨ ¬ steps.create_ssl_context_client
        ∨ ¬ steps.ssl_new_upstream ∨ ¬ steps.ssl_connect then
      { upstream := some target, plaintext := [bytes "HTTP/1.1 502 Bad Gateway\r\n\r\n"],
        proceeds := false }
    else
      { upstream := some target,
        plaintext := [bytes "HTTP/1.1 200 Connection Established\r\n\r\n"],
        proceeds := steps.create_ssl_context_server && steps.generate_cert
          && steps.ssl_new_downstream && steps.ssl_accept }

/-! ## The fast relay (proxy.c 328-360 and 642-671) -/

/-- Source `inject_header(response, &response_len, buffer_size)` on a buffer that holds
no terminator, as the relay loops call it.  `memory` is the bytes from the start of the
buffer on (the array and what follows it in memory), of which the first `response_len`
were received; `strstr` reads `memory` up to its first NUL byte, wherever that is.  The
result is the memory and `*response_len` after the call; `none` when the first CRLF
ends beyond the received bytes, so that the length `*response_len - insert_pos` of the
`memmove` wraps around (no behaviour is defined then). -/
def inject_header_unterminated (memory : List Nat) (response_len buffer_size : Nat) :
    Option (List Nat × Nat) :=
  match strstr memory (bytes "\r\n") with
  | none => some (memory, response_len)
  | some header_end =>
    if (strstr memory (bytes "X-Proxy:")).isSome then some (memory, response_len)
    else
      let insert_pos := header_end + 2
      if response_len + new_header.length ≥ buffer_size then some (memory, response_len)
      else if insert_pos > response_len then none
      else
        some (memory.take insert_pos ++ new_header
            ++ (memory.drop insert_pos).take (response_len - insert_pos)
            ++ memory.drop (response_len + new_header.length),
          response_len + new_header.length)

/-- One round of a relay loop (proxy.c 335-357 and 644-669) for a read that returned
the bytes `chunk`: the read overwrites the start of the buffer and leaves the rest of
`memory` as it was; `first_chunk` is the flag `first_chunk` (`first_response` in the
tunnel).  The result is the bytes written to the client, the flag and the memory after
the round; `none` when `inject_header` has no defined behaviour. -/
def relay_chunk (first_chunk : Bool) (memory chunk : List Nat) :
    Option (List Nat × Bool × List Nat) :=
  let response := chunk ++ memory.drop chunk.length
  if first_chunk ∧ begins_with_http chunk then
    match inject_header_unterminated response chunk.length 65536 with
    | none => none
    | some (response, response_len) => some (response.take response_len, false, response)
  else some (chunk, first_chunk, response)

/-- The relay loop for the reads from the origin, in order: each element of the list is
what one `recv`/`SSL_read` returned (at most `BUFFER_SIZE` bytes), a read of no bytes
ending the loop.  `memory` is the receive buffer (and what follows it) before the first
read: the array is not initialised.  The result is what is written to the client per
read, ending with `none` if a round has no defined behaviour. -/
def relay_chunks : Bool → List Nat → List (List Nat) → List (Option (List Nat))
  | _, _, [] => []
  | first_chunk, memory, chunk :: rest =>
    if chunk = [] then []
    else
      match relay_chunk first_chunk memory chunk with
      | none => [none]
      | some (written, first_chunk, memory) =>
        some written :: relay_chunks first_chunk memory rest

/-- The flag `is_compressed` of both handlers (proxy.c 393 and 791). -/
def is_compressed (full_response : List Nat) : Bool :=
  (strcasestr full_response (bytes "Content-Encoding:")).isSome

/-! ## Validity and serial of a minted certificate (proxy.c 968-977) -/

/-- OpenSSL `X509_gmtime_adj(s, adj)`: the call reads the clock itself (`time(&t)`) and
sets `s` to that reading plus `adj` seconds.  `clock` is the reading; the result is the
time written, `none` when the call fails and writes nothing (an `ASN1_TIME` holds the
years 0 to 9999 only). -/
def X509_gmtime_adj (clock adj : Int) : Option Int :=
  if -62167219200 ≤ clock + adj ∧ clock + adj ≤ 253402300799 then some (clock + adj) else none

/-- The fields `notBefore` and `notAfter` after proxy.c 976-977, `none` for a field
that was not set; `before_clock` and `after_clock` are the readings of the clock inside
the first and the second call.  The results of the calls are discarded.  The model
`generate_cert` takes both readings, and the one of `time(NULL)` in proxy.c 969, to be
the same `now`. -/
def generate_cert_validity (before_clock after_clock : Int) : Option Int × Option Int :=
  (X509_gmtime_adj before_clock (-86400), X509_gmtime_adj after_clock 31536000)

/-- The value of a `char` of the x86-64 Linux target that holds the byte `c`. -/
def signed_char (c : Nat) : Int := if c < 128 then (c : Int) else (c : Int) - 256

/-! ## The client library (`src/c/src/llmproxy.c`): `json_escape` -/

/-- The bytes the second loop of `json_escape` writes for the byte `c` (llmproxy.c
110-121). -/
def escape_byte (c : Nat) : List Nat :=
  if c = 92 then [92, 92]
  else if c = 34 then [92, 34]
  else if c = 8 then [92, 98]
  else if c = 12 then [92, 102]
  else if c = 10 then [92, 110]
  else if c = 13 then [92, 114]
  else if c = 9 then [92, 116]
  else [c]

/-- The counter `extra` after the first loop of `json_escape` (llmproxy.c 87-102). -/
def escape_extra : List Nat → Nat
  | [] => 0
  | c :: cs =>
    (if c = 92 ∨ c = 34 ∨ c = 8 ∨ c = 12 ∨ c = 10 ∨ c = 13 ∨ c = 9 then 1 else 0)
      + escape_extra cs

/-- The bytes the second loop of `json_escape` writes for the `len` bytes of the
string. -/
def escape_bytes : List Nat → List Nat
  | [] => []
  | c :: cs => escape_byte c ++ escape_bytes cs

/-- Source `json_escape(s)`: the C string returned, `none` being the argument NULL, for
which the empty string is returned.  The string is written into `len + extra + 1`
allocated bytes; allocation is taken to succeed. -/
def json_escape (s : Option (List Nat)) : List Nat :=
  match s with
  | none => []
  | some s => escape_bytes (cstr s)

/-- The character a two-character escape denotes: the second character `x` of one of
the escapes of `json_escape`, `none` for any other character. -/
def escape_denotes (x : Nat) : Option Nat :=
  if x = 92 then some 92
  else if x = 34 then some 34
  else if x = 98 then some 8
  else if x = 102 then some 12
  else if x = 110 then some 10
  else if x = 114 then some 13
  else if x = 116 then some 9
  else none

/-- Reading of an escaped text from left to right, each two-character escape replaced
by the character it denotes; a backslash that starts none of these escapes is kept. -/
def json_unescape : List Nat → List Nat
  | [] => []
  | [c] => [c]
  | c :: x :: rest =>
    if c = 92 then
      match escape_denotes x with
      | some d => d :: json_unescape rest
      | none => 92 :: json_unescape (x :: rest)
    else c :: json_unescape (x :: rest)

/-- Whether a text read from left to right holds no double quote outside an escape: a
backslash takes the character after it with it. -/
def quotes_escaped : List Nat → Bool
  | [] => true
  | [c] => decide (c ≠ 34)
  | c :: x :: rest =>
    if c = 92 then quotes_escaped rest
    else if c = 34 then false
    else quotes_escaped (x :: rest)

/-! ## The client library: `llmproxy_generate` (llmproxy.c 319-396) -/

/-- Output of C `%d` for an `int`. -/
def printf_d (n : Int) : List Nat :=
  if n < 0 then 45 :: decimal n.natAbs else decimal n.natAbs

/-- A C `double`: a finite value, plus or minus `m * 2^e`, an infinity, or a NaN. -/
inductive Double where
  | finite (negative : Bool) (m : Nat) (e : Int)
  | infinite (negative : Bool)
  | nan (negative : Bool)
  deriving DecidableEq

/-- The constant `0.5`. -/
def Double.half : Double := Double.finite false 1 (-1)

/-- The integer nearest to `m * 2^e * 10^6`, a tie going to the even one: the digits
`%.6f` prints for the value `m * 2^e` (glibc rounds the exact value, to nearest). -/
def millionths (m : Nat) (e : Int) : Nat :=
  match e with
  | Int.ofNat k => m * 2 ^ k * 1000000
  | Int.negSucc k =>
    let q := m * 1000000 / 2 ^ (k + 1)
    let r := m * 1000000 % 2 ^ (k + 1)
    if 2 * r > 2 ^ (k + 1) ∨ (2 * r = 2 ^ (k + 1) ∧ q % 2 = 1) then q + 1 else q

/-- Six decimal digits of a number below 10^6, with leading zeros. -/
def six_digits (n : Nat) : List Nat :=
  List.replicate (6 - (decimal n).length) 48 ++ decimal n

/-- Output of C `%.6f` (glibc). -/
def printf_f (x : Double) : List Nat :=
  match x with
  | Double.finite negative m e =>
    (if negative then [45] else []) ++ decimal (millionths m e / 1000000) ++ [46]
      ++ six_digits (millionths m e % 1000000)
  | Double.infinite negative => (if negative then [45] else []) ++ bytes "inf"
  | Double.nan negative => (if negative then [45] else []) ++ bytes "nan"

/-- Source `llmproxy_generate`: the JSON text it builds in `body` and hands to
`post_json` as the body of the request.  A pointer argument is `none` when it is NULL.
The result is `none` when the text with its terminator does not fit the `buf_size`
bytes allocated for it: the `sprintf` calls then write past the allocation and no
behaviour is defined.  Allocation is taken to succeed. -/
def llmproxy_generate (model system query : Option (List Nat)) (temperature : Option Double)
    (lastk : Option Int) (session_id : Option (List Nat)) (rag_threshold : Option Double)
    (rag_usage rag_k : Option Int) : Option (List Nat) :=
  let e_model := json_escape model
  let e_system := json_escape system
  let e_query := json_escape query
  let sess_raw := session_id.getD (bytes "GenericSession")
  let e_session := json_escape (some sess_raw)
  let rag_t := rag_threshold.getD Double.half
  let rag_u := rag_usage.getD 0
  let ragk := rag_k.getD 5
  let buf_size := e_model.length + e_system.length + e_query.length + e_session.length + 256
  let body := bytes "\x7b"
    ++ (bytes "\"model\":\"" ++ e_model ++ bytes "\",")
    ++ (bytes "\"system\":\"" ++ e_system ++ bytes "\",")
    ++ (bytes "\"query\":\"" ++ e_query ++ bytes "\",")
    ++ (match temperature with
        | some t => bytes "\"temperature\":" ++ printf_f t ++ bytes ","
        | none => [])
    ++ (match lastk with
        | some k => bytes "\"lastk\":" ++ printf_d k ++ bytes ","
        | none => [])
    ++ (bytes "\"session_id\":\"" ++ e_session ++ bytes "\",")
    ++ (bytes "\"rag_threshold\":" ++ printf_f rag_t ++ bytes ",")
    ++ (bytes "\"rag_usage\":" ++ (if rag_u ≠ 0 then bytes "true" else bytes "false") ++ bytes ",")
    ++ (bytes "\"rag_k\":" ++ printf_d ragk)
    ++ bytes "\x7d"
  if body.length + 1 ≤ buf_size then some body else none

/-! ## Reading of a JSON object, for the claims about request bodies

These definitions follow the JSON grammar for a compact object (no white space between
tokens) whose members are strings, numbers, `true` or `false`; they say what it means
for a member to be present in a body with a value. -/

/-- The value of a member: a string, with its escapes resolved, or the text of a
number, `true` or `false`. -/
inductive JsonValue where
  | string (s : List Nat)
  | literal (text : List Nat)
  deriving DecidableEq

/-- Reading of a string after its opening quote: the text up to the closing quote, a
backslash taking the character after it with it, and what follows the closing quote. -/
def json_string : List Nat → Option (List Nat × List Nat)
  | [] => none
  | [c] => if c = 34 then some ([], []) else none
  | c :: x :: rest =>
    if c = 34 then some ([], x :: rest)
    else if c = 92 then (json_string rest).map (fun r => (92 :: x :: r.1, r.2))
    else (json_string (x :: rest)).map (fun r => (c :: r.1, r.2))

/-- Reading of a value: a string when the text begins with a quote, else the text up to
the next comma or closing brace. -/
def json_value (text : List Nat) : Option (JsonValue × List Nat) :=
  if text.headD 0 = 34 then
    (json_string (text.drop 1)).map (fun r => (JsonValue.string (json_unescape r.1), r.2))
  else
    some (JsonValue.literal (text.takeWhile (fun c => decide (c ≠ 44 ∧ c ≠ 125))),
      text.dropWhile (fun c => decide (c ≠ 44 ∧ c ≠ 125)))

/-- Reading of the members `"name":value`, separated by commas, up to the closing brace
that ends the text; `fuel` bounds the number of members. -/
def json_members_from : Nat → List Nat → Option (List (List Nat × JsonValue))
  | 0, _ => none
  | fuel + 1, text =>
    if text.headD 0 ≠ 34 then none
    else
      match json_string (text.drop 1) with
      | none => none
      | some (name, rest) =>
        if rest.headD 0 ≠ 58 then none
        else
          match json_value (rest.drop 1) with
          | none => none
          | some (value, rest2) =>
            if rest2 = [125] then some [(name, value)]
            else if rest2.headD 0 = 44 then
              (json_members_from fuel (rest2.drop 1)).map (fun ms => (name, value) :: ms)
            else none

/-- The members of a JSON object given as text, in order; `none` when the text is not
such an object. -/
def json_members (text : List Nat) : Option (List (List Nat × JsonValue)) :=
  if text.headD 0 = 123 then json_members_from text.length (text.drop 1) else none

/-! ## The client library: `load_dotenv` (llmproxy.c 47-69 and 131-177) -/

theorem isPrefixOf_eq_true_iff (n l : List Nat) : n.isPrefixOf l = true ↔ n <+: l :=
  List.isPrefixOf_iff_prefix

theorem find_first_nil_needle (l : List Nat) : find_first [] l = some 0 := by
  cases l <;> simp [find_first]

theorem find_first_eq_some_iff (n l : List Nat) (p : Nat) :
    find_first n l = some p ↔
      (n <+: l.drop p ∧ p ≤ l.length ∧ ∀ j, j < p → ¬ n <+: l.drop j) := by
  induction l generalizing p with
  | nil =>
    cases n with
    | nil =>
      simp [find_first]
      constructor
      · intro h; subst h; simp
      · intro h; exact h.1.symm
    | cons a n => simp [find_first]
  | cons c cs ih =>
    unfold find_first
    by_cases hp : n.isPrefixOf (c :: cs) = true
    · rw [if_pos hp]
      have hp2 := (isPrefixOf_eq_true_iff _ _).1 hp
      constructor
      · intro h
        have : p = 0 := by simpa using h.symm
        subst this
        simp [hp2]
      · rintro ⟨_, _, h3⟩
        cases p with
        | zero => rfl
        | succ p => exact absurd hp2 (h3 0 (Nat.succ_pos _))
    · rw [if_neg hp]
      have hp2 : ¬ n <+: c :: cs := fun h => hp ((isPrefixOf_eq_true_iff _ _).2 h)
      cases p with
      | zero =>
        simp only [Option.map_eq_some', List.drop_zero]
        constructor
        · rintro ⟨a, _, ha⟩; omega
        · rintro ⟨h, _⟩; exact absurd h hp2
      | succ p =>
        simp only [Option.map_eq_some', Nat.add_right_cancel_iff, exists_eq_right,
          List.drop_succ_cons, List.length_cons, Nat.add_le_add_iff_right]
        rw [ih p]
        constructor
        · rintro ⟨h1, h2, h3⟩
          refine ⟨h1, h2, ?_⟩
          intro j hj
          cases j with
          | zero => simpa using hp2
          | succ j => simpa using h3 j (by omega)
        · rintro ⟨h1, h2, h3⟩
          refine ⟨h1, h2, ?_⟩
          intro j hj
          simpa using h3 (j + 1) (by omega)

theorem find_first_eq_none_iff (n l : List Nat) :
    find_first n l = none ↔ ∀ j, j ≤ l.length → ¬ n <+: l.drop j := by
  induction l with
  | nil =>
    cases n with
    | nil => simp [find_first]
    | cons a n => simp [find_first]
  | cons c cs ih =>
    unfold find_first
    by_cases hp : n.isPrefixOf (c :: cs) = true
    · rw [if_pos hp]
      have hp2 := (isPrefixOf_eq_true_iff _ _).1 hp
      constructor
      · intro h; cases h
      · intro h; exact absurd hp2 (by simpa using h 0 (Nat.zero_le _))
    · rw [if_neg hp]
      have hp2 : ¬ n <+: c :: cs := fun h => hp ((isPrefixOf_eq_true_iff _ _).2 h)
      simp only [Option.map_eq_none']
      rw [ih]
      constructor
      · intro h j hj
        cases j with
        | zero => simpa using hp2
        | succ j => simpa using h j (by simpa using hj)
      · intro h j hj
        simpa using h (j + 1) (by simpa using hj)

/-! ### `cstr` -/

theorem cstr_append_rest (l : List Nat) : ∃ r, l = cstr l ++ r ∧ (r = [] ∨ ∃ t, r = 0 :: t) := by
  induction l with
  | nil => exact ⟨[], rfl, Or.inl rfl⟩
  | cons c cs ih =>
    unfold cstr
    by_cases hc : c = 0
    · rw [if_pos hc]; subst hc; exact ⟨0 :: cs, rfl, Or.inr ⟨cs, rfl⟩⟩
    · rw [if_neg hc]
      obtain ⟨r, h1, h2⟩ := ih
      exact ⟨r, by simpa using h1, h2⟩

theorem cstr_initial (l : List Nat) : cstr l <+: l := by
  obtain ⟨r, h, _⟩ := cstr_append_rest l
  exact ⟨r, h.symm⟩

theorem cstr_nul_free (l : List Nat) : 0 ∉ cstr l := by
  induction l with
  | nil => simp [cstr]
  | cons c cs ih =>
    unfold cstr
    by_cases hc : c = 0
    · simp [hc]
    · rw [if_neg hc]
      simp only [List.mem_cons, not_or]
      exact ⟨fun h => hc h.symm, ih⟩

theorem cstr_append_of_nul_free (a b : List Nat) (h : 0 ∉ a) : cstr (a ++ b) = a ++ cstr b := by
  induction a with
  | nil => rfl
  | cons c cs ih =>
    simp only [List.mem_cons, not_or] at h
    have hc : c ≠ 0 := fun e => h.1 e.symm
    simp [cstr, hc, ih h.2]

theorem cstr_eq_self (l : List Nat) (h : 0 ∉ l) : cstr l = l := by
  have := cstr_append_of_nul_free l [] h
  simpa [cstr] using this

theorem cstr_length_le (l : List Nat) : (cstr l).length ≤ l.length :=
  (cstr_initial l).length_le

/-! ### `find_first` under extension and restriction of the haystack -/

theorem find_first_bound (n l : List Nat) (p : Nat) (h : find_first n l = some p) :
    p + n.length ≤ l.length := by
  obtain ⟨h1, h2, _⟩ := (find_first_eq_some_iff n l p).1 h
  have := h1.length_le
  simp only [List.length_drop] at this
  omega

theorem prefix_drop_append (n a b : List Nat) (j : Nat) (h : n <+: a.drop j) :
    n <+: (a ++ b).drop j := by
  by_cases hj : j ≤ a.length
  · rw [List.drop_append_of_le_length hj]
    exact h.trans (List.prefix_append _ _)
  · have : a.drop j = [] := List.drop_eq_nil_of_le (by omega)
    rw [this] at h
    have hn : n = [] := List.prefix_nil.1 h
    subst hn
    exact List.nil_prefix

theorem prefix_drop_of_append (n a b : List Nat) (j : Nat) (h : n <+: (a ++ b).drop j)
    (hlen : j + n.length ≤ a.length) : n <+: a.drop j := by
  rw [List.drop_append_of_le_length (by omega)] at h
  exact List.prefix_of_prefix_length_le h (List.prefix_append _ _)
    (by simp only [List.length_drop]; omega)

theorem find_first_append_some (n a b : List Nat) (p : Nat) (h : find_first n a = some p) :
    find_first n (a ++ b) = some p := by
  have hb := find_first_bound n a p h
  obtain ⟨h1, h2, h3⟩ := (find_first_eq_some_iff n a p).1 h
  refine (find_first_eq_some_iff n (a ++ b) p).2 ⟨prefix_drop_append n a b p h1, ?_, ?_⟩
  · simp only [List.length_append]; omega
  · intro j hj hc
    exact h3 j hj (prefix_drop_of_append n a b j hc (by omega))

theorem find_first_of_append_some (n a b : List Nat) (p : Nat)
    (h : find_first n (a ++ b) = some p) (hlen : p + n.length ≤ a.length) :
    find_first n a = some p := by
  obtain ⟨h1, h2, h3⟩ := (find_first_eq_some_iff n (a ++ b) p).1 h
  refine (find_first_eq_some_iff n a p).2 ⟨prefix_drop_of_append n a b p h1 hlen, by omega, ?_⟩
  intro j hj hc
  exact h3 j hj (prefix_drop_append n a b j hc)

theorem find_first_of_append_none (n a b : List Nat) (h : find_first n (a ++ b) = none) :
    find_first n a = none := by
  cases hfa : find_first n a with
  | none => rfl
  | some p => rw [find_first_append_some n a b p hfa] at h; cases h

theorem strstr_of_find_first (n l : List Nat) (p : Nat) (h : find_first n l = some p)
    (hnul : 0 ∉ l.take p) (hn : 0 ∉ n) : strstr l n = some p := by
  unfold strstr
  obtain ⟨h1, h2, h3⟩ := (find_first_eq_some_iff n l p).1 h
  obtain ⟨t, ht⟩ := h1
  have hl : l = l.take p ++ (n ++ t) := by rw [ht, List.take_append_drop]
  have hc : cstr l = (l.take p ++ n) ++ cstr t := by
    conv_lhs => rw [hl]
    rw [cstr_append_of_nul_free _ _ hnul, cstr_append_of_nul_free _ _ hn, List.append_assoc]
  have hlen : (l.take p).length = p := by simp [List.length_take]; omega
  have hfa : find_first n (l.take p ++ n) = some p := by
    apply find_first_of_append_some n (l.take p ++ n) t p
    · rw [List.append_assoc, ← hl]; exact h
    · simp only [List.length_append, hlen]; omega
  rw [hc]
  exact find_first_append_some _ _ _ _ hfa

theorem strstr_none_of_find_first (n l : List Nat) (h : find_first n l = none) :
    strstr l n = none := by
  unfold strstr
  obtain ⟨r, hr, _⟩ := cstr_append_rest l
  rw [hr] at h
  exact find_first_of_append_none _ _ _ h

theorem find_first_of_strstr (n l : List Nat) (p : Nat) (h : strstr l n = some p) :
    find_first n l = some p := by
  unfold strstr at h
  obtain ⟨r, hr, _⟩ := cstr_append_rest l
  conv_lhs => rw [hr]
  exact find_first_append_some _ _ _ _ h

/-! ### `strncmp` against a literal -/

theorem strncmp_eq_iff_starts (lit s : List Nat) (hlit : 0 ∉ lit) :
    strncmp_eq s lit lit.length = true ↔ lit <+: s := by
  induction lit generalizing s with
  | nil => simp [strncmp_eq]
  | cons a lit ih =>
    simp only [List.mem_cons, not_or] at hlit
    have ha : a ≠ 0 := fun e => hlit.1 e.symm
    cases s with
    | nil =>
      simp [strncmp_eq, List.headD]
      exact fun e => ha e.symm
    | cons b s =>
      simp only [List.length_cons, strncmp_eq, List.headD_cons, List.tail_cons]
      by_cases hab : b = a
      · subst hab
        simp only [ne_eq, not_true_eq_false, ↓reduceIte, ha]
        rw [ih s hlit.2]
        simp [List.cons_prefix_cons]
      · simp [hab, List.cons_prefix_cons]
        exact fun e => absurd e.symm hab

/-! ### Counting occurrences -/

theorem isPrefixOf_cons_cons (x : Nat) (pat : List Nat) (y : Nat) (a : List Nat) :
    (x :: pat).isPrefixOf (y :: a) = (x == y && pat.isPrefixOf a) := rfl

theorem inject_header_eq (response : List Nat) (cap p : Nat)
    (h_crlf : strstr response (bytes "\r\n") = some p)
    (h_fresh : strstr response (bytes "X-Proxy:") = none)
    (h_cap : response.length + 15 < cap) :
    inject_header response cap
      = response.take (p + 2) ++ new_header ++ response.drop (p + 2) := by
  have hlen : new_header.length = 15 := by decide
  unfold inject_header
  simp only [h_crlf, h_fresh, hlen, Option.isSome_none, Bool.false_eq_true, if_false]
  rw [if_neg (by omega)]

theorem inject_header_unchanged_of_no_crlf (response : List Nat) (cap : Nat)
    (h : strstr response (bytes "\r\n") = none) : inject_header response cap = response := by
  unfold inject_header
  simp only [h]

theorem find_first_cons (n : List Nat) (c : Nat) (cs : List Nat) :
    find_first n (c :: cs)
      = if n.isPrefixOf (c :: cs) = true then some 0 else (find_first n cs).map (· + 1) := rfl

theorem bytes_crlf : bytes "\r\n" = [13, 10] := by decide

theorem bytes_crlf2 : bytes "\r\n\r\n" = [13, 10, 13, 10] := by decide

/-- Decomposition of a buffer at its first CRLF. -/
theorem split_at_first_crlf (l : List Nat) (p : Nat) (h : find_first [13, 10] l = some p) :
    ∃ b, l = l.take p ++ 13 :: 10 :: b ∧ l.drop (p + 2) = b ∧ (l.take p).length = p
      ∧ l.take (p + 2) = l.take p ++ [13, 10] := by
  obtain ⟨⟨t, ht⟩, h2, _⟩ := (find_first_eq_some_iff _ l p).1 h
  have hl : l = l.take p ++ 13 :: 10 :: t := by
    conv_lhs => rw [← List.take_append_drop p l, ← ht]
    simp
  have hlen : (l.take p).length = p := by simp [List.length_take]; omega
  refine ⟨t, hl, ?_, hlen, ?_⟩
  · rw [← List.drop_drop, ← ht]; simp
  · conv_lhs => rw [hl]
    rw [List.take_append_eq_append_take, hlen]
    simp

theorem strncmp_literal (request lit : List Nat) (n : Nat) (hn : lit.length = n) (h0 : 0 ∉ lit) :
    strncmp_eq request lit n = true ↔ lit <+: request := by
  subst hn
  exact strncmp_eq_iff_starts lit request h0

theorem head_of_starts (a : Nat) (l r : List Nat) (h : (a :: l) <+: r) : r.head? = some a := by
  obtain ⟨t, rfl⟩ := h
  rfl

/-- C5: for every non-empty first receive, `handle_client` calls the MITM handler
exactly when the buffer starts with "CONNECT ", the plain-HTTP handler exactly when it
starts with "GET ", "POST " or "HEAD ", and in every other case (and only then) sends
exactly "HTTP/1.1 501 Not Implemented\r\n\r\n" and calls neither handler. -/
theorem handle_client_routes (request : List Nat) (h : request ≠ []) :
    (handle_client request = Dispatch.https_connect request ↔ bytes "CONNECT " <+: request)
    ∧ (handle_client request = Dispatch.http_request request ↔
        (bytes "GET " <+: request ∨ bytes "POST " <+: request ∨ bytes "HEAD " <+: request))
    ∧ (handle_client request = Dispatch.reply (bytes "HTTP/1.1 501 Not Implemented\r\n\r\n") ↔
        (¬ bytes "CONNECT " <+: request ∧ ¬ bytes "GET " <+: request
          ∧ ¬ bytes "POST " <+: request ∧ ¬ bytes "HEAD " <+: request)) := by
  have hlen : request.length ≠ 0 := by
    intro e; exact h (List.length_eq_zero.1 e)
  have hc := strncmp_literal request (bytes "CONNECT ") 8 (by decide) (by decide)
  have hg := strncmp_literal request (bytes "GET ") 4 (by decide) (by decide)
  have hp := strncmp_literal request (bytes "POST ") 5 (by decide) (by decide)
  have hh := strncmp_literal request (bytes "HEAD ") 5 (by decide) (by decide)
  have xg : bytes "CONNECT " <+: request → ¬ bytes "GET " <+: request := by
    intro h1 h2
    have e1 := head_of_starts 67 (bytes "ONNECT ") request h1
    have e2 := head_of_starts 71 (bytes "ET ") request h2
    rw [e1] at e2; cases e2
  have xp : bytes "CONNECT " <+: request → ¬ bytes "POST " <+: request := by
    intro h1 h2
    have e1 := head_of_starts 67 (bytes "ONNECT ") request h1
    have e2 := head_of_starts 80 (bytes "OST ") request h2
    rw [e1] at e2; cases e2
  have xh : bytes "CONNECT " <+: request → ¬ bytes "HEAD " <+: request := by
    intro h1 h2
    have e1 := head_of_starts 67 (bytes "ONNECT ") request h1
    have e2 := head_of_starts 72 (bytes "EAD ") request h2
    rw [e1] at e2; cases e2
  unfold handle_client
  rw [if_neg hlen]
  by_cases c1 : bytes "CONNECT " <+: request
  · rw [if_pos (hc.2 c1)]
    refine ⟨⟨fun _ => c1, fun _ => rfl⟩, ⟨(fun e => by cases e), fun e => ?_⟩,
      ⟨(fun e => by cases e), fun e => absurd c1 e.1⟩⟩
    rcases e with e | e | e
    · exact absurd e (xg c1)
    · exact absurd e (xp c1)
    · exact absurd e (xh c1)
  · have c1f : ¬ strncmp_eq request (bytes "CONNECT ") 8 = true := fun e => c1 (hc.1 e)
    rw [if_neg c1f]
    by_cases c2 : bytes "GET " <+: request ∨ bytes "POST " <+: request ∨ bytes "HEAD " <+: request
    · have : (strncmp_eq request (bytes "GET ") 4 || strncmp_eq request (bytes "POST ") 5
          || strncmp_eq request (bytes "HEAD ") 5) = true := by
        rw [Bool.or_eq_true, Bool.or_eq_true, hg, hp, hh]
        rcases c2 with e2 | e2 | e2
        · exact Or.inl (Or.inl e2)
        · exact Or.inl (Or.inr e2)
        · exact Or.inr e2
      rw [if_pos this]
      refine ⟨⟨(fun e => by cases e), fun e => absurd e c1⟩, ⟨fun _ => c2, fun _ => rfl⟩,
        ⟨(fun e => by cases e), fun e => ?_⟩⟩
      rcases c2 with e2 | e2 | e2
      · exact absurd e2 e.2.1
      · exact absurd e2 e.2.2.1
      · exact absurd e2 e.2.2.2
    · have : ¬ (strncmp_eq request (bytes "GET ") 4 || strncmp_eq request (bytes "POST ") 5
          || strncmp_eq request (bytes "HEAD ") 5) = true := by
        rw [Bool.or_eq_true, Bool.or_eq_true, hg, hp, hh]
        rintro ((e2 | e2) | e2)
        · exact c2 (Or.inl e2)
        · exact c2 (Or.inr (Or.inl e2))
        · exact c2 (Or.inr (Or.inr e2))
      rw [if_neg this]
      refine ⟨⟨(fun e => by cases e), fun e => absurd e c1⟩,
        ⟨(fun e => by cases e), fun e => absurd e c2⟩, ⟨fun _ => ?_, fun _ => rfl⟩⟩
      exact ⟨c1, fun e => c2 (Or.inl e), fun e => c2 (Or.inr (Or.inl e)),
        fun e => c2 (Or.inr (Or.inr e))⟩

/-- C5, witness: "PUT / HTTP/1.1\r\n\r\n" gets the 501 reply. -/
theorem handle_client_routes_witness :
    handle_client (bytes "PUT / HTTP/1.1\r\n\r\n")
      = Dispatch.reply (bytes "HTTP/1.1 501 Not Implemented\r\n\r\n") :=
  (handle_client_routes (bytes "PUT / HTTP/1.1\r\n\r\n") (by decide)).2.2.2
    (by decide)

/-! ### Certificate minting -/

theorem san_fits (hostname : List Nat) (h_len : hostname.length < 256) :
    (bytes "DNS:" ++ hostname).take 511 = bytes "DNS:" ++ hostname := by
  apply List.take_of_length_le
  have : (bytes "DNS:").length = 4 := by decide
  rw [List.length_append, this]
  omega

/-- C6 (amended): a certificate returned by `generate_cert` for a hostname H of fewer
than 256 bytes has the CA certificate's subject as issuer; its subject is C=US,
O=CS112 Proxy, CN=H when OpenSSL accepted the three name entries (the code does not
check them); and it carries the subjectAltName entry DNS:H when OpenSSL built that
extension, and no subjectAltName at all when it did not (the code then only logs a
warning and still returns the certificate). -/
theorem generate_cert_identity (lib : OpenSSL) (ca : CA) (now : Nat) (hostname : List Nat)
    (cert : X509) (h_len : hostname.length < 256)
    (h : generate_cert lib ca now hostname = some cert) :
    cert.issuer = ca.subject
    ∧ (lib.name_entry Attr.C (bytes "US") = true
        → lib.name_entry Attr.O (bytes "CS112 Proxy") = true
        → lib.name_entry Attr.CN hostname = true
        → cert.subject
            = [(Attr.C, bytes "US"), (Attr.O, bytes "CS112 Proxy"), (Attr.CN, hostname)])
    ∧ (lib.ext_conf Nid.subject_alt_name (bytes "DNS:" ++ hostname) = true →
        (Nid.subject_alt_name, bytes "DNS:" ++ hostname) ∈ cert.extensions)
    ∧ (lib.ext_conf Nid.subject_alt_name (bytes "DNS:" ++ hostname) = false →
        ∀ v, (Nid.subject_alt_name, v) ∉ cert.extensions) := by
  have hsan := san_fits hostname h_len
  unfold generate_cert at h
  by_cases h1 : lib.x509_new = true <;> by_cases h2 : lib.set_version = true <;>
    by_cases h3 : lib.set_pubkey = true <;> by_cases h4 : lib.sign = true <;>
    simp only [h1, h2, h3, h4, not_true_eq_false, not_false_eq_true, if_true, if_false,
      Option.some.injEq, reduceCtorEq] at h
  subst h
  rw [hsan]
  refine ⟨rfl, ?_, ?_, ?_⟩
  · intro e1 e2 e3
    simp [List.filter, e1, e2, e3]
  · intro hs
    simp only [List.mem_filter, hs, and_true]
    simp
  · intro hs v hv
    simp only [List.mem_filter, List.mem_cons, Prod.mk.injEq, List.mem_singleton,
      List.not_mem_nil, or_false, reduceCtorEq, false_and, false_or, true_and] at hv
    obtain ⟨rfl, hv2⟩ := hv
    rw [hs] at hv2
    cases hv2

/-- C6, witness: with an OpenSSL that accepts every call, the certificate minted for
"example.test" has the CA's subject as issuer, subject C=US, O=CS112 Proxy,
CN=example.test and the subjectAltName entry DNS:example.test. -/
theorem generate_cert_identity_witness :
    ∃ cert, generate_cert OpenSSL.accepting
        ⟨[(Attr.CN, bytes "CS112 CA")], 7⟩ 1700000000 (bytes "example.test") = some cert
      ∧ cert.issuer = [(Attr.CN, bytes "CS112 CA")]
      ∧ cert.subject
          = [(Attr.C, bytes "US"), (Attr.O, bytes "CS112 Proxy"), (Attr.CN, bytes "example.test")]
      ∧ (Nid.subject_alt_name, bytes "DNS:" ++ bytes "example.test") ∈ cert.extensions := by
  cases hc : generate_cert OpenSSL.accepting
      ⟨[(Attr.CN, bytes "CS112 CA")], 7⟩ 1700000000 (bytes "example.test") with
  | none => exact absurd hc (by decide)
  | some cert =>
    have h := generate_cert_identity _ _ _ _ cert (by decide) hc
    exact ⟨cert, rfl, h.1, h.2.1 rfl rfl rfl, h.2.2.1 rfl⟩

/-- C6, counterexample: when OpenSSL does not build the subjectAltName extension,
`generate_cert` still returns a certificate, and it carries no subjectAltName; and when
OpenSSL rejects the commonName (here a hostname of 70 bytes, with an OpenSSL that
takes at most 64), the certificate is returned with a subject that has no CN. -/
theorem generate_cert_without_san :
    (generate_cert
        { OpenSSL.accepting with ext_conf := fun nid _ => decide (nid ≠ Nid.subject_alt_name) }
        ⟨[(Attr.CN, bytes "CS112 CA")], 7⟩ 1700000000 (bytes "example.test")).map
          (fun cert => (cert.subject, cert.extensions.map Prod.fst))
      = some ([(Attr.C, bytes "US"), (Attr.O, bytes "CS112 Proxy"),
                (Attr.CN, bytes "example.test")],
              [Nid.basic_constraints, Nid.key_usage, Nid.ext_key_usage])
    ∧ (generate_cert
        { OpenSSL.accepting with
          name_entry := fun attr v => decide (attr = Attr.CN → v.length ≤ 64) }
        ⟨[(Attr.CN, bytes "CS112 CA")], 7⟩ 1700000000
        (List.replicate 61 119 ++ bytes ".test.com")).map (fun cert => cert.subject)
      = some [(Attr.C, bytes "US"), (Attr.O, bytes "CS112 Proxy")] := by
  decide

/-! ### The cooldown of the enhancement client -/

theorem send_to_flask_enhance_skips (t0 t : Int) (b : Backend) (h : t - t0 < 60) :
    send_to_flask_enhance ⟨false, t0⟩ t b = ⟨⟨false, t0⟩, [], none⟩ := by
  unfold send_to_flask_enhance
  rw [if_pos ⟨rfl, h⟩]

theorem flask_calls_skip (t0 : Int) (calls : List (Int × Backend))
    (h : ∀ c ∈ calls, c.1 - t0 < 60) :
    flask_calls ⟨false, t0⟩ calls
      = (⟨false, t0⟩, calls.map (fun _ => ⟨⟨false, t0⟩, [], none⟩)) := by
  induction calls with
  | nil => rfl
  | cons c rest ih =>
    obtain ⟨now, b⟩ := c
    have h1 : now - t0 < 60 := h (now, b) (List.mem_cons_self _ _)
    have h2 := ih (fun c hc => h c (List.mem_cons_of_mem _ hc))
    simp only [flask_calls, send_to_flask_enhance_skips t0 now b h1, h2, List.map_cons]

/-- C10: a connect failure at time `t0` leaves the globals at (unavailable, `t0`); from
there every call at a time `t` with `t - t0 < 60`, in any number and whatever the
backend would answer, returns no result, makes no socket call and leaves both globals
as they are; and the first call at a time `t >= t0 + 60` goes to the socket layer
(`socket`, then `connect` unless `socket` failed) and marks the backend available
again when the connection succeeds. -/
theorem flask_cooldown (st : FlaskState) (t0 t : Int) (calls : List (Int × Backend))
    (b : Backend)
    (h_reach : st.flask_available = true ∨ 60 ≤ t0 - st.last_flask_check)
    (h_within : ∀ c ∈ calls, c.1 - t0 < 60)
    (h_after : t0 + 60 ≤ t) :
    send_to_flask_enhance st t0 Backend.refused
        = ⟨⟨false, t0⟩, [Syscall.socket, Syscall.connect], none⟩
    ∧ (flask_calls ⟨false, t0⟩ calls).1 = ⟨false, t0⟩
    ∧ (flask_calls ⟨false, t0⟩ calls).2.length = calls.length
    ∧ (∀ c ∈ (flask_calls ⟨false, t0⟩ calls).2,
        c.result = none ∧ c.syscalls = [] ∧ c.state = ⟨false, t0⟩)
    ∧ Syscall.socket ∈ (send_to_flask_enhance (flask_calls ⟨false, t0⟩ calls).1 t b).syscalls
    ∧ (b ≠ Backend.no_socket →
        Syscall.connect ∈ (send_to_flask_enhance (flask_calls ⟨false, t0⟩ calls).1 t b).syscalls)
    ∧ (∀ r, b = Backend.connected r →
        send_to_flask_enhance (flask_calls ⟨false, t0⟩ calls).1 t b
          = ⟨⟨true, t0⟩, [Syscall.socket, Syscall.connect], r⟩) := by
  have hskip := flask_calls_skip t0 calls h_within
  have hgate0 : ¬ (st.flask_available = false ∧ t0 - st.last_flask_check < 60) := by
    rintro ⟨h1, h2⟩
    rcases h_reach with h | h
    · rw [h1] at h; cases h
    · omega
  have hgate : ¬ ((⟨false, t0⟩ : FlaskState).flask_available = false
      ∧ t - (⟨false, t0⟩ : FlaskState).last_flask_check < 60) := by
    rintro ⟨_, h2⟩
    simp only at h2
    omega
  rw [hskip]
  refine ⟨?_, rfl, by simp, ?_, ?_, ?_, ?_⟩
  · unfold send_to_flask_enhance
    rw [if_neg hgate0]
  · intro c hc
    obtain ⟨_, _, rfl⟩ := List.mem_map.1 hc
    exact ⟨rfl, rfl, rfl⟩
  · unfold send_to_flask_enhance
    rw [if_neg hgate]
    cases b <;> simp
  · intro hb
    unfold send_to_flask_enhance
    rw [if_neg hgate]
    cases b with
    | no_socket => exact absurd rfl hb
    | refused => simp
    | connected r => simp
  · intro r hb
    subst hb
    unfold send_to_flask_enhance
    rw [if_neg hgate]

/-- C10, witness: the backend refuses at time 1000; calls at 1010 and 1059 are skipped
whatever the backend would do; the call at 1060 connects and marks it available. -/
theorem flask_cooldown_witness :
    (flask_calls FlaskState.initial
        [(1000, Backend.refused), (1010, Backend.refused), (1059, Backend.connected (some [60])),
         (1060, Backend.connected (some [60]))]).2.map (fun c => (c.state, c.syscalls, c.result))
      = [(⟨false, 1000⟩, [Syscall.socket, Syscall.connect], none),
         (⟨false, 1000⟩, [], none), (⟨false, 1000⟩, [], none),
         (⟨true, 1000⟩, [Syscall.socket, Syscall.connect], some [60])]
    ∧ send_to_flask_enhance
        (flask_calls ⟨false, 1000⟩
          [(1010, Backend.refused), (1059, Backend.connected (some [60]))]).1
        1060 (Backend.connected (some [60]))
      = ⟨⟨true, 1000⟩, [Syscall.socket, Syscall.connect], some [60]⟩ :=
  ⟨by decide,
    (flask_cooldown FlaskState.initial 1000 1060
      [(1010, Backend.refused), (1059, Backend.connected (some [60]))]
      (Backend.connected (some [60])) (Or.inl rfl) (by decide) (by decide)).2.2.2.2.2.2
      (some [60]) rfl⟩

/-! ### Buffered responses -/

theorem should_enhance_separator (r : List Nat) (h : should_enhance r = true) :
    ∃ q, strstr r (bytes "\r\n\r\n") = some q := by
  unfold should_enhance at h
  cases hq : strstr r (bytes "\r\n\r\n") with
  | none => rw [hq] at h; cases h
  | some q => exact ⟨q, rfl⟩

theorem strstr_crlf_of_separator (r : List Nat) (q : Nat)
    (h : strstr r (bytes "\r\n\r\n") = some q) : ∃ p, strstr r (bytes "\r\n") = some p := by
  unfold strstr at h ⊢
  rw [bytes_crlf2] at h
  rw [bytes_crlf]
  obtain ⟨h1, h2, _⟩ := (find_first_eq_some_iff _ _ _).1 h
  cases hp : find_first [13, 10] (cstr r) with
  | some p => exact ⟨p, rfl⟩
  | none =>
    exfalso
    have hpre : [13, 10] <+: [13, 10, 13, 10] := ⟨[13, 10], rfl⟩
    exact (find_first_eq_none_iff _ _).1 hp q h2 (List.IsPrefix.trans hpre h1)

/-- The status line the handlers copy is the text before the first CRLF of the bytes. -/
theorem status_line_of_enhanced (r : List Nat) (p : Nat) (h_enh : should_enhance r = true)
    (h_status : find_first (bytes "\r\n") r = some p) : strstr r (bytes "\r\n") = some p := by
  obtain ⟨q, hq⟩ := should_enhance_separator r h_enh
  obtain ⟨p', hp'⟩ := strstr_crlf_of_separator r q hq
  have := find_first_of_strstr _ _ _ hp'
  rw [h_status] at this
  rw [hp', ← this]

theorem llm_response_enhanced (full_url r e : List Nat) (p : Nat)
    (h_enh : should_enhance r = true)
    (h_pos : 0 < e.length) (h_lt : e.length < max_response)
    (h_status : find_first (bytes "\r\n") r = some p)
    (h_fit : p + (enhanced_headers e.length).length + e.length ≤ max_response) :
    (llm_response full_url r (some e)).to_client
      = some (r.take p ++ enhanced_headers e.length ++ e) := by
  obtain ⟨q, hq⟩ := should_enhance_separator r h_enh
  have hs := status_line_of_enhanced r p h_enh h_status
  unfold llm_response
  simp only [h_enh, hq, hs, if_true]
  rw [if_pos ⟨h_pos, h_lt⟩, if_pos h_fit]

/-- C8: for every buffered response selected for enhancement, with status line `S` (the
bytes before its first CRLF), and every enhanced body `E` with `0 < |E| < 2 MiB` whose
frame fits the 2 MiB output buffer, both handlers send exactly `S`, then
"\r\nX-Proxy:CS112\r\nContent-Length: " with the decimal of `|E|`, then
"\r\nContent-Type: text/html; charset=utf-8\r\nConnection: close\r\n\r\n", then `E`. -/
theorem enhanced_response_frame (hostname url client_request r e : List Nat) (p : Nat)
    (h_enh : should_enhance r = true)
    (h_pos : 0 < e.length) (h_lt : e.length < 2 * 1024 * 1024)
    (h_status : find_first (bytes "\r\n") r = some p)
    (h_fit : p + (enhanced_headers e.length).length + e.length ≤ 2 * 1024 * 1024) :
    (handle_http_request_llm hostname url r (some e)).to_client
      = some (r.take p ++ bytes "\r\nX-Proxy:CS112\r\nContent-Length: " ++ decimal e.length
          ++ bytes "\r\nContent-Type: text/html; charset=utf-8\r\nConnection: close\r\n\r\n" ++ e)
    ∧ (handle_https_connect_llm hostname client_request r (some e)).to_client
      = some (r.take p ++ bytes "\r\nX-Proxy:CS112\r\nContent-Length: " ++ decimal e.length
          ++ bytes "\r\nContent-Type: text/html; charset=utf-8\r\nConnection: close\r\n\r\n" ++ e) := by
  have h1 := fun u => llm_response_enhanced u r e p h_enh h_pos h_lt h_status h_fit
  unfold handle_http_request_llm handle_https_connect_llm
  rw [h1, h1]
  unfold enhanced_headers
  simp only [List.append_assoc, and_self]

/-- C8, witness: a 200 text/html response with body "<p>old</p>" and the enhanced body
"<p>new text</p>" (15 bytes). -/
theorem enhanced_response_frame_witness :
    (handle_http_request_llm (bytes "example.test") (bytes "/")
        (bytes "HTTP/1.1 200 OK\r\nContent-Type: text/html\r\nServer: x\r\n\r\n<p>old</p>")
        (some (bytes "<p>new text</p>"))).to_client
      = some (bytes ("HTTP/1.1 200 OK\r\nX-Proxy:CS112\r\nContent-Length: 15\r\n"
          ++ "Content-Type: text/html; charset=utf-8\r\nConnection: close\r\n\r\n<p>new text</p>")) := by
  have h := (enhanced_response_frame (bytes "example.test") (bytes "/") []
    (bytes "HTTP/1.1 200 OK\r\nContent-Type: text/html\r\nServer: x\r\n\r\n<p>old</p>")
    (bytes "<p>new text</p>") 15 (by decide) (by decide) (by decide) (by decide) (by decide)).1
  rw [h]
  decide

theorem inject_header_cases (r : List Nat) (cap : Nat) :
    inject_header r cap = r
      ∨ ∃ i, i ≤ r.length ∧ inject_header r cap = r.take i ++ new_header ++ r.drop i := by
  unfold inject_header
  cases hp : strstr r (bytes "\r\n") with
  | none => exact Or.inl rfl
  | some p =>
    simp only
    by_cases hx : (strstr r (bytes "X-Proxy:")).isSome = true
    · rw [if_pos hx]; exact Or.inl rfl
    · rw [if_neg hx]
      by_cases hc : r.length + new_header.length ≥ cap
      · rw [if_pos hc]; exact Or.inl rfl
      · rw [if_neg hc]
        refine Or.inr ⟨p + 2, ?_, rfl⟩
        have := find_first_bound _ _ _ hp
        have h2 : (bytes "\r\n").length = 2 := by decide
        have h3 := cstr_length_le r
        omega

theorem llm_response_fallback (full_url r : List Nat) (enhanced : Option (List Nat))
    (h : should_enhance r = false ∨ enhanced = none
      ∨ ∃ e, enhanced = some e ∧ (e.length = 0 ∨ max_response ≤ e.length)) :
    (llm_response full_url r enhanced).to_client = some (forward_response max_response r) := by
  unfold llm_response
  by_cases hs : should_enhance r = true
  · rcases h with h | h | ⟨e, he, h⟩
    · rw [hs] at h; cases h
    · subst h
      simp only [hs, if_true]
      cases strstr r (bytes "\r\n\r\n") <;> rfl
    · subst he
      simp only [hs, if_true]
      have hn : ¬ (0 < e.length ∧ e.length < max_response) := by omega
      cases strstr r (bytes "\r\n\r\n") with
      | none => rfl
      | some q => simp only [if_neg hn]
  · simp only [hs, Bool.false_eq_true, if_false]

/-- C9: in enhancing mode, whenever enhancement is not applied (the response is not
selected: no separator, not HTML, compressed or empty body; or the enhancement client
returns nothing, an empty body, or a body of 2 MiB or more), both handlers send the
original buffered response through the marker injection: `inject_header` of it when it
begins with "HTTP/" and the response itself otherwise; what is sent is the original, or
the original with the 15-byte marker line inserted at one place, so deleting that line
gives back the original bytes. -/
theorem fallback_sends_original (hostname url client_request r : List Nat)
    (enhanced : Option (List Nat))
    (h : should_enhance r = false ∨ enhanced = none
      ∨ ∃ e, enhanced = some e ∧ (e.length = 0 ∨ 2 * 1024 * 1024 ≤ e.length)) :
    (handle_http_request_llm hostname url r enhanced).to_client
      = some (if begins_with_http r then inject_header r (2 * 1024 * 1024) else r)
    ∧ (handle_https_connect_llm hostname client_request r enhanced).to_client
      = some (if begins_with_http r then inject_header r (2 * 1024 * 1024) else r)
    ∧ ((if begins_with_http r then inject_header r (2 * 1024 * 1024) else r) = r
      ∨ ∃ i, i ≤ r.length
        ∧ (if begins_with_http r then inject_header r (2 * 1024 * 1024) else r)
            = r.take i ++ bytes "X-Proxy:CS112\r\n" ++ r.drop i) := by
  have h1 := fun u => llm_response_fallback u r enhanced h
  unfold handle_http_request_llm handle_https_connect_llm
  rw [h1, h1]
  unfold forward_response max_response
  refine ⟨rfl, rfl, ?_⟩
  by_cases hb : begins_with_http r = true
  · rw [if_pos hb]
    exact inject_header_cases r _
  · rw [if_neg hb]
    exact Or.inl rfl

/-- C9, witness (scenario S4): a gzip-encoded text/html response is sent on as it came,
with the marker line after its status line, whatever the backend would have said. -/
theorem fallback_sends_original_witness :
    (handle_http_request_llm (bytes "example.test") (bytes "/")
        (bytes "HTTP/1.1 200 OK\r\nContent-Type: text/html\r\nContent-Encoding: gzip\r\n\r\n<p>A</p>")
        (some (bytes "<p>A!</p>"))).to_client
      = some (bytes ("HTTP/1.1 200 OK\r\nX-Proxy:CS112\r\nContent-Type: text/html\r\n"
          ++ "Content-Encoding: gzip\r\n\r\n<p>A</p>")) := by
  have h := (fallback_sends_original (bytes "example.test") (bytes "/") []
    (bytes "HTTP/1.1 200 OK\r\nContent-Type: text/html\r\nContent-Encoding: gzip\r\n\r\n<p>A</p>")
    (some (bytes "<p>A!</p>")) (Or.inl (by decide))).1
  rw [h]
  decide

/-- C7, failing input: a text/html response without any Content-Encoding header whose
body mentions "Content-Encoding:" is not selected for enhancement, so neither handler
calls the enhancement client. -/
theorem body_text_blocks_enhancement :
    strcasestr (response_head (bytes
        "HTTP/1.1 200 OK\r\nContent-Type: text/html\r\n\r\n<p>Content-Encoding: gzip</p>"))
      (bytes "Content-Encoding:") = none
    ∧ should_enhance (bytes
        "HTTP/1.1 200 OK\r\nContent-Type: text/html\r\n\r\n<p>Content-Encoding: gzip</p>") = false
    ∧ (handle_http_request_llm (bytes "example.test") (bytes "/") (bytes
        "HTTP/1.1 200 OK\r\nContent-Type: text/html\r\n\r\n<p>Content-Encoding: gzip</p>")
        (some (bytes "<p>new</p>"))).flask_call = none
    ∧ (handle_https_connect_llm (bytes "example.test") (bytes "GET / HTTP/1.1\r\n\r\n") (bytes
        "HTTP/1.1 200 OK\r\nContent-Type: text/html\r\n\r\n<p>Content-Encoding: gzip</p>")
        (some (bytes "<p>new</p>"))).flask_call = none := by
  decide


/-! ### Header injection -/

theorem inject_header_full (r : List Nat) (cap : Nat) (h : r.length + 15 ≥ cap) :
    inject_header r cap = r := by
  have hlen : new_header.length = 15 := by decide
  unfold inject_header
  cases strstr r (bytes "\r\n") with
  | none => rfl
  | some p =>
    simp only [hlen]
    rw [if_pos h]
    simp

/-- C2 (amended): for every response buffer of length `len` whose first CRLF (at offset
`p`) is not preceded by a NUL byte, that does not contain "X-Proxy:", and every
capacity `cap` with `len + 15 < cap`, `inject_header` produces the original bytes up to
and including that CRLF, then the 15 bytes "X-Proxy:CS112\r\n", then all remaining
original bytes in order, and the length becomes `len + 15`. -/
theorem inject_header_inserts (response : List Nat) (cap p : Nat)
    (h_crlf : find_first (bytes "\r\n") response = some p)
    (h_nul : 0 ∉ response.take p)
    (h_fresh : find_first (bytes "X-Proxy:") response = none)
    (h_cap : response.length + 15 < cap) :
    inject_header response cap
        = (response.take p ++ bytes "\r\n") ++ bytes "X-Proxy:CS112\r\n" ++ response.drop (p + 2)
    ∧ (inject_header response cap).length = response.length + 15
    ∧ (response.take p ++ bytes "\r\n") ++ response.drop (p + 2) = response := by
  have hinj := inject_header_eq response cap p
    (strstr_of_find_first _ _ _ h_crlf h_nul (by decide))
    (strstr_none_of_find_first _ _ h_fresh) h_cap
  rw [bytes_crlf] at h_crlf ⊢
  obtain ⟨b, hl, hb, hlen, htk⟩ := split_at_first_crlf response p h_crlf
  have hnh : new_header = bytes "X-Proxy:CS112\r\n" := rfl
  have h15 : (bytes "X-Proxy:CS112\r\n").length = 15 := by decide
  rw [hinj, htk, hnh]
  refine ⟨rfl, ?_, ?_⟩
  · rw [← htk]
    simp only [List.length_append, List.length_take, List.length_drop, h15]
    have := find_first_bound _ _ _ h_crlf
    simp only [List.length_cons, List.length_nil] at this
    omega
  · rw [← htk, List.take_append_drop]

/-- C2, witness (scenario S1): "HTTP/1.1 200 OK\r\nContent-Length: 5\r\n\r\nhello" becomes
"HTTP/1.1 200 OK\r\nX-Proxy:CS112\r\nContent-Length: 5\r\n\r\nhello". -/
theorem inject_header_inserts_witness :
    inject_header (bytes "HTTP/1.1 200 OK\r\nContent-Length: 5\r\n\r\nhello") 65536
      = bytes "HTTP/1.1 200 OK\r\nX-Proxy:CS112\r\nContent-Length: 5\r\n\r\nhello" := by
  have h := (inject_header_inserts (bytes "HTTP/1.1 200 OK\r\nContent-Length: 5\r\n\r\nhello")
    65536 15 (by decide) (by decide) (by decide) (by decide)).1
  rw [h]
  decide

/-- C2, counterexample: the 20-byte buffer "HTTP/1.1 200 OK", NUL, CRLF, CRLF contains a
CRLF and no "X-Proxy:", and 20 + 15 is below the capacity, yet `inject_header` leaves
it as it is: `strstr` stops at the NUL byte before the CRLF. -/
theorem inject_header_nul_before_crlf :
    find_first (bytes "\r\n") (bytes "HTTP/1.1 200 OK" ++ [0] ++ bytes "\r\n\r\n") = some 16
    ∧ find_first (bytes "X-Proxy:") (bytes "HTTP/1.1 200 OK" ++ [0] ++ bytes "\r\n\r\n") = none
    ∧ (bytes "HTTP/1.1 200 OK" ++ [0] ++ bytes "\r\n\r\n").length + 15 < 65536
    ∧ inject_header (bytes "HTTP/1.1 200 OK" ++ [0] ++ bytes "\r\n\r\n") 65536
        = bytes "HTTP/1.1 200 OK" ++ [0] ++ bytes "\r\n\r\n" := by
  decide

/-! ### Requests forwarded upstream -/

/-- C3, failing input: of two Accept-Encoding lines only the first is removed, in the
plain handler and in the tunnel alike. -/
theorem accept_encoding_second_line_kept :
    forwarded_request true (bytes
        "GET / HTTP/1.1\r\nHost: a\r\nAccept-Encoding: gzip\r\nAccept-Encoding: br\r\n\r\n")
      = bytes "GET / HTTP/1.1\r\nHost: a\r\nAccept-Encoding: br\r\n\r\n"
    ∧ strip_accept_encoding (bytes
        "GET / HTTP/1.1\r\nHost: a\r\nAccept-Encoding: gzip\r\nAccept-Encoding: br\r\n\r\n")
      = bytes "GET / HTTP/1.1\r\nHost: a\r\nAccept-Encoding: br\r\n\r\n" := by
  decide

/-- C4, failing input: a POST whose 3-byte body is `a`, NUL, `b` and that carries an
Accept-Encoding line is forwarded without the line and cut at the NUL byte: the last
two body bytes are not sent.  Without the line the same body is forwarded whole. -/
theorem request_body_cut_at_nul :
    forwarded_request true
        (bytes "POST /u HTTP/1.1\r\nHost: a\r\nAccept-Encoding: gzip\r\nContent-Length: 3\r\n\r\na"
          ++ [0] ++ bytes "b")
      = bytes "POST /u HTTP/1.1\r\nHost: a\r\nContent-Length: 3\r\n\r\na"
    ∧ forwarded_request true
        (bytes "POST /u HTTP/1.1\r\nHost: a\r\nContent-Length: 3\r\n\r\na" ++ [0] ++ bytes "b")
      = bytes "POST /u HTTP/1.1\r\nHost: a\r\nContent-Length: 3\r\n\r\na" ++ [0] ++ bytes "b" := by
  decide

theorem cstr_append_nul (a b : List Nat) (h : 0 ∉ a) : cstr (a ++ 0 :: b) = a := by
  rw [cstr_append_of_nul_free a _ h]
  simp [cstr]

theorem nul_free_drop (l : List Nat) (n : Nat) (h : 0 ∉ l) : 0 ∉ l.drop n :=
  fun hm => h (List.mem_of_mem_drop hm)

theorem nul_free_take (l : List Nat) (n : Nat) (h : 0 ∉ l) : 0 ∉ l.take n :=
  fun hm => h (List.mem_of_mem_take hm)

/-- The excision on a request without NUL bytes: the bytes from the CRLF before the
first Accept-Encoding name up to the CRLF that ends that line are removed, and nothing
else changes. -/
theorem strip_accept_encoding_nul_free (request : List Nat) (a k : Nat)
    (h_nul : 0 ∉ request)
    (h_line : strcasestr request (bytes "\r\nAccept-Encoding:") = some a)
    (h_end : strstr (request.drop (a + 2)) (bytes "\r\n") = some k) :
    strip_accept_encoding request = request.take a ++ request.drop (a + 2 + k)
    ∧ (strip_accept_encoding request).length + (2 + k) = request.length := by
  have hla : a + (bytes "\r\nAccept-Encoding:").length ≤ request.length := by
    unfold strcasestr at h_line
    have := find_first_bound _ _ _ h_line
    rw [cstr_eq_self request h_nul] at this
    simpa using this
  have hlk : a + 2 + k + 2 ≤ request.length := by
    unfold strstr at h_end
    have := find_first_bound _ _ _ h_end
    rw [cstr_eq_self _ (nul_free_drop request _ h_nul)] at this
    have h2 : (bytes "\r\n").length = 2 := by decide
    rw [h2, List.length_drop] at this
    omega
  have hres : strip_accept_encoding request = request.take a ++ request.drop (a + 2 + k) := by
    unfold strip_accept_encoding
    simp only [h_line, h_end]
    rw [cstr_eq_self _ (nul_free_drop request _ h_nul)]
    unfold strlen
    have hfree : 0 ∉ request.take a ++ request.drop (a + 2 + k) := by
      intro hm
      rcases List.mem_append.1 hm with hm | hm
      · exact nul_free_take request _ h_nul hm
      · exact nul_free_drop request _ h_nul hm
    have e : request.take a ++ request.drop (a + 2 + k) ++ [0]
          ++ request.drop (a + (request.drop (a + 2 + k)).length + 1)
        = (request.take a ++ request.drop (a + 2 + k))
          ++ 0 :: request.drop (a + (request.drop (a + 2 + k)).length + 1) := by
      simp
    rw [e, cstr_append_nul _ _ hfree, List.take_left]
  refine ⟨hres, ?_⟩
  rw [hres]
  simp only [List.length_append, List.length_take, List.length_drop]
  omega

/-- The excision at work: the request of a browser that offers gzip goes upstream
without its Accept-Encoding line, 23 bytes shorter. -/
theorem strip_accept_encoding_nul_free_witness :
    strip_accept_encoding
        (bytes "GET / HTTP/1.1\r\nHost: a\r\nAccept-Encoding: gzip\r\nAccept: */*\r\n\r\n")
      = bytes "GET / HTTP/1.1\r\nHost: a\r\nAccept: */*\r\n\r\n" := by
  have h := (strip_accept_encoding_nul_free
    (bytes "GET / HTTP/1.1\r\nHost: a\r\nAccept-Encoding: gzip\r\nAccept: */*\r\n\r\n")
    23 21 (by decide) (by decide) (by decide)).1
  rw [h]
  decide


/-! ### Base64 in the enhancement client -/

theorem conv_b64_char : ∀ v, v < 64 → conv_ascii2bin (b64_char v) = v := by decide

theorem b64_char_ne_pad : ∀ v, v < 64 → b64_char v ≠ 61 := by decide

theorem conv_pad : conv_ascii2bin 61 = 0 := by decide

/-- The number of zero bytes the block decoder appends for an input of `n` bytes. -/
theorem b64_padding_append (pre l : List Nat) (h : 2 ≤ l.length) :
    b64_padding (pre ++ l) = b64_padding l := by
  unfold b64_padding
  have e1 : (pre ++ l).getD ((pre ++ l).length - 1) 0 = l.getD (l.length - 1) 0 := by
    rw [List.getD_append_right _ _ _ _ (by simp only [List.length_append]; omega)]
    congr 1
    simp only [List.length_append]; omega
  have e2 : (pre ++ l).getD ((pre ++ l).length - 2) 0 = l.getD (l.length - 2) 0 := by
    rw [List.getD_append_right _ _ _ _ (by simp only [List.length_append]; omega)]
    congr 1
    simp only [List.length_append]; omega
  have c1 : (pre ++ l).length > 0 ↔ l.length > 0 := by
    simp only [List.length_append]; omega
  have c2 : (pre ++ l).length > 1 ↔ l.length > 1 := by
    simp only [List.length_append]; omega
  rw [e1, e2]
  simp only [c1, c2]

theorem encode_length (b : List Nat) :
    (EVP_EncodeBlock b).length = 4 * ((b.length + 2) / 3) := by
  induction b using EVP_EncodeBlock.induct with
  | case1 => rfl
  | case2 a => simp [EVP_EncodeBlock]
  | case3 a b => simp [EVP_EncodeBlock]
  | case4 a b c rest ih =>
    simp only [EVP_EncodeBlock, List.length_cons, ih]
    omega

theorem encode_digits (b : List Nat) (hb : ∀ x ∈ b, x < 256) :
    ∀ c ∈ EVP_EncodeBlock b, conv_ascii2bin c < 64 := by
  induction b using EVP_EncodeBlock.induct with
  | case1 => simp [EVP_EncodeBlock]
  | case2 a =>
    have ha : a < 256 := hb a (by simp)
    intro c hc
    simp only [EVP_EncodeBlock, List.mem_cons, List.mem_singleton, List.not_mem_nil,
      or_false] at hc
    rcases hc with rfl | rfl | rfl | rfl
    · rw [conv_b64_char _ (by omega)]; omega
    · rw [conv_b64_char _ (by omega)]; omega
    · rw [conv_pad]; omega
    · rw [conv_pad]; omega
  | case3 a b =>
    have ha : a < 256 := hb a (by simp)
    have hb2 : b < 256 := hb b (by simp)
    intro c hc
    simp only [EVP_EncodeBlock, List.mem_cons, List.mem_singleton, List.not_mem_nil,
      or_false] at hc
    rcases hc with rfl | rfl | rfl | rfl
    · rw [conv_b64_char _ (by omega)]; omega
    · rw [conv_b64_char _ (by omega)]; omega
    · rw [conv_b64_char _ (by omega)]; omega
    · rw [conv_pad]; omega
  | case4 a b c rest ih =>
    have ha : a < 256 := hb a (by simp)
    have hb2 : b < 256 := hb b (by simp)
    have hc2 : c < 256 := hb c (by simp)
    have hr : ∀ x ∈ rest, x < 256 := fun x hx => hb x (by simp [hx])
    intro d hd
    simp only [EVP_EncodeBlock, List.mem_cons] at hd
    rcases hd with rfl | rfl | rfl | rfl | hd
    · rw [conv_b64_char _ (by omega)]; omega
    · rw [conv_b64_char _ (by omega)]; omega
    · rw [conv_b64_char _ (by omega)]; omega
    · rw [conv_b64_char _ (by omega)]; omega
    · exact ih hr d hd

theorem decode_quads_cons (a b c d : Nat) (rest : List Nat) :
    decode_quads (a :: b :: c :: d :: rest)
      = if conv_ascii2bin a ≥ 128 ∨ conv_ascii2bin b ≥ 128 ∨ conv_ascii2bin c ≥ 128
            ∨ conv_ascii2bin d ≥ 128 then none
        else
          match decode_quads rest with
          | none => none
          | some t =>
            some ((conv_ascii2bin a * 4 + conv_ascii2bin b / 16) % 256
              :: (conv_ascii2bin b % 16 * 16 + conv_ascii2bin c / 4) % 256
              :: (conv_ascii2bin c % 4 * 64 + conv_ascii2bin d) % 256 :: t) := rfl

/-- The block decoder gives back what the block encoder was given, followed by one
zero byte for every '=' of the text. -/
theorem decode_encode (b : List Nat) (hb : ∀ x ∈ b, x < 256) :
    decode_quads (EVP_EncodeBlock b)
        = some (b ++ List.replicate (b64_padding (EVP_EncodeBlock b)) 0)
      ∧ b.length + b64_padding (EVP_EncodeBlock b) = 3 * ((b.length + 2) / 3) := by
  induction b using EVP_EncodeBlock.induct with
  | case1 => exact ⟨by decide, by decide⟩
  | case2 a =>
    have ha : a < 256 := hb a (by simp)
    have h1 := b64_char_ne_pad (a / 4) (by omega)
    have h2 := b64_char_ne_pad (a % 4 * 16) (by omega)
    have hp : b64_padding [b64_char (a / 4), b64_char (a % 4 * 16), 61, 61] = 2 := by
      simp [b64_padding]
    simp only [EVP_EncodeBlock, hp]
    refine ⟨?_, by simp⟩
    rw [decode_quads_cons, conv_b64_char _ (show a / 4 < 64 by omega),
      conv_b64_char _ (show a % 4 * 16 < 64 by omega), conv_pad]
    rw [if_neg (by omega)]
    simp only [decode_quads, List.replicate, List.cons_append, List.nil_append,
      Option.some.injEq, List.cons.injEq, and_true]
    omega
  | case3 a b =>
    have ha : a < 256 := hb a (by simp)
    have hb2 : b < 256 := hb b (by simp)
    have h3 := b64_char_ne_pad (b % 16 * 4) (by omega)
    have hp : b64_padding [b64_char (a / 4), b64_char (a % 4 * 16 + b / 16),
        b64_char (b % 16 * 4), 61] = 1 := by
      simp [b64_padding, h3]
    simp only [EVP_EncodeBlock, hp]
    refine ⟨?_, by simp⟩
    rw [decode_quads_cons, conv_b64_char _ (show a / 4 < 64 by omega),
      conv_b64_char _ (show a % 4 * 16 + b / 16 < 64 by omega),
      conv_b64_char _ (show b % 16 * 4 < 64 by omega), conv_pad]
    rw [if_neg (by omega)]
    simp only [decode_quads, List.replicate, List.cons_append, List.nil_append,
      Option.some.injEq, List.cons.injEq, and_true]
    omega
  | case4 a b c rest ih =>
    have ha : a < 256 := hb a (by simp)
    have hb2 : b < 256 := hb b (by simp)
    have hc2 : c < 256 := hb c (by simp)
    have hr : ∀ x ∈ rest, x < 256 := fun x hx => hb x (by simp [hx])
    obtain ⟨ih1, ih2⟩ := ih hr
    have hpad : b64_padding (EVP_EncodeBlock (a :: b :: c :: rest))
        = b64_padding (EVP_EncodeBlock rest) := by
      cases rest with
      | nil =>
        have h4 := b64_char_ne_pad (c % 64) (by omega)
        have h3 := b64_char_ne_pad (b % 16 * 4 + c / 64) (by omega)
        simp [EVP_EncodeBlock, b64_padding, h3, h4]
      | cons r rs =>
        have hl := encode_length (r :: rs)
        have := b64_padding_append
          [b64_char (a / 4), b64_char (a % 4 * 16 + b / 16), b64_char (b % 16 * 4 + c / 64),
            b64_char (c % 64)] (EVP_EncodeBlock (r :: rs))
          (by rw [hl]; simp only [List.length_cons]; omega)
        simpa [EVP_EncodeBlock] using this
    rw [hpad]
    refine ⟨?_, by simp only [List.length_cons]; omega⟩
    simp only [EVP_EncodeBlock]
    rw [decode_quads_cons, conv_b64_char _ (show a / 4 < 64 by omega),
      conv_b64_char _ (show a % 4 * 16 + b / 16 < 64 by omega),
      conv_b64_char _ (show b % 16 * 4 + c / 64 < 64 by omega),
      conv_b64_char _ (show c % 64 < 64 by omega)]
    rw [if_neg (by omega), ih1]
    simp only [List.cons_append, Option.some.injEq, List.cons.injEq, and_true]
    omega

theorem strip_line_end_digits (l : List Nat) (h : ∀ c ∈ l, conv_ascii2bin c < 64) :
    strip_line_end l = l := by
  cases l with
  | nil => rfl
  | cons c cs =>
    have hc := h c (List.mem_cons_self _ _)
    have : B64_NOT_BASE64 (conv_ascii2bin c) = false := by
      unfold B64_NOT_BASE64
      simp only [Bool.or_eq_false_iff, decide_eq_false_iff_not]
      omega
    unfold strip_line_end
    rw [if_neg (by rw [this]; simp)]

theorem dropWhile_digits (l : List Nat) (h : ∀ c ∈ l, conv_ascii2bin c < 64) :
    l.dropWhile (fun c => decide (conv_ascii2bin c = 0xE0)) = l := by
  cases l with
  | nil => rfl
  | cons c cs =>
    have hc := h c (List.mem_cons_self _ _)
    rw [List.dropWhile_cons_of_neg]
    simp only [decide_eq_true_eq]
    omega

/-- The client's decoder undoes the block encoder. -/
theorem flask_decode_encode (b : List Nat) (hb : ∀ x ∈ b, x < 256) :
    flask_decode (EVP_EncodeBlock b) = some b := by
  have hd := encode_digits b hb
  obtain ⟨h1, h2⟩ := decode_encode b hb
  have hlen := encode_length b
  unfold flask_decode EVP_DecodeBlock
  simp only
  rw [dropWhile_digits _ hd,
    strip_line_end_digits _ (fun c hc => hd c (List.mem_reverse.1 hc)), List.reverse_reverse]
  rw [if_neg (by rw [hlen]; omega), h1]
  simp only [List.length_append, List.length_replicate, Nat.cast_add, add_sub_cancel_right,
    ge_iff_le, Nat.cast_nonneg, if_true, Int.toNat_ofNat, List.take_left']

theorem encode_no_quote_no_nul (b : List Nat) (hb : ∀ x ∈ b, x < 256) :
    0 ∉ EVP_EncodeBlock b ∧ 34 ∉ EVP_EncodeBlock b := by
  have hd := encode_digits b hb
  constructor
  · intro h
    have := hd 0 h
    revert this
    decide
  · intro h
    have := hd 34 h
    revert this
    decide

theorem skip_spaces_replicate (k : Nat) (c : Nat) (t : List Nat) (hc : c ≠ 32) :
    skip_spaces (List.replicate k 32 ++ c :: t) = k := by
  induction k with
  | zero => simp [skip_spaces, hc]
  | succ k ih => simp [List.replicate_succ, skip_spaces, ih]

theorem takeWhile_until_quote (l t : List Nat) (h : 34 ∉ l) :
    (l ++ 34 :: t).takeWhile (fun c => decide (c ≠ 34)) = l := by
  induction l with
  | nil => simp
  | cons x xs ih =>
    simp only [List.mem_cons, not_or] at h
    have hx : x ≠ 34 := fun e => h.1 e.symm
    rw [List.cons_append, List.takeWhile_cons_of_pos (by simpa using hx), ih h.2]

/-- A body that is a JSON object beginning with the field, any number of spaces after
the colon, and the block encoding of `e` as the quoted payload, yields `e`. -/
theorem parse_html_base64_field (e post : List Nat) (k : Nat) (he : ∀ x ∈ e, x < 256) :
    parse_html_base64 (bytes "\x7b\"html_base64\":" ++ List.replicate k 32 ++ 34
        :: (EVP_EncodeBlock e ++ 34 :: post)) = some e := by
  obtain ⟨hn0, hn34⟩ := encode_no_quote_no_nul e he
  have hrep : (0 : Nat) ∉ List.replicate k 32 := by
    intro h
    have := List.eq_of_mem_replicate h
    omega
  have hpre : (0 : Nat) ∉ bytes "\x7b\"html_base64\":" ++ List.replicate k 32 ++ [34] := by
    intro h
    rcases List.mem_append.1 h with h | h
    · rcases List.mem_append.1 h with h | h
      · revert h; decide
      · exact hrep h
    · revert h; decide
  have hfield : strstr (bytes "\x7b\"html_base64\":" ++ List.replicate k 32 ++ 34
      :: (EVP_EncodeBlock e ++ 34 :: post)) (bytes "\"html_base64\":") = some 1 := by
    apply strstr_of_find_first
    · have h1 : find_first (bytes "\"html_base64\":") (bytes "\x7b\"html_base64\":") = some 1 := by
        decide
      have := find_first_append_some _ _ (List.replicate k 32 ++ 34
        :: (EVP_EncodeBlock e ++ 34 :: post)) _ h1
      simpa [List.append_assoc] using this
    · intro h
      have h2 : List.take 1 (bytes "\x7b\"html_base64\":" ++ List.replicate k 32 ++ 34
          :: (EVP_EncodeBlock e ++ 34 :: post)) = [123] := by
        have : bytes "\x7b\"html_base64\":" = 123 :: bytes "\"html_base64\":" := by decide
        rw [this]
        rfl
      rw [h2] at h
      revert h; decide
    · decide
  unfold parse_html_base64
  rw [hfield]
  have hdrop : List.drop (1 + 14) (bytes "\x7b\"html_base64\":" ++ List.replicate k 32 ++ 34
      :: (EVP_EncodeBlock e ++ 34 :: post))
      = List.replicate k 32 ++ 34 :: (EVP_EncodeBlock e ++ 34 :: post) := by
    have hl : (bytes "\x7b\"html_base64\":").length = 1 + 14 := by decide
    rw [List.append_assoc, ← hl, List.drop_left]
  simp only [hdrop]
  rw [skip_spaces_replicate k 34 _ (by decide), List.drop_left' (List.length_replicate _ _)]
  simp only [List.headD_cons, ne_eq, not_true_eq_false, if_false, List.drop_succ_cons,
    List.drop_zero]
  rw [cstr_append_of_nul_free _ _ hn0]
  have hc : cstr (34 :: post) = 34 :: cstr post := by simp [cstr]
  rw [hc, takeWhile_until_quote _ _ hn34]
  exact flask_decode_encode e he

theorem flask_result_of_body (head body : List Nat) (h0 : 0 ∉ head)
    (hsep : find_first (bytes "\r\n\r\n") (head ++ bytes "\r\n\r\n") = some head.length) :
    flask_result (head ++ bytes "\r\n\r\n" ++ body) = parse_html_base64 body := by
  have h1 : find_first (bytes "\r\n\r\n") (head ++ bytes "\r\n\r\n" ++ body)
      = some head.length := find_first_append_some _ _ _ _ hsep
  have h2 : strstr (head ++ bytes "\r\n\r\n" ++ body) (bytes "\r\n\r\n") = some head.length := by
    apply strstr_of_find_first _ _ _ h1 _ (by decide)
    rw [List.append_assoc, List.take_left]
    exact h0
  unfold flask_result
  rw [h2]
  have h4 : (bytes "\r\n\r\n").length = 4 := by decide
  simp only
  rw [List.append_assoc, ← h4, ← List.drop_drop, List.drop_left, List.drop_left]

theorem take_max_response (r : List Nat) (h : r.length < max_response) :
    r.take (max_response - 1) = r :=
  List.take_of_length_le (by omega)

theorem enhance_result (st : FlaskState) (now : Int) (r : List Nat)
    (h_up : st.flask_available = true) :
    (enhance st now (Network.answered r)).result
      = flask_result (r.take (max_response - 1)) := by
  have hgate : ¬ (st.flask_available = false ∧ now - st.last_flask_check < 60) := by
    rintro ⟨h, _⟩
    rw [h_up] at h
    cases h
  unfold enhance send_to_flask_enhance
  rw [if_neg hgate]

theorem find_first_skip_free (c : Nat) (n line y : List Nat) (h : c ∉ line) :
    find_first (c :: n) (line ++ y) = (find_first (c :: n) y).map (· + line.length) := by
  induction line with
  | nil => simp
  | cons x xs ih =>
    simp only [List.mem_cons, not_or] at h
    have hx : (c == x) = false := by simpa using h.1
    rw [List.cons_append, find_first_cons, isPrefixOf_cons_cons, hx, ih h.2]
    simp [Option.map_map, Function.comp_def, Nat.add_assoc]

/-- A first part of the response without NUL and CR bytes, the status line for one,
has no influence on what the client returns. -/
theorem flask_result_skip_line (line y : List Nat) (h : ∀ x ∈ line, x ≠ 0 ∧ x ≠ 13) :
    flask_result (line ++ y) = flask_result y := by
  have h0 : 0 ∉ line := fun hm => (h 0 hm).1 rfl
  have h13 : 13 ∉ line := fun hm => (h 13 hm).2 rfl
  unfold flask_result strstr
  rw [cstr_append_of_nul_free _ _ h0, bytes_crlf2, find_first_skip_free 13 _ line _ h13]
  cases find_first [13, 10, 13, 10] (cstr y) with
  | none => rfl
  | some i =>
    simp only [Option.map_some']
    rw [show i + line.length + 4 = line.length + (i + 4) by omega, ← List.drop_drop,
      List.drop_left]

theorem enhance_skip_line (st : FlaskState) (now : Int) (line rest : List Nat)
    (h_up : st.flask_available = true) (h : ∀ x ∈ line, x ≠ 0 ∧ x ≠ 13) :
    (enhance st now (Network.answered (line ++ rest))).result
      = flask_result (rest.take (max_response - 1 - line.length)) := by
  rw [enhance_result st now _ h_up, List.take_append_eq_append_take]
  exact flask_result_skip_line _ _ (fun x hx => h x (List.mem_of_mem_take hx))

/-- C11 (amended): the enhancement client does not examine the status line.  Two
backend responses that differ only in the status line (`line1`, `line2`: any texts
without NUL and CR bytes, followed by the same bytes `rest`) give the same result when
the two lines have the same length or both responses have fewer than 2 MiB bytes (the
client keeps the first 2 MiB - 1 bytes of a response): a non-200 response is treated
like the 200 response with the same bytes after the status line.  A response of fewer
than 2 MiB bytes whose head holds no NUL byte and whose body is a JSON object beginning
with a well-formed "html_base64" field yields the decoded payload, whatever its status
line.  And whenever the client returns no result, both handlers fall back to the
original response. -/
theorem enhance_ignores_status (st : FlaskState) (now : Int) (line1 line2 rest : List Nat)
    (h_up : st.flask_available = true)
    (h_line1 : ∀ x ∈ line1, x ≠ 0 ∧ x ≠ 13) (h_line2 : ∀ x ∈ line2, x ≠ 0 ∧ x ≠ 13)
    (h_len : line1.length = line2.length
      ∨ ((line1 ++ rest).length < max_response ∧ (line2 ++ rest).length < max_response)) :
    (enhance st now (Network.answered (line1 ++ rest))).result
        = (enhance st now (Network.answered (line2 ++ rest))).result
    ∧ (∀ (head e post : List Nat) (k : Nat), 0 ∉ head →
        find_first (bytes "\r\n\r\n") (head ++ bytes "\r\n\r\n") = some head.length →
        (∀ x ∈ e, x < 256) →
        (head ++ bytes "\r\n\r\n" ++ (bytes "\x7b\"html_base64\":" ++ List.replicate k 32 ++ 34
            :: (EVP_EncodeBlock e ++ 34 :: post))).length < max_response →
        (enhance st now (Network.answered (head ++ bytes "\r\n\r\n"
          ++ (bytes "\x7b\"html_base64\":" ++ List.replicate k 32 ++ 34
            :: (EVP_EncodeBlock e ++ 34 :: post))))).result = some e)
    ∧ (∀ response hostname url client_request full_response : List Nat,
        (enhance st now (Network.answered response)).result = none →
        (handle_http_request_llm hostname url full_response
            (enhance st now (Network.answered response)).result).to_client
          = some (forward_response max_response full_response)
        ∧ (handle_https_connect_llm hostname client_request full_response
            (enhance st now (Network.answered response)).result).to_client
          = some (forward_response max_response full_response)) := by
  refine ⟨?_, ?_, ?_⟩
  · rw [enhance_skip_line st now line1 rest h_up h_line1,
      enhance_skip_line st now line2 rest h_up h_line2]
    rcases h_len with h | ⟨h1, h2⟩
    · rw [h]
    · rw [List.length_append] at h1 h2
      rw [List.take_of_length_le (by omega), List.take_of_length_le (by omega)]
  · intro head e post k h0 hsep he hlen
    rw [enhance_result st now _ h_up, take_max_response _ hlen,
      flask_result_of_body head _ h0 hsep]
    exact parse_html_base64_field e post k he
  · intro response hostname url client_request full_response hnone
    rw [hnone]
    exact ⟨llm_response_fallback _ _ none (Or.inr (Or.inl rfl)),
      llm_response_fallback _ _ none (Or.inr (Or.inl rfl))⟩

/-- C11, witness: a 200 and a 500 response with the same bytes after the status line,
the payload being the block encoding of "<p>A!</p>": both yield "<p>A!</p>". -/
theorem enhance_ignores_status_witness :
    (enhance FlaskState.initial 100 (Network.answered (bytes "HTTP/1.1 200 OK"
        ++ bytes "\r\n\r\n\x7b\"html_base64\": \"PHA+QSE8L3A+\"\x7d"))).result
      = (enhance FlaskState.initial 100 (Network.answered
        (bytes "HTTP/1.1 500 Internal Server Error"
        ++ bytes "\r\n\r\n\x7b\"html_base64\": \"PHA+QSE8L3A+\"\x7d"))).result
    ∧ (enhance FlaskState.initial 100 (Network.answered
        (bytes "HTTP/1.1 500 Internal Server Error" ++ bytes "\r\n\r\n"
        ++ (bytes "\x7b\"html_base64\":" ++ List.replicate 1 32 ++ 34
          :: (EVP_EncodeBlock (bytes "<p>A!</p>") ++ 34 :: bytes "\x7d"))))).result
      = some (bytes "<p>A!</p>") :=
  ⟨(enhance_ignores_status FlaskState.initial 100 (bytes "HTTP/1.1 200 OK")
      (bytes "HTTP/1.1 500 Internal Server Error")
      (bytes "\r\n\r\n\x7b\"html_base64\": \"PHA+QSE8L3A+\"\x7d") rfl (by decide) (by decide)
      (Or.inr (by decide))).1,
    (enhance_ignores_status FlaskState.initial 100 (bytes "HTTP/1.1 200 OK")
      (bytes "HTTP/1.1 500 Internal Server Error")
      (bytes "\r\n\r\n\x7b\"html_base64\": \"PHA+QSE8L3A+\"\x7d") rfl (by decide) (by decide)
      (Or.inr (by decide))).2.1 (bytes "HTTP/1.1 500 Internal Server Error")
      (bytes "<p>A!</p>") (bytes "\x7d") 1 (by decide) (by decide) (by decide) (by decide)⟩

/-- C11, counterexample: the backend answers "500 Internal Server Error" with a
well-formed "html_base64" field, and the client returns the decoded payload. -/
theorem enhance_accepts_error_status :
    (enhance FlaskState.initial 100 (Network.answered (bytes
        "HTTP/1.1 500 Internal Server Error\r\nContent-Type: application/json\r\n\r\n\x7b\"html_base64\": \"PHA+QSE8L3A+\"\x7d"))).result
      = some (bytes "<p>A!</p>") := by
  decide

/-- C12 (amended): for every response body without NUL bytes handed to the enhancement
client and every URL (a C string), the JSON text sent to the backend is
{"html_base64":"<b64>","url":"<url>"} where <b64> is the block encoding of the entire
body; it ends the bytes sent, and decoding the field gives back all bytes of the
body. -/
theorem flask_json_body_whole (body url : List Nat) (h_byte : ∀ x ∈ body, x < 256)
    (h_nul : 0 ∉ body) :
    flask_json_body body url
        = bytes "\x7b\"html_base64\":\"" ++ EVP_EncodeBlock body ++ bytes "\",\"url\":\""
          ++ cstr url ++ bytes "\"\x7d"
    ∧ flask_json_body body url <:+ flask_request body url
    ∧ flask_decode (EVP_EncodeBlock body) = some body := by
  refine ⟨?_, ?_, flask_decode_encode body h_byte⟩
  · unfold flask_json_body
    rw [cstr_eq_self body h_nul]
  · unfold flask_request
    exact List.suffix_append _ _

/-- C12, witness: the body "<p>A</p>" and the URL "http://example.test/". -/
theorem flask_json_body_whole_witness :
    flask_json_body (bytes "<p>A</p>") (bytes "http://example.test/")
      = bytes "\x7b\"html_base64\":\"PHA+QTwvcD4=\",\"url\":\"http://example.test/\"\x7d"
    ∧ flask_decode (bytes "PHA+QTwvcD4=") = some (bytes "<p>A</p>") := by
  have h := flask_json_body_whole (bytes "<p>A</p>") (bytes "http://example.test/")
    (by decide) (by decide)
  refine ⟨?_, ?_⟩
  · rw [h.1]; decide
  · have e : EVP_EncodeBlock (bytes "<p>A</p>") = bytes "PHA+QTwvcD4=" := by decide
    rw [← e]; exact h.2.2

/-- C12, counterexample: of the 9-byte body "<p>", NUL, "x</p>" only "<p>" is
encoded, so decoding the field gives back 3 of the 9 bytes. -/
theorem flask_json_body_cut_at_nul :
    flask_json_body (bytes "<p>" ++ [0] ++ bytes "x</p>") (bytes "http://example.test/")
      = bytes "\x7b\"html_base64\":\"PHA+\",\"url\":\"http://example.test/\"\x7d"
    ∧ flask_decode (bytes "PHA+") = some (bytes "<p>")
    ∧ (bytes "<p>" ++ [0] ++ bytes "x</p>").length = 9 := by
  decide

/-- C13 (amended): for every byte sequence B without NUL bytes, of any length,
decoding as the enhancement client decodes a backend payload (block decode, then one
byte less per trailing '=') the text obtained by encoding B as the client encodes a
body gives back exactly B, with the reported length equal to |B|. -/
theorem base64_round_trip (b : List Nat) (h_byte : ∀ x ∈ b, x < 256) (h_nul : 0 ∉ b) :
    flask_decode (EVP_EncodeBlock (cstr b)) = some b
    ∧ (flask_decode (EVP_EncodeBlock (cstr b))).map List.length = some b.length := by
  rw [cstr_eq_self b h_nul, flask_decode_encode b h_byte]
  exact ⟨rfl, rfl⟩

/-- C13, witness: the round trip of "<p>A!</p>" through "PHA+QSE8L3A+", and of the
one-byte and two-byte sequences that need padding. -/
theorem base64_round_trip_witness :
    flask_decode (EVP_EncodeBlock (cstr (bytes "<p>A!</p>"))) = some (bytes "<p>A!</p>")
    ∧ EVP_EncodeBlock (cstr (bytes "<p>A!</p>")) = bytes "PHA+QSE8L3A+"
    ∧ flask_decode (EVP_EncodeBlock (cstr [255])) = some [255]
    ∧ flask_decode (EVP_EncodeBlock (cstr [255, 254])) = some [255, 254] :=
  ⟨(base64_round_trip (bytes "<p>A!</p>") (by decide) (by decide)).1, by decide,
    (base64_round_trip [255] (by decide) (by decide)).1,
    (base64_round_trip [255, 254] (by decide) (by decide)).1⟩

/-- C13, counterexample: the three bytes `a`, NUL, `b` are encoded as "YQ==", the
encoding of `a` alone, and come back as the one byte `a`. -/
theorem base64_round_trip_nul :
    EVP_EncodeBlock (cstr [97, 0, 98]) = bytes "YQ=="
    ∧ flask_decode (EVP_EncodeBlock (cstr [97, 0, 98])) = some [97] := by
  decide

/-! ### Repeated injection, capacity, relay -/

/-- C19 (amended): for every buffer of length `len <= cap` whose first CRLF is not
preceded by a NUL byte and that holds no "X-Proxy:", `inject_header` inserts the marker
whenever `len + 15 < cap` and is a no-op (bytes and length unchanged) exactly when
`len + 15 >= cap`; in no case does the resulting length exceed `cap`. -/
theorem inject_header_capacity (response : List Nat) (cap p : Nat)
    (h_crlf : find_first (bytes "\r\n") response = some p)
    (h_nul : 0 ∉ response.take p)
    (h_fresh : find_first (bytes "X-Proxy:") response = none)
    (h_fits : response.length ≤ cap) :
    (response.length + 15 < cap →
        inject_header response cap
          = response.take (p + 2) ++ bytes "X-Proxy:CS112\r\n" ++ response.drop (p + 2))
    ∧ (inject_header response cap = response ↔ response.length + 15 ≥ cap)
    ∧ (inject_header response cap).length ≤ cap := by
  have hins : response.length + 15 < cap →
      inject_header response cap
        = response.take (p + 2) ++ new_header ++ response.drop (p + 2) :=
    inject_header_eq response cap p
      (strstr_of_find_first _ _ _ h_crlf h_nul (by decide))
      (strstr_none_of_find_first _ _ h_fresh)
  have h15 : new_header.length = 15 := by decide
  have hlen : response.length + 15 < cap → (inject_header response cap).length
      = response.length + 15 := by
    intro hc
    rw [hins hc]
    simp only [List.length_append, List.length_take, List.length_drop, h15]
    have := find_first_bound _ _ _ h_crlf
    have h2 : (bytes "\r\n").length = 2 := by decide
    omega
  refine ⟨hins, ⟨?_, ?_⟩, ?_⟩
  · intro he
    by_contra hc
    have := hlen (by omega)
    rw [he] at this
    omega
  · exact inject_header_full response cap
  · by_cases hc : response.length + 15 < cap
    · rw [hlen hc]; omega
    · rw [inject_header_full response cap (by omega)]; exact h_fits

/-- C19, witness: 19 bytes in a buffer of 35 get the marker and become 34 bytes. -/
theorem inject_header_capacity_witness :
    inject_header (bytes "HTTP/1.1 200 OK\r\n\r\n") 35
      = bytes "HTTP/1.1 200 OK\r\nX-Proxy:CS112\r\n\r\n" := by
  have h := (inject_header_capacity (bytes "HTTP/1.1 200 OK\r\n\r\n") 35 15
    (by decide) (by decide) (by decide) (by decide)).1 (by decide)
  rw [h]
  decide

/-- C19, counterexample: with `len + 15 = cap` the new length would not exceed `cap`,
yet `inject_header` does nothing: for 19 bytes and `cap = 34`, and for a chunk of
65521 bytes in the 65536-byte relay buffer.  And a buffer with a NUL byte before its
CRLF is left alone although there is room. -/
theorem inject_header_at_capacity :
    inject_header (bytes "HTTP/1.1 200 OK\r\n\r\n") 34 = bytes "HTTP/1.1 200 OK\r\n\r\n"
    ∧ (bytes "HTTP/1.1 200 OK\r\n\r\n").length + 15 = 34
    ∧ inject_header (bytes "HTTP/1.1 " ++ [0] ++ bytes " OK\r\n\r\n") 65536
        = bytes "HTTP/1.1 " ++ [0] ++ bytes " OK\r\n\r\n"
    ∧ inject_header (bytes "HTTP/1.1 200 OK\r\n\r\n" ++ List.replicate 65502 120) 65536
        = bytes "HTTP/1.1 200 OK\r\n\r\n" ++ List.replicate 65502 120
    ∧ (bytes "HTTP/1.1 200 OK\r\n\r\n" ++ List.replicate 65502 120).length + 15 = 65536 := by
  have hlen : (bytes "HTTP/1.1 200 OK\r\n\r\n" ++ List.replicate 65502 120).length = 65521 := by
    have : (bytes "HTTP/1.1 200 OK\r\n\r\n").length = 19 := by decide
    rw [List.length_append, List.length_replicate, this]
  refine ⟨by decide, by decide, by decide, inject_header_full _ _ (by omega), by omega⟩

theorem cstr_append_nul_any (a b : List Nat) : cstr (a ++ 0 :: b) = cstr a := by
  induction a with
  | nil => simp [cstr]
  | cons c cs ih =>
    by_cases hc : c = 0
    · simp [cstr, hc]
    · simp [cstr, hc, ih]

/-- The received bytes after the `memmove` and the `memcpy` of `inject_header`, read
off the memory. -/
theorem spliced_take (a b hdr : List Nat) (ip : Nat) (h : ip ≤ a.length) :
    ((a ++ b).take ip ++ hdr ++ ((a ++ b).drop ip).take (a.length - ip)
        ++ (a ++ b).drop (a.length + hdr.length)).take (a.length + hdr.length)
      = a.take ip ++ hdr ++ a.drop ip := by
  have h1 : (a ++ b).take ip = a.take ip := List.take_append_of_le_length h
  have h2 : ((a ++ b).drop ip).take (a.length - ip) = a.drop ip := by
    rw [List.drop_append_of_le_length h]
    exact List.take_left' (by rw [List.length_drop])
  rw [h1, h2]
  apply List.take_left'
  simp only [List.length_append, List.length_take, List.length_drop]
  omega

/-- On a buffer that holds its terminator after the received bytes, the call on the
memory is the call on the C string buffer. -/
theorem inject_header_unterminated_terminated (response rest : List Nat) (cap : Nat) :
    (inject_header_unterminated (response ++ 0 :: rest) response.length cap).map
        (fun r => r.1.take r.2) = some (inject_header response cap) := by
  have hs : ∀ n, strstr (response ++ 0 :: rest) n = strstr response n := by
    intro n
    unfold strstr
    rw [cstr_append_nul_any]
  unfold inject_header_unterminated inject_header
  rw [hs, hs]
  cases hp : strstr response (bytes "\r\n") with
  | none => simp
  | some p =>
    have hb : p + 2 ≤ response.length := by
      have := find_first_bound _ _ _ hp
      have h2 : (bytes "\r\n").length = 2 := by decide
      have h3 := cstr_length_le response
      omega
    simp only
    by_cases hx : (strstr response (bytes "X-Proxy:")).isSome = true
    · simp [hx]
    · rw [if_neg hx, if_neg hx]
      by_cases hc : response.length + new_header.length ≥ cap
      · simp [hc]
      · rw [if_neg hc, if_neg hc, if_neg (by omega)]
        simp only [Option.map_some', Option.some.injEq]
        exact spliced_take response (0 :: rest) new_header (p + 2) hb

theorem strstr_of_append (chunk stale n : List Nat) (h : strstr (chunk ++ stale) n = none) :
    strstr chunk n = none := by
  unfold strstr at h ⊢
  obtain ⟨r, hr, hcase⟩ := cstr_append_rest chunk
  rcases hcase with rfl | ⟨t, rfl⟩
  · rw [List.append_nil] at hr
    have h0 : 0 ∉ chunk := by rw [hr]; exact cstr_nul_free chunk
    rw [cstr_append_of_nul_free _ _ h0] at h
    rw [cstr_eq_self chunk h0]
    exact find_first_of_append_none _ _ _ h
  · have e : cstr ((cstr chunk ++ 0 :: t) ++ stale) = cstr chunk := by
      rw [List.append_assoc, List.cons_append, cstr_append_nul_any,
        cstr_eq_self _ (cstr_nul_free chunk)]
    rw [← hr] at e
    rw [← e]
    exact h

/-- A round of the relay with the flag set, on a chunk that begins with "HTTP/", whose
first CRLF has no NUL byte before it, that leaves 15 bytes free in the buffer, when the
buffer's C string holds no "X-Proxy:": the marker line goes in after the first CRLF. -/
theorem relay_chunk_marks (memory chunk : List Nat) (p : Nat)
    (h_http : begins_with_http chunk = true)
    (h_crlf : find_first (bytes "\r\n") chunk = some p)
    (h_nul : 0 ∉ chunk.take p)
    (h_stale : strstr (chunk ++ memory.drop chunk.length) (bytes "X-Proxy:") = none)
    (h_cap : chunk.length + 15 < 65536) :
    ∃ memory_after, relay_chunk true memory chunk
      = some (chunk.take (p + 2) ++ new_header ++ chunk.drop (p + 2), false, memory_after) := by
  have hb : p + 2 ≤ chunk.length := by
    have := find_first_bound _ _ _ h_crlf
    have h2 : (bytes "\r\n").length = 2 := by decide
    omega
  have hs : strstr (chunk ++ memory.drop chunk.length) (bytes "\r\n") = some p := by
    apply strstr_of_find_first _ _ _ (find_first_append_some _ _ _ _ h_crlf) _ (by decide)
    rw [List.take_append_of_le_length (by omega)]
    exact h_nul
  have hlen : new_header.length = 15 := by decide
  have hsp := spliced_take chunk (memory.drop chunk.length) new_header (p + 2) hb
  rw [hlen] at hsp
  have hm : (relay_chunk true memory chunk).map (fun r => (r.1, r.2.1))
      = some (chunk.take (p + 2) ++ new_header ++ chunk.drop (p + 2), false) := by
    unfold relay_chunk
    simp only [h_http, and_self, if_true]
    unfold inject_header_unterminated
    simp only [hs, h_stale, Option.isSome_none, Bool.false_eq_true, if_false, hlen]
    rw [if_neg (by omega), if_neg (by omega)]
    simp only [Option.map_some', hsp]
  cases hr : relay_chunk true memory chunk with
  | none => rw [hr] at hm; cases hm
  | some r =>
    obtain ⟨w, f, m⟩ := r
    rw [hr] at hm
    simp only [Option.map_some', Option.some.injEq, Prod.mk.injEq] at hm
    exact ⟨m, by rw [hm.1, hm.2]⟩

theorem relay_chunk_plain (first_chunk : Bool) (memory chunk : List Nat)
    (h : first_chunk = false ∨ begins_with_http chunk = false) :
    relay_chunk first_chunk memory chunk
      = some (chunk, first_chunk, chunk ++ memory.drop chunk.length) := by
  unfold relay_chunk
  have hn : ¬ (first_chunk = true ∧ begins_with_http chunk = true) := by
    rintro ⟨h1, h2⟩
    rcases h with h | h
    · rw [h] at h1; cases h1
    · rw [h] at h2; cases h2
  simp only [hn, if_false]

theorem relay_chunks_cons (first_chunk : Bool) (memory chunk : List Nat)
    (rest : List (List Nat)) (written memory_after : List Nat) (flag : Bool)
    (hne : chunk ≠ [])
    (h : relay_chunk first_chunk memory chunk = some (written, flag, memory_after)) :
    relay_chunks first_chunk memory (chunk :: rest)
      = some written :: relay_chunks flag memory_after rest := by
  rw [relay_chunks, if_neg hne, h]

/-- C17, the defect: the flag `first_chunk` (`first_response`) is cleared only when a
chunk begins with "HTTP/", so it does not mark the first chunk.  The origin sends
"ICY 200 OK\r\n\r\n", then the bytes "HTTP/2 explained\r\n", then "more", each in a read
of its own; the receive buffer holds no text "X-Proxy:" in the C string that begins
with the second chunk.  The first chunk is written as it came, and the second chunk,
not the first, is written with the marker line inserted. -/
theorem relay_marks_later_chunk (memory : List Nat)
    (h_stale : strstr (bytes "HTTP/2 explained\r\n" ++ memory.drop 18) (bytes "X-Proxy:")
      = none) :
    relay_chunks true memory
        [bytes "ICY 200 OK\r\n\r\n", bytes "HTTP/2 explained\r\n", bytes "more"]
      = [some (bytes "ICY 200 OK\r\n\r\n"),
         some (bytes "HTTP/2 explained\r\nX-Proxy:CS112\r\n"),
         some (bytes "more")] := by
  have h1 := relay_chunk_plain true memory (bytes "ICY 200 OK\r\n\r\n") (Or.inr (by decide))
  have hd : (bytes "ICY 200 OK\r\n\r\n"
      ++ memory.drop (bytes "ICY 200 OK\r\n\r\n").length).drop
        (bytes "HTTP/2 explained\r\n").length = memory.drop 18 := by
    have e1 : (bytes "ICY 200 OK\r\n\r\n").length = 14 := by decide
    have e2 : (bytes "HTTP/2 explained\r\n").length = 18 := by decide
    rw [e1, e2, List.drop_append_eq_append_drop, List.drop_drop, e1]
    have : List.drop 18 (bytes "ICY 200 OK\r\n\r\n") = [] := by decide
    rw [this]
    rfl
  obtain ⟨m2, h2⟩ := relay_chunk_marks
    (bytes "ICY 200 OK\r\n\r\n" ++ memory.drop (bytes "ICY 200 OK\r\n\r\n").length)
    (bytes "HTTP/2 explained\r\n") 16 (by decide) (by decide) (by decide)
    (by rw [hd]; exact h_stale) (by decide)
  have h3 := relay_chunk_plain false m2 (bytes "more") (Or.inl rfl)
  rw [relay_chunks_cons _ _ _ _ _ _ _ (by decide) h1,
    relay_chunks_cons _ _ _ _ _ _ _ (by decide) h2,
    relay_chunks_cons _ _ _ _ _ _ _ (by decide) h3]
  have e : List.take (16 + 2) (bytes "HTTP/2 explained\r\n") ++ new_header
      ++ List.drop (16 + 2) (bytes "HTTP/2 explained\r\n")
      = bytes "HTTP/2 explained\r\nX-Proxy:CS112\r\n" := by decide
  rw [e]
  rfl

/-- C17, failing input: the three reads above into a receive buffer of zero bytes (a
fresh thread stack). -/
theorem relay_marks_later_chunk_witness :
    relay_chunks true (List.replicate 65536 0)
        [bytes "ICY 200 OK\r\n\r\n", bytes "HTTP/2 explained\r\n", bytes "more"]
      = [some (bytes "ICY 200 OK\r\n\r\n"),
         some (bytes "HTTP/2 explained\r\nX-Proxy:CS112\r\n"),
         some (bytes "more")] :=
  relay_marks_later_chunk (List.replicate 65536 0) (by
    have e : List.drop 18 (List.replicate 65536 0) = 0 :: List.replicate 65517 0 := by
      rw [List.drop_replicate]
      rfl
    rw [e]
    unfold strstr
    rw [cstr_append_nul _ _ (by decide)]
    decide)

/-- The relay buffers hold no terminator, so `inject_header` reads the bytes an earlier
use left in the buffer.  With the text of an earlier response behind the chunk, the
first chunk "HTTP/1.1 200 OK\r\n\r\nhi" is written without the marker, because `strstr`
finds "X-Proxy:" behind it; and for the chunk "HTTP/1.1 200 OK", which ends before its
CRLF, `strstr` finds a CRLF of the earlier text beyond the received bytes and the
`memmove` is given a length that wrapped around. -/
theorem relay_reads_stale_bytes :
    relay_chunk true (bytes "HTTP/1.1 304 Not Modified\r\nX-Proxy:CS112\r\n\r\n")
        (bytes "HTTP/1.1 200 OK\r\n\r\nhi")
      = some (bytes "HTTP/1.1 200 OK\r\n\r\nhi", false,
          bytes "HTTP/1.1 200 OK\r\n\r\nhified\r\nX-Proxy:CS112\r\n\r\n")
    ∧ relay_chunk true (bytes "HTTP/1.1 304 Not Modified\r\n\r\n") (bytes "HTTP/1.1 200 OK")
      = none := by
  decide

/-- C20, failing input: two buffered responses with the same header block, which holds
no Content-Encoding header; the one whose body mentions "Content-Encoding:" has
`is_compressed` set, the other has not. -/
theorem is_compressed_reads_body :
    response_head (bytes
        "HTTP/1.1 200 OK\r\nContent-Type: text/html\r\n\r\n<p>Content-Encoding: gzip</p>")
      = response_head (bytes "HTTP/1.1 200 OK\r\nContent-Type: text/html\r\n\r\n<p>plain</p>")
    ∧ strcasestr (response_head (bytes
        "HTTP/1.1 200 OK\r\nContent-Type: text/html\r\n\r\n<p>Content-Encoding: gzip</p>"))
        (bytes "Content-Encoding:") = none
    ∧ is_compressed (bytes
        "HTTP/1.1 200 OK\r\nContent-Type: text/html\r\n\r\n<p>Content-Encoding: gzip</p>") = true
    ∧ is_compressed (bytes
        "HTTP/1.1 200 OK\r\nContent-Type: text/html\r\n\r\n<p>plain</p>") = false := by
  decide

/-! ### Set-up of the handlers -/

theorem find_first_single (c : Nat) (a x : List Nat) (h : c ∉ a) :
    find_first [c] (a ++ c :: x) = some a.length := by
  induction a with
  | nil => simp [find_first_cons, isPrefixOf_cons_cons]
  | cons y ys ih =>
    simp only [List.mem_cons, not_or] at h
    have hy : (c == y) = false := by simpa using h.1
    rw [List.cons_append, find_first_cons, isPrefixOf_cons_cons, hy, ih h.2]
    simp

theorem find_first_single_none (c : Nat) (a : List Nat) (h : c ∉ a) :
    find_first [c] a = none := by
  induction a with
  | nil => rfl
  | cons y ys ih =>
    simp only [List.mem_cons, not_or] at h
    have hy : (c == y) = false := by simpa using h.1
    rw [find_first_cons, isPrefixOf_cons_cons, hy, ih h.2]
    simp

theorem strchr_found (c : Nat) (a x : List Nat) (hc : c ∉ a) (h0 : 0 ∉ a) (hne : c ≠ 0) :
    strchr (a ++ c :: x) c = some a.length := by
  unfold strchr
  rw [cstr_append_of_nul_free _ _ h0]
  have : cstr (c :: x) = c :: cstr x := by simp [cstr, hne]
  rw [this]
  exact find_first_single c a _ hc

theorem strchr_none (c : Nat) (a : List Nat) (hc : c ∉ a) : strchr a c = none := by
  unfold strchr
  apply find_first_single_none
  intro h
  obtain ⟨r, hr, _⟩ := cstr_append_rest a
  exact hc (by rw [hr]; exact List.mem_append_left _ h)

/-- The number a string of decimal digits denotes. -/
theorem digits_value_fold (ds : List Nat) (acc : Nat) (h : ∀ c ∈ ds, 48 ≤ c ∧ c ≤ 57) :
    digits_value acc ds = ds.foldl (fun n c => n * 10 + (c - 48)) acc := by
  induction ds generalizing acc with
  | nil => rfl
  | cons c cs ih =>
    have hc := h c (List.mem_cons_self _ _)
    rw [digits_value, if_pos hc, List.foldl_cons,
      ih _ (fun x hx => h x (List.mem_cons_of_mem _ hx))]

theorem atoi_digits (ds : List Nat) (h : ∀ c ∈ ds, 48 ≤ c ∧ c ≤ 57)
    (hv : ds.foldl (fun n c => n * 10 + (c - 48)) 0 < 2 ^ 31) :
    atoi ds = ((ds.foldl (fun n c => n * 10 + (c - 48)) 0 : Nat) : Int) := by
  have h0 : 0 ∉ ds := fun hm => by have := h 0 hm; omega
  have hval := digits_value_fold ds 0 h
  have hv2 : (digits_value 0 ds : Int) < 2147483648 := by
    rw [hval]; exact_mod_cast hv
  have hv0 : (0 : Int) ≤ (digits_value 0 ds : Int) := Int.natCast_nonneg _
  have hst : strtol ds = (digits_value 0 ds : Int) := by
    unfold strtol
    rw [cstr_eq_self ds h0]
    cases ds with
    | nil =>
      simp only [List.dropWhile_nil]
      norm_num [digits_value]
    | cons c cs =>
      have hc := h c (List.mem_cons_self _ _)
      have hsp : isspace c = false := by
        unfold isspace
        simp only [Bool.or_eq_false_iff, decide_eq_false_iff_not, Bool.and_eq_false_imp,
          decide_eq_true_eq]
        omega
      rw [List.dropWhile_cons_of_neg (by rw [hsp]; simp)]
      have e1 : c ≠ 45 := by omega
      have e2 : c ≠ 43 := by omega
      split
      · rename_i t heq
        simp only [List.cons.injEq] at heq
        exact absurd heq.1 e1
      · rename_i t heq
        simp only [List.cons.injEq] at heq
        exact absurd heq.1 e2
      · have : (2 : Int) ^ 63 - 1 = 9223372036854775807 := by norm_num
        rw [this]
        omega
  unfold atoi
  rw [hst, ← hval]
  have e31 : (2 : Int) ^ 31 = 2147483648 := by norm_num
  have e32 : (2 : Int) ^ 32 = 4294967296 := by norm_num
  rw [e31, e32]
  omega

theorem parse_host_port_plain (v : List Nat) (port : Int) (h : 58 ∉ v) :
    parse_host_port v port = (v, port) := by
  unfold parse_host_port
  rw [strchr_none 58 v h]

theorem parse_host_port_colon (h p : List Nat) (port : Int) (hc : 58 ∉ h) (h0 : 0 ∉ h) :
    parse_host_port (h ++ 58 :: p) port = (h, atoi p) := by
  unfold parse_host_port
  rw [strchr_found 58 h p hc h0 (by decide)]
  simp only [List.take_left', List.drop_left', List.take_left]
  rw [show h.length + 1 = (h ++ [58]).length by simp,
    show h ++ 58 :: p = (h ++ [58]) ++ p by simp, List.drop_left]

/-- C14: for every CONNECT request that names a target and every outcome of the steps,
the proxy writes exactly one plaintext reply: "HTTP/1.1 502 Bad Gateway\r\n\r\n" when the
TCP connect, the creation of the TLS context or object, or the upstream handshake
fails, and "HTTP/1.1 200 Connection Established\r\n\r\n" when all four succeeded; never
both; and whatever happens after the 200 (no context, no certificate, no TLS object, a
failed downstream handshake, or a tunnel that comes up) adds no plaintext. -/
theorem connect_reply_once (request : List Nat) (steps : TunnelSteps) (target : List Nat × Int)
    (h : connect_target request = some target) :
    (handle_https_connect request steps).plaintext
        = (if steps.connect_to_server = true ∧ steps.create_ssl_context_client = true
              ∧ steps.ssl_new_upstream = true ∧ steps.ssl_connect = true
           then [bytes "HTTP/1.1 200 Connection Established\r\n\r\n"]
           else [bytes "HTTP/1.1 502 Bad Gateway\r\n\r\n"])
    ∧ (handle_https_connect request steps).plaintext.length = 1
    ∧ (handle_https_connect request steps).upstream = some target
    ∧ ((handle_https_connect request steps).proceeds = true →
        (handle_https_connect request steps).plaintext
          = [bytes "HTTP/1.1 200 Connection Established\r\n\r\n"])
    ∧ ∀ later : TunnelSteps,
        later.connect_to_server = steps.connect_to_server →
        later.create_ssl_context_client = steps.create_ssl_context_client →
        later.ssl_new_upstream = steps.ssl_new_upstream →
        later.ssl_connect = steps.ssl_connect →
        (handle_https_connect request later).plaintext
          = (handle_https_connect request steps).plaintext := by
  have key : ∀ s : TunnelSteps, (handle_https_connect request s).plaintext
      = (if s.connect_to_server = true ∧ s.create_ssl_context_client = true
            ∧ s.ssl_new_upstream = true ∧ s.ssl_connect = true
         then [bytes "HTTP/1.1 200 Connection Established\r\n\r\n"]
         else [bytes "HTTP/1.1 502 Bad Gateway\r\n\r\n"]) := by
    intro s
    unfold handle_https_connect
    rw [h]
    by_cases c : s.connect_to_server = true ∧ s.create_ssl_context_client = true
        ∧ s.ssl_new_upstream = true ∧ s.ssl_connect = true
    · rw [if_pos c]
      obtain ⟨c1, c2, c3, c4⟩ := c
      have : ¬ (¬ s.connect_to_server = true ∨ ¬ s.create_ssl_context_client = true
          ∨ ¬ s.ssl_new_upstream = true ∨ ¬ s.ssl_connect = true) := by
        rintro (e | e | e | e)
        · exact e c1
        · exact e c2
        · exact e c3
        · exact e c4
      simp only
      rw [if_neg this]
    · rw [if_neg c]
      have : (¬ s.connect_to_server = true ∨ ¬ s.create_ssl_context_client = true
          ∨ ¬ s.ssl_new_upstream = true ∨ ¬ s.ssl_connect = true) := by
        by_contra hn
        apply c
        refine ⟨?_, ?_, ?_, ?_⟩ <;> by_contra e
        · exact hn (Or.inl e)
        · exact hn (Or.inr (Or.inl e))
        · exact hn (Or.inr (Or.inr (Or.inl e)))
        · exact hn (Or.inr (Or.inr (Or.inr e)))
      simp only
      rw [if_pos this]
  refine ⟨key steps, ?_, ?_, ?_, ?_⟩
  · rw [key steps]
    split <;> rfl
  · unfold handle_https_connect
    rw [h]
    simp only
    split <;> rfl
  · intro hp
    rw [key steps]
    by_cases c : steps.connect_to_server = true ∧ steps.create_ssl_context_client = true
        ∧ steps.ssl_new_upstream = true ∧ steps.ssl_connect = true
    · rw [if_pos c]
    · exfalso
      unfold handle_https_connect at hp
      rw [h] at hp
      have : (¬ steps.connect_to_server = true ∨ ¬ steps.create_ssl_context_client = true
          ∨ ¬ steps.ssl_new_upstream = true ∨ ¬ steps.ssl_connect = true) := by
        by_contra hn
        apply c
        refine ⟨?_, ?_, ?_, ?_⟩ <;> by_contra e
        · exact hn (Or.inl e)
        · exact hn (Or.inr (Or.inl e))
        · exact hn (Or.inr (Or.inr (Or.inl e)))
        · exact hn (Or.inr (Or.inr (Or.inr e)))
      simp only at hp
      rw [if_pos this] at hp
      cases hp
  · intro later e1 e2 e3 e4
    rw [key later, key steps, e1, e2, e3, e4]

/-- C14, witness: for "CONNECT example.test:443 HTTP/1.1": a refused TCP connect gives
the 502 alone; a failed upstream handshake gives the 502 alone; a failed downstream
handshake after a good upstream one gives the 200 alone. -/
theorem connect_reply_once_witness :
    (handle_https_connect (bytes "CONNECT example.test:443 HTTP/1.1\r\n\r\n")
        ⟨false, true, true, true, true, true, true, true⟩).plaintext
      = [bytes "HTTP/1.1 502 Bad Gateway\r\n\r\n"]
    ∧ (handle_https_connect (bytes "CONNECT example.test:443 HTTP/1.1\r\n\r\n")
        ⟨true, true, true, false, true, true, true, true⟩).plaintext
      = [bytes "HTTP/1.1 502 Bad Gateway\r\n\r\n"]
    ∧ (handle_https_connect (bytes "CONNECT example.test:443 HTTP/1.1\r\n\r\n")
        ⟨true, true, true, true, true, true, true, false⟩).plaintext
      = [bytes "HTTP/1.1 200 Connection Established\r\n\r\n"] :=
  ⟨(connect_reply_once (bytes "CONNECT example.test:443 HTTP/1.1\r\n\r\n")
      ⟨false, true, true, true, true, true, true, true⟩ (bytes "example.test", 443)
      (by decide)).1,
    (connect_reply_once (bytes "CONNECT example.test:443 HTTP/1.1\r\n\r\n")
      ⟨true, true, true, false, true, true, true, true⟩ (bytes "example.test", 443)
      (by decide)).1,
    (connect_reply_once (bytes "CONNECT example.test:443 HTTP/1.1\r\n\r\n")
      ⟨true, true, true, true, true, true, true, false⟩ (bytes "example.test", 443)
      (by decide)).1⟩

theorem connect_target_of (target rest : List Nat) (h_sp : 32 ∉ target) (h_nul : 0 ∉ target)
    (h_len : target.length < 256) :
    connect_target (bytes "CONNECT " ++ target ++ 32 :: rest)
      = some (parse_host_port target 443) := by
  have h8 : (bytes "CONNECT ").length = 8 := by decide
  have hd : (bytes "CONNECT " ++ target ++ 32 :: rest).drop 8 = target ++ 32 :: rest := by
    rw [List.append_assoc, List.drop_left' h8]
  unfold connect_target
  rw [hd, strchr_found 32 target rest h_sp h_nul (by decide)]
  simp only
  rw [if_neg (by omega)]
  simp only [List.take_left']
  unfold parse_host_port
  cases strchr target 58 <;> rfl

theorem connect_to_server_nul_free (host : List Nat) (port : Int) (h0 : 0 ∉ host) :
    connect_to_server host port = (host, (port % 65536).toNat) := by
  unfold connect_to_server
  rw [cstr_eq_self host h0]

theorem htons_of_nat (n : Nat) : (((n : Nat) : Int) % 65536).toNat = n % 65536 := by
  omega

/-- C15 (amended): for every request "CONNECT " ++ target ++ " " ++ rest where target
contains no space and no NUL byte: if target has fewer than 256 bytes, the upstream
hostname is the part of target before its first colon, and the upstream port is 443
when target has no colon and otherwise the value `atoi` reads after that colon, reduced
modulo 65536 by `htons` in `connect_to_server` (for a string of decimal digits denoting
a number n below 2^31 the port is n mod 65536, which is n itself when n is below
65536); if target has 256 or more bytes the reply is "HTTP/1.1 400 Bad Request\r\n\r\n"
and no upstream connection is made, and so it is when no space follows the target at
all. -/
theorem connect_target_parsed (target rest : List Nat) (steps : TunnelSteps)
    (h_sp : 32 ∉ target) (h_nul : 0 ∉ target) :
    (target.length < 256 → 58 ∉ target →
        (handle_https_connect (bytes "CONNECT " ++ target ++ 32 :: rest) steps).upstream
          = some (target, 443)
        ∧ connect_to_server target 443 = (target, 443))
    ∧ (target.length < 256 → ∀ host port, target = host ++ 58 :: port → 58 ∉ host →
        (handle_https_connect (bytes "CONNECT " ++ target ++ 32 :: rest) steps).upstream
            = some (host, atoi port)
          ∧ connect_to_server host (atoi port) = (host, (atoi port % 65536).toNat)
          ∧ ((∀ c ∈ port, 48 ≤ c ∧ c ≤ 57) →
              port.foldl (fun n c => n * 10 + (c - 48)) 0 < 2 ^ 31 →
              connect_to_server host (atoi port)
                  = (host, port.foldl (fun n c => n * 10 + (c - 48)) 0 % 65536)
                ∧ (port.foldl (fun n c => n * 10 + (c - 48)) 0 < 65536 →
                    connect_to_server host (atoi port)
                      = (host, port.foldl (fun n c => n * 10 + (c - 48)) 0))))
    ∧ (256 ≤ target.length →
        handle_https_connect (bytes "CONNECT " ++ target ++ 32 :: rest) steps
          = ⟨none, [bytes "HTTP/1.1 400 Bad Request\r\n\r\n"], false⟩)
    ∧ handle_https_connect (bytes "CONNECT " ++ target) steps
        = ⟨none, [bytes "HTTP/1.1 400 Bad Request\r\n\r\n"], false⟩ := by
  have h8 : (bytes "CONNECT ").length = 8 := by decide
  have hup : ∀ t, connect_target (bytes "CONNECT " ++ target ++ 32 :: rest) = some t →
      (handle_https_connect (bytes "CONNECT " ++ target ++ 32 :: rest) steps).upstream
        = some t := by
    intro t ht
    unfold handle_https_connect
    rw [ht]
    simp only
    split <;> rfl
  refine ⟨?_, ?_, ?_, ?_⟩
  · intro hl hc
    refine ⟨?_, ?_⟩
    · apply hup
      rw [connect_target_of target rest h_sp h_nul hl, parse_host_port_plain target 443 hc]
    · rw [connect_to_server_nul_free target 443 h_nul]
      rfl
  · intro hl host port ht hc
    have h0 : 0 ∉ host := fun hm => h_nul (by rw [ht]; exact List.mem_append_left _ hm)
    refine ⟨?_, connect_to_server_nul_free host _ h0, ?_⟩
    · apply hup
      rw [connect_target_of target rest h_sp h_nul hl, ht,
        parse_host_port_colon host port 443 hc h0]
    · intro hd hv
      have hm : connect_to_server host (atoi port)
          = (host, port.foldl (fun n c => n * 10 + (c - 48)) 0 % 65536) := by
        rw [connect_to_server_nul_free host _ h0, atoi_digits port hd hv, htons_of_nat]
      refine ⟨hm, fun hs => ?_⟩
      rw [hm, Nat.mod_eq_of_lt hs]
  · intro hl
    have hd : (bytes "CONNECT " ++ target ++ 32 :: rest).drop 8 = target ++ 32 :: rest := by
      rw [List.append_assoc, List.drop_left' h8]
    unfold handle_https_connect connect_target
    rw [hd, strchr_found 32 target rest h_sp h_nul (by decide)]
    simp only
    rw [if_pos hl]
  · have hd : (bytes "CONNECT " ++ target).drop 8 = target := List.drop_left' h8
    unfold handle_https_connect connect_target
    rw [hd, strchr_none 32 target h_sp]

/-- C15, witness: "CONNECT example.test:8443 HTTP/1.1" goes to example.test, port 8443,
and "CONNECT example.test HTTP/1.1" to example.test, port 443. -/
theorem connect_target_parsed_witness :
    ((handle_https_connect (bytes "CONNECT " ++ bytes "example.test:8443" ++ 32
        :: bytes "HTTP/1.1\r\n\r\n") ⟨true, true, true, true, true, true, true, true⟩).upstream
      = some (bytes "example.test", atoi (bytes "8443"))
      ∧ connect_to_server (bytes "example.test") (atoi (bytes "8443"))
        = (bytes "example.test", 8443))
    ∧ (handle_https_connect (bytes "CONNECT " ++ bytes "example.test" ++ 32
        :: bytes "HTTP/1.1\r\n\r\n") ⟨true, true, true, true, true, true, true, true⟩).upstream
      = some (bytes "example.test", 443)
    ∧ connect_to_server (bytes "example.test") 443 = (bytes "example.test", 443) := by
  have h1 := (connect_target_parsed (bytes "example.test:8443") (bytes "HTTP/1.1\r\n\r\n")
    ⟨true, true, true, true, true, true, true, true⟩ (by decide) (by decide)).2.1 (by decide)
    (bytes "example.test") (bytes "8443") (by decide) (by decide)
  have h2 := (connect_target_parsed (bytes "example.test") (bytes "HTTP/1.1\r\n\r\n")
    ⟨true, true, true, true, true, true, true, true⟩ (by decide) (by decide)).1 (by decide)
    (by decide)
  refine ⟨⟨h1.1, ?_⟩, h2⟩
  rw [((h1.2.2 (by decide) (by decide)).2 (by decide))]
  decide

/-- C15, counterexample: a target of 5 bytes with a NUL byte in it, followed by a
space, is answered with 400 and no connection; and for the target "h:65979" the call
`connect_to_server("h", 65979)` connects to port 443 (65979 - 65536), not to the
decimal number after the colon. -/
theorem connect_target_nul_and_wrap :
    handle_https_connect (bytes "CONNECT " ++ (bytes "a" ++ [0] ++ bytes "b:1") ++ 32
        :: bytes "HTTP/1.1\r\n\r\n") ⟨true, true, true, true, true, true, true, true⟩
      = ⟨none, [bytes "HTTP/1.1 400 Bad Request\r\n\r\n"], false⟩
    ∧ (handle_https_connect (bytes "CONNECT " ++ bytes "h:65979" ++ 32
        :: bytes "HTTP/1.1\r\n\r\n") ⟨true, true, true, true, true, true, true, true⟩).upstream
      = some (bytes "h", 65979)
    ∧ connect_to_server (bytes "h") 65979 = (bytes "h", 443) := by
  decide

/-- The text "Host: " is searched in the whole request: when it occurs inside the name
of an earlier header, that header's value is the upstream host. -/
theorem host_text_in_other_header :
    (handle_http_request (bytes
        "GET / HTTP/1.1\r\nX-Forwarded-Host: evil.test\r\nHost: good.test\r\n\r\n") true).upstream
      = some (bytes "evil.test", 80) := by
  decide

/-- The three tokens of `sscanf` may come from different lines: a request line of two
tokens followed by a Host header is not answered with 400. -/
theorem tokens_across_lines :
    handle_http_request (bytes "GET /\r\nHost: a\r\n\r\n") true
      = ⟨some (bytes "a", 80), [], true⟩ := by
  decide

/-- The codec pair by itself is safe for every byte: whatever bytes `EVP_EncodeBlock`
is given, NUL bytes included, the client's decoding of the text gives them back. -/
theorem block_codec_round_trip (b : List Nat) (h_byte : ∀ x ∈ b, x < 256) :
    flask_decode (EVP_EncodeBlock b) = some b
    ∧ (EVP_EncodeBlock b).length = 4 * ((b.length + 2) / 3) :=
  ⟨flask_decode_encode b h_byte, encode_length b⟩

/-- The bytes `a`, NUL, `b`, given to the encoder whole, come back whole. -/
theorem block_codec_round_trip_witness :
    flask_decode (EVP_EncodeBlock [97, 0, 98]) = some [97, 0, 98]
    ∧ EVP_EncodeBlock [97, 0, 98] = bytes "YQBi" :=
  ⟨(block_codec_round_trip [97, 0, 98] (by decide)).1, by decide⟩

/-! ### Content-type extraction -/

theorem cstr_drop (l : List Nat) (k : Nat) (h : k ≤ (cstr l).length) :
    cstr (l.drop k) = (cstr l).drop k := by
  induction l generalizing k with
  | nil => simp [cstr]
  | cons c cs ih =>
    cases k with
    | zero => rfl
    | succ k =>
      by_cases hc : c = 0
      · have e : cstr (c :: cs) = [] := by simp [cstr, hc]
        rw [e] at h
        simp at h
      · have e : cstr (c :: cs) = c :: cstr cs := by simp [cstr, hc]
        rw [e] at h ⊢
        simp only [List.length_cons, Nat.add_le_add_iff_right] at h
        simp only [List.drop_succ_cons]
        exact ih k h

theorem cstr_skip_spaces (l : List Nat) :
    cstr (l.drop (skip_spaces l)) = (cstr l).dropWhile (fun c => decide (c = 32)) := by
  induction l with
  | nil => rfl
  | cons c cs ih =>
    unfold skip_spaces
    by_cases hc : c = 32
    · subst hc
      simp only [if_true, List.drop_succ_cons, ih]
      simp [cstr]
    · rw [if_neg hc, List.drop_zero]
      unfold cstr
      by_cases h0 : c = 0
      · simp [h0]
      · rw [if_neg h0, List.dropWhile_cons_of_neg (by simpa using hc)]

theorem take_of_cstr (l : List Nat) (n : Nat) (h : n ≤ (cstr l).length) :
    l.take n = (cstr l).take n := by
  obtain ⟨r, hr, _⟩ := cstr_append_rest l
  conv_lhs => rw [hr]
  rw [List.take_append_of_le_length h]

theorem no_needle_in_take (n l : List Nat) (p : Nat) (hn : n ≠ [])
    (h : find_first n l = some p ∨ find_first n l = none) (k : Nat)
    (hk : find_first n l = some p → k ≤ p) :
    find_first n (l.take k) = none := by
  rw [find_first_eq_none_iff]
  intro j hj hpre
  have hlen : j + n.length ≤ (l.take k).length := by
    have := hpre.length_le
    simp only [List.length_drop] at this
    omega
  have hl : l = l.take k ++ l.drop k := (List.take_append_drop k l).symm
  have h2 : n <+: l.drop j := by
    rw [hl]
    exact prefix_drop_append n _ _ j hpre
  have hnl : 0 < n.length := List.length_pos.2 hn
  rcases h with h | h
  · obtain ⟨_, _, h3⟩ := (find_first_eq_some_iff n l p).1 h
    have hkp := hk h
    have : (l.take k).length ≤ k := by simp [List.length_take]
    exact h3 j (by omega) h2
  · have : (l.take k).length ≤ l.length := by simp [List.length_take]
    exact (find_first_eq_none_iff n l).1 h j (by omega) h2

/-- The value `extract_content_type` works on: the C string after the header name at
offset `i`, without its leading spaces. -/
theorem extract_content_type_of (headers : List Nat) (i : Nat)
    (h : strcasestr headers (bytes "Content-Type:") = some i) :
    extract_content_type headers
      = match (find_first (bytes "\r\n")
            (((cstr headers).drop (i + 13)).dropWhile (fun c => decide (c = 32)))).orElse
          (fun _ => find_first (bytes "\n")
            (((cstr headers).drop (i + 13)).dropWhile (fun c => decide (c = 32)))) with
        | none => none
        | some len =>
          some ((((cstr headers).drop (i + 13)).dropWhile (fun c => decide (c = 32))).take len) := by
  have hb : i + 13 ≤ (cstr headers).length := by
    have := find_first_bound _ _ _ h
    simpa using this
  unfold extract_content_type
  rw [h]
  simp only [Option.orElse]
  unfold strstr
  rw [cstr_skip_spaces, cstr_drop _ _ hb]
  cases h1 : find_first (bytes "\r\n")
      (((cstr headers).drop (i + 13)).dropWhile (fun c => decide (c = 32))) with
  | some len =>
    simp only
    have := find_first_bound _ _ _ h1
    rw [take_of_cstr _ len (by rw [cstr_skip_spaces, cstr_drop _ _ hb]; omega),
      cstr_skip_spaces, cstr_drop _ _ hb]
  | none =>
    simp only
    cases h2 : find_first (bytes "\n")
        (((cstr headers).drop (i + 13)).dropWhile (fun c => decide (c = 32))) with
    | none => rfl
    | some len =>
      simp only
      have := find_first_bound _ _ _ h2
      rw [take_of_cstr _ len (by rw [cstr_skip_spaces, cstr_drop _ _ hb]; omega),
        cstr_skip_spaces, cstr_drop _ _ hb]

theorem not_mem_of_find_first_single (c : Nat) (l : List Nat) (h : find_first [c] l = none) :
    c ∉ l := by
  intro hm
  obtain ⟨a, b, rfl⟩ := List.append_of_mem hm
  have h2 := (find_first_eq_none_iff [c] (a ++ c :: b)).1 h a.length (by simp)
  rw [List.drop_left] at h2
  exact h2 ⟨b, rfl⟩

/-- C21 (amended): `extract_content_type` returns nothing when "Content-Type:" occurs in
no letter case; otherwise it takes the text after the first occurrence, without its
leading spaces, and returns it up to the first CRLF pair; when no CRLF pair follows, up
to the first LF; and nothing when no LF follows either.  A returned value never holds a
CRLF pair nor a NUL byte, and a value ended by a lone LF holds no LF. -/
theorem content_type_value (headers : List Nat) :
    (strcasestr headers (bytes "Content-Type:") = none → extract_content_type headers = none)
    ∧ (∀ i value, strcasestr headers (bytes "Content-Type:") = some i →
        value = ((cstr headers).drop (i + 13)).dropWhile (fun c => decide (c = 32)) →
        (∀ n, find_first (bytes "\r\n") value = some n →
          extract_content_type headers = some (value.take n))
        ∧ (find_first (bytes "\r\n") value = none → ∀ n, find_first (bytes "\n") value = some n →
          extract_content_type headers = some (value.take n) ∧ 10 ∉ value.take n)
        ∧ (find_first (bytes "\n") value = none → extract_content_type headers = none))
    ∧ (∀ v, extract_content_type headers = some v →
        find_first (bytes "\r\n") v = none ∧ 0 ∉ v) := by
  have hlow : strcasestr headers (bytes "content-type:")
      = strcasestr headers (bytes "Content-Type:") := by
    unfold strcasestr
    have : (bytes "content-type:").map tolower = (bytes "Content-Type:").map tolower := by decide
    rw [this]
  have hcrlf_of_lf : ∀ value : List Nat, find_first (bytes "\n") value = none →
      find_first (bytes "\r\n") value = none := by
    intro value h
    have hn := not_mem_of_find_first_single 10 value h
    rw [find_first_eq_none_iff]
    intro j hj hpre
    obtain ⟨t, ht⟩ := hpre
    have : (10 : Nat) ∈ value.drop j := by
      rw [← ht]
      simp [bytes_crlf]
    exact hn (List.mem_of_mem_drop this)
  refine ⟨?_, ?_, ?_⟩
  · intro h
    unfold extract_content_type
    rw [hlow, h]
    rfl
  · intro i value h hv
    have he := extract_content_type_of headers i h
    rw [← hv] at he
    refine ⟨?_, ?_, ?_⟩
    · intro n hn
      rw [he, hn]
      rfl
    · intro hnone n hn
      refine ⟨by rw [he, hnone, hn]; rfl, ?_⟩
      apply not_mem_of_find_first_single
      exact no_needle_in_take [10] value n (by simp) (Or.inl hn) n (fun _ => le_refl _)
    · intro hnone
      rw [he, hcrlf_of_lf value hnone, hnone]
      rfl
  · intro v hv
    cases hi : strcasestr headers (bytes "Content-Type:") with
    | none =>
      unfold extract_content_type at hv
      rw [hlow, hi] at hv
      cases hv
    | some i =>
      have he := extract_content_type_of headers i hi
      rw [he] at hv
      have h0 : (0 : Nat) ∉ ((cstr headers).drop (i + 13)).dropWhile
          (fun c => decide (c = 32)) := by
        intro hm
        exact cstr_nul_free headers
          (List.mem_of_mem_drop ((List.dropWhile_sublist _).subset hm))
      cases h1 : find_first (bytes "\r\n")
          (((cstr headers).drop (i + 13)).dropWhile (fun c => decide (c = 32))) with
      | some n =>
        rw [h1] at hv
        simp only [Option.orElse, Option.some.injEq] at hv
        subst hv
        exact ⟨no_needle_in_take _ _ n (by decide) (Or.inl h1) n (fun _ => le_refl _),
          fun hm => h0 (List.mem_of_mem_take hm)⟩
      | none =>
        rw [h1] at hv
        simp only [Option.orElse] at hv
        cases h2 : find_first (bytes "\n")
            (((cstr headers).drop (i + 13)).dropWhile (fun c => decide (c = 32))) with
        | none => rw [h2] at hv; cases hv
        | some n =>
          rw [h2] at hv
          simp only [Option.some.injEq] at hv
          subst hv
          exact ⟨no_needle_in_take _ _ 0 (by decide) (Or.inr h1) n
              (fun hc => by rw [h1] at hc; cases hc),
            fun hm => h0 (List.mem_of_mem_take hm)⟩

/-- C21, witness: a header block with the header in lower case and two spaces before
the value; the value ends at the CRLF. -/
theorem content_type_value_witness :
    strcasestr (bytes "HTTP/1.1 200 OK\r\ncontent-type:  text/html; charset=utf-8\r\nServer: x\r\n\r\n")
        (bytes "Content-Type:") = some 17
    ∧ extract_content_type
        (bytes "HTTP/1.1 200 OK\r\ncontent-type:  text/html; charset=utf-8\r\nServer: x\r\n\r\n")
      = some (bytes "text/html; charset=utf-8") := by
  have h := ((content_type_value
    (bytes "HTTP/1.1 200 OK\r\ncontent-type:  text/html; charset=utf-8\r\nServer: x\r\n\r\n")).2.1
    17 (bytes "text/html; charset=utf-8\r\nServer: x\r\n\r\n") (by decide) (by decide)).1 24
    (by decide)
  exact ⟨by decide, h.trans (by decide)⟩

/-- C21, counterexample: a value followed by a lone LF and a later CRLF is returned
with the LF and the line after it, a lone CR stays in the value, and a value that no
line end follows is not returned at all; the first of these makes a response of type
application/json count as HTML. -/
theorem content_type_keeps_line_feed :
    extract_content_type (bytes "Content-Type: application/json\nX-Note: text/html\r\n\r\n")
      = some (bytes "application/json\nX-Note: text/html")
    ∧ is_html_content_type
        (extract_content_type (bytes "Content-Type: application/json\nX-Note: text/html\r\n\r\n"))
      = true
    ∧ extract_content_type (bytes "Content-Type: text/plain\rtext/html\r\n")
      = some (bytes "text/plain\rtext/html")
    ∧ extract_content_type (bytes "Content-Type: text/html") = none := by
  decide

/-! ### Scenario S3 and the location of the payload -/

theorem llm_response_call (full_url r : List Nat) (enhanced : Option (List Nat)) (q : Nat)
    (h_enh : should_enhance r = true) (hq : strstr r (bytes "\r\n\r\n") = some q) :
    (llm_response full_url r enhanced).flask_call = some (r.drop (q + 4), full_url) := by
  unfold llm_response
  simp only [h_enh, hq, if_true]
  cases enhanced with
  | none => rfl
  | some e =>
    simp only
    split_ifs <;> [skip; rfl]
    cases strstr r (bytes "\r\n") with
    | none => rfl
    | some p =>
      simp only
      split_ifs <;> rfl

/-- C22 (amended): scenario S3.  The origin answers with a text/html response whose
body is "<p>A</p>" and the backend answers with the base64 of "<p>A!</p>".  Both
handlers then hand the body "<p>A</p>" and the URL to the enhancement client and send
downstream the status line, "X-Proxy:CS112", "Content-Length: 9" (the 9 bytes of
"<p>A!</p>"), "Content-Type: text/html; charset=utf-8", "Connection: close", an empty
line and the body "<p>A!</p>". -/
theorem scenario_s3 (now : Int) (hostname url client_request : List Nat) :
    (enhance FlaskState.initial now (Network.answered (bytes
        "HTTP/1.1 200 OK\r\nContent-Type: application/json\r\n\r\n\x7b\"html_base64\": \"PHA+QSE8L3A+\"\x7d"))).result
      = some (bytes "<p>A!</p>")
    ∧ handle_http_request_llm hostname url
        (bytes "HTTP/1.1 200 OK\r\nContent-Type: text/html\r\n\r\n<p>A</p>")
        (enhance FlaskState.initial now (Network.answered (bytes
          "HTTP/1.1 200 OK\r\nContent-Type: application/json\r\n\r\n\x7b\"html_base64\": \"PHA+QSE8L3A+\"\x7d"))).result
      = { flask_call := some (bytes "<p>A</p>", build_full_url (bytes "http://") hostname url),
          to_client := some (bytes ("HTTP/1.1 200 OK\r\nX-Proxy:CS112\r\nContent-Length: 9\r\n"
            ++ "Content-Type: text/html; charset=utf-8\r\nConnection: close\r\n\r\n<p>A!</p>")) }
    ∧ handle_https_connect_llm hostname client_request
        (bytes "HTTP/1.1 200 OK\r\nContent-Type: text/html\r\n\r\n<p>A</p>")
        (enhance FlaskState.initial now (Network.answered (bytes
          "HTTP/1.1 200 OK\r\nContent-Type: application/json\r\n\r\n\x7b\"html_base64\": \"PHA+QSE8L3A+\"\x7d"))).result
      = { flask_call := some (bytes "<p>A</p>",
            build_full_url (bytes "https://") hostname (tunnel_url client_request)),
          to_client := some (bytes ("HTTP/1.1 200 OK\r\nX-Proxy:CS112\r\nContent-Length: 9\r\n"
            ++ "Content-Type: text/html; charset=utf-8\r\nConnection: close\r\n\r\n<p>A!</p>")) } := by
  have hr : ∀ u, llm_response u (bytes "HTTP/1.1 200 OK\r\nContent-Type: text/html\r\n\r\n<p>A</p>")
      (some (bytes "<p>A!</p>"))
      = { flask_call := some (bytes "<p>A</p>", u),
          to_client := some (bytes ("HTTP/1.1 200 OK\r\nX-Proxy:CS112\r\nContent-Length: 9\r\n"
            ++ "Content-Type: text/html; charset=utf-8\r\nConnection: close\r\n\r\n<p>A!</p>")) } := by
    intro u
    have h1 := llm_response_call u
      (bytes "HTTP/1.1 200 OK\r\nContent-Type: text/html\r\n\r\n<p>A</p>")
      (some (bytes "<p>A!</p>")) 40 (by decide) (by decide)
    have h2 := llm_response_enhanced u
      (bytes "HTTP/1.1 200 OK\r\nContent-Type: text/html\r\n\r\n<p>A</p>")
      (bytes "<p>A!</p>") 15 (by decide) (by decide) (by decide) (by decide) (by decide)
    cases hx : llm_response u (bytes "HTTP/1.1 200 OK\r\nContent-Type: text/html\r\n\r\n<p>A</p>")
      (some (bytes "<p>A!</p>")) with
    | mk call out =>
      rw [hx] at h1 h2
      simp only at h1 h2
      have hd : List.drop (40 + 4)
          (bytes "HTTP/1.1 200 OK\r\nContent-Type: text/html\r\n\r\n<p>A</p>")
          = bytes "<p>A</p>" := by decide
      rw [h1, h2, hd]
      simp only [LlmExchange.mk.injEq, Option.some.injEq, true_and]
      decide
  have he : (enhance FlaskState.initial now (Network.answered (bytes
      "HTTP/1.1 200 OK\r\nContent-Type: application/json\r\n\r\n\x7b\"html_base64\": \"PHA+QSE8L3A+\"\x7d"))).result
      = some (bytes "<p>A!</p>") := by
    unfold enhance send_to_flask_enhance
    rw [if_neg (by simp [FlaskState.initial])]
    simp only
    decide
  rw [he]
  exact ⟨rfl, hr _, hr _⟩

set_option maxRecDepth 100000 in
/-- C22, counterexample: the body "<p>A!</p>" has 9 bytes and the frame sent downstream
announces them as "Content-Length: 9"; the text "Content-Length: 8" does not occur in
it. -/
theorem scenario_s3_announces_nine_bytes :
    (bytes "<p>A!</p>").length = 9
    ∧ (handle_http_request_llm (bytes "example.test") (bytes "/")
        (bytes "HTTP/1.1 200 OK\r\nContent-Type: text/html\r\n\r\n<p>A</p>")
        (flask_result (bytes
          "HTTP/1.1 200 OK\r\nContent-Type: application/json\r\n\r\n\x7b\"html_base64\": \"PHA+QSE8L3A+\"\x7d"))).to_client.map
          (fun frame => (find_first (bytes "Content-Length: 8") frame,
            find_first (bytes "\r\nContent-Length: 9\r\n") frame))
      = some (none, some 30) := by
  decide

theorem parse_html_base64_at (pre e post : List Nat) (k : Nat) (he : ∀ x ∈ e, x < 256)
    (h0 : 0 ∉ pre)
    (hfirst : find_first (bytes "\"html_base64\":") (pre ++ bytes "\"html_base64\":")
      = some pre.length) :
    parse_html_base64 (pre ++ bytes "\"html_base64\":" ++ List.replicate k 32 ++ 34
        :: (EVP_EncodeBlock e ++ 34 :: post)) = some e := by
  obtain ⟨hn0, hn34⟩ := encode_no_quote_no_nul e he
  have hfield : strstr (pre ++ bytes "\"html_base64\":" ++ List.replicate k 32 ++ 34
      :: (EVP_EncodeBlock e ++ 34 :: post)) (bytes "\"html_base64\":") = some pre.length := by
    apply strstr_of_find_first
    · have := find_first_append_some _ _ (List.replicate k 32 ++ 34
        :: (EVP_EncodeBlock e ++ 34 :: post)) _ hfirst
      simpa [List.append_assoc] using this
    · rw [List.append_assoc, List.append_assoc, List.take_left]
      exact h0
    · decide
  unfold parse_html_base64
  rw [hfield]
  have hdrop : List.drop (pre.length + 14) (pre ++ bytes "\"html_base64\":"
      ++ List.replicate k 32 ++ 34 :: (EVP_EncodeBlock e ++ 34 :: post))
      = List.replicate k 32 ++ 34 :: (EVP_EncodeBlock e ++ 34 :: post) := by
    have hl : (pre ++ bytes "\"html_base64\":").length = pre.length + 14 := by
      rw [List.length_append]; rfl
    rw [List.append_assoc (pre ++ bytes "\"html_base64\":"), ← hl, List.drop_left]
  simp only [hdrop]
  rw [skip_spaces_replicate k 34 _ (by decide), List.drop_left' (List.length_replicate _ _)]
  simp only [List.headD_cons, ne_eq, not_true_eq_false, if_false, List.drop_succ_cons,
    List.drop_zero]
  rw [cstr_append_of_nul_free _ _ hn0]
  have hc : cstr (34 :: post) = 34 :: cstr post := by simp [cstr]
  rw [hc, takeWhile_until_quote _ _ hn34]
  exact flask_decode_encode e he

theorem prefix_drop_of_take (n l : List Nat) (k q : Nat) (h : n <+: (l.take k).drop q) :
    n <+: l.drop q := by
  rw [List.drop_take] at h
  exact h.trans (List.take_prefix _ _)

/-- A needle that starts nowhere in the response is not found in what the client keeps
of it, so the client returns nothing. -/
theorem flask_result_none_of_absent (needle_free : List Nat) (k : Nat)
    (h : ∀ q, ¬ bytes "\"html_base64\":" <+: needle_free.drop q) :
    flask_result (needle_free.take k) = none := by
  unfold flask_result
  cases strstr (needle_free.take k) (bytes "\r\n\r\n") with
  | none => rfl
  | some i =>
    simp only
    unfold parse_html_base64
    have : strstr ((needle_free.take k).drop (i + 4)) (bytes "\"html_base64\":") = none := by
      apply strstr_none_of_find_first
      rw [find_first_eq_none_iff]
      intro j _ hp
      rw [List.drop_drop] at hp
      exact h _ (prefix_drop_of_take _ _ _ _ hp)
    rw [this]

/-- The member name occurs at one place only: after `pre`. -/
theorem name_only_after (name pre tail : List Nat) (q : Nat) (hne : name ≠ [])
    (h_first : find_first name (pre ++ name) = some pre.length)
    (h_last : find_first name ((name ++ tail).drop 1) = none)
    (h : name <+: (pre ++ name ++ tail).drop q) : q = pre.length := by
  have h1 : find_first name (pre ++ name ++ tail) = some pre.length :=
    find_first_append_some _ _ _ _ h_first
  obtain ⟨_, _, hmin⟩ := (find_first_eq_some_iff _ _ _).1 h1
  by_contra hq
  rcases Nat.lt_or_gt_of_ne hq with hlt | hgt
  · exact hmin q hlt h
  · obtain ⟨j, rfl⟩ : ∃ j, q = pre.length + (1 + j) := ⟨q - pre.length - 1, by omega⟩
    rw [List.append_assoc, ← List.drop_drop, List.drop_left, ← List.drop_drop] at h
    by_cases hj : j ≤ ((name ++ tail).drop 1).length
    · exact (find_first_eq_none_iff _ _).1 h_last j hj h
    · rw [List.drop_eq_nil_of_le (by omega)] at h
      exact hne (List.prefix_nil.1 h)

theorem parse_html_base64_no_quote (pre post : List Nat) (k w : Nat) (h0 : 0 ∉ pre)
    (hfirst : find_first (bytes "\"html_base64\":") (pre ++ bytes "\"html_base64\":")
      = some pre.length)
    (hw : w ≠ 32) (hq : w ≠ 34) :
    parse_html_base64 (pre ++ bytes "\"html_base64\":" ++ List.replicate k 32 ++ w :: post)
      = none := by
  have hfield : strstr (pre ++ bytes "\"html_base64\":" ++ List.replicate k 32 ++ w :: post)
      (bytes "\"html_base64\":") = some pre.length := by
    apply strstr_of_find_first
    · have := find_first_append_some _ _ (List.replicate k 32 ++ w :: post) _ hfirst
      simpa [List.append_assoc] using this
    · rw [List.append_assoc, List.append_assoc, List.take_left]
      exact h0
    · decide
  unfold parse_html_base64
  rw [hfield]
  have hdrop : List.drop (pre.length + 14) (pre ++ bytes "\"html_base64\":"
      ++ List.replicate k 32 ++ w :: post) = List.replicate k 32 ++ w :: post := by
    have hl : (pre ++ bytes "\"html_base64\":").length = pre.length + 14 := by
      rw [List.length_append]; rfl
    rw [List.append_assoc (pre ++ bytes "\"html_base64\":"), ← hl, List.drop_left]
  simp only [hdrop]
  rw [skip_spaces_replicate k w _ hw, List.drop_left' (List.length_replicate _ _)]
  simp only [List.headD_cons, ne_eq, hq, not_false_eq_true, if_true]

/-- C23 (amended): for every backend response of fewer than 2 MiB bytes whose head holds
no NUL byte and in whose body the text "html_base64" in quotes directly followed by a
colon occurs for the first time after a text `pre` without NUL bytes, followed by any
number of spaces and then, in quotes, the base64 text of a byte sequence `e`, a call
that gets through returns `e`, whatever `pre` and the text `post` after the closing
quote are (white space of any kind included).  When the member name in quotes occurs
once in the response and is followed by a byte other than the colon (white space, for
one), the call returns nothing.  And when the first byte after the colon and the spaces
that follow it is neither a space nor a double quote (a tab or a line break, for one),
the call returns nothing. -/
theorem payload_located (st : FlaskState) (now : Int) (h_up : st.flask_available = true) :
    (∀ (head pre e post : List Nat) (k : Nat), 0 ∉ head →
        find_first (bytes "\r\n\r\n") (head ++ bytes "\r\n\r\n") = some head.length →
        (∀ x ∈ e, x < 256) → 0 ∉ pre →
        find_first (bytes "\"html_base64\":") (pre ++ bytes "\"html_base64\":")
          = some pre.length →
        (head ++ bytes "\r\n\r\n" ++ (pre ++ bytes "\"html_base64\":" ++ List.replicate k 32
          ++ 34 :: (EVP_EncodeBlock e ++ 34 :: post))).length < max_response →
        (enhance st now (Network.answered (head ++ bytes "\r\n\r\n"
          ++ (pre ++ bytes "\"html_base64\":" ++ List.replicate k 32 ++ 34
            :: (EVP_EncodeBlock e ++ 34 :: post))))).result = some e)
    ∧ (∀ (before post : List Nat) (w : Nat), w ≠ 58 →
        find_first (bytes "\"html_base64\"") (before ++ bytes "\"html_base64\"")
          = some before.length →
        find_first (bytes "\"html_base64\"") ((bytes "\"html_base64\"" ++ w :: post).drop 1)
          = none →
        (enhance st now (Network.answered
          (before ++ bytes "\"html_base64\"" ++ w :: post))).result = none)
    ∧ (∀ (head pre post : List Nat) (k w : Nat), 0 ∉ head →
        find_first (bytes "\r\n\r\n") (head ++ bytes "\r\n\r\n") = some head.length →
        0 ∉ pre →
        find_first (bytes "\"html_base64\":") (pre ++ bytes "\"html_base64\":")
          = some pre.length →
        w ≠ 32 → w ≠ 34 →
        (head ++ bytes "\r\n\r\n" ++ (pre ++ bytes "\"html_base64\":" ++ List.replicate k 32
          ++ w :: post)).length < max_response →
        (enhance st now (Network.answered (head ++ bytes "\r\n\r\n"
          ++ (pre ++ bytes "\"html_base64\":" ++ List.replicate k 32 ++ w :: post)))).result
          = none) := by
  refine ⟨?_, ?_, ?_⟩
  · intro head pre e post k h_head h_sep h_byte h_pre h_first h_len
    rw [enhance_result st now _ h_up, take_max_response _ h_len,
      flask_result_of_body head _ h_head h_sep]
    exact parse_html_base64_at pre e post k h_byte h_pre h_first
  · intro before post w hw h_first h_last
    rw [enhance_result st now _ h_up]
    apply flask_result_none_of_absent
    intro q hq
    have hname : bytes "\"html_base64\"" <+: bytes "\"html_base64\":" := ⟨[58], by decide⟩
    have hq2 := name_only_after (bytes "\"html_base64\"") before (w :: post) q (by decide)
      h_first h_last (hname.trans hq)
    subst hq2
    rw [List.append_assoc, List.drop_left] at hq
    have e1 : bytes "\"html_base64\":" = bytes "\"html_base64\"" ++ [58] := by decide
    rw [e1] at hq
    have := (List.prefix_append_right_inj _).1 hq
    rw [List.cons_prefix_cons] at this
    exact hw this.1.symm
  · intro head pre post k w h_head h_sep h_pre h_first hw hq h_len
    rw [enhance_result st now _ h_up, take_max_response _ h_len,
      flask_result_of_body head _ h_head h_sep]
    exact parse_html_base64_no_quote pre post k w h_pre h_first hw hq

/-- C23, witness: an indented object with a member before the field, a line break
after the value, and three spaces after the colon yields the payload; the same payload
is not found when a space stands between the member name and the colon, nor when a tab
stands between the colon and the value. -/
theorem payload_located_witness :
    (enhance FlaskState.initial 100 (Network.answered (bytes "HTTP/1.1 200 OK" ++ bytes "\r\n\r\n"
        ++ (bytes "\x7b\n\t\"ok\": true,\n\t" ++ bytes "\"html_base64\":" ++ List.replicate 3 32 ++ 34
          :: (EVP_EncodeBlock (bytes "<p>A!</p>") ++ 34 :: bytes "\n\x7d\n"))))).result
      = some (bytes "<p>A!</p>")
    ∧ (enhance FlaskState.initial 100 (Network.answered (bytes "HTTP/1.1 200 OK\r\n\r\n\x7b"
        ++ bytes "\"html_base64\"" ++ 32 :: bytes ": \"PHA+QSE8L3A+\"\x7d"))).result = none
    ∧ (enhance FlaskState.initial 100 (Network.answered (bytes "HTTP/1.1 200 OK" ++ bytes "\r\n\r\n"
        ++ (bytes "\x7b" ++ bytes "\"html_base64\":" ++ List.replicate 1 32
          ++ 9 :: bytes "\"PHA+QSE8L3A+\"\x7d")))).result = none :=
  ⟨(payload_located FlaskState.initial 100 rfl).1 (bytes "HTTP/1.1 200 OK")
      (bytes "\x7b\n\t\"ok\": true,\n\t") (bytes "<p>A!</p>") (bytes "\n\x7d\n") 3
      (by decide) (by decide) (by decide) (by decide) (by decide) (by decide),
    (payload_located FlaskState.initial 100 rfl).2.1 (bytes "HTTP/1.1 200 OK\r\n\r\n\x7b")
      (bytes ": \"PHA+QSE8L3A+\"\x7d") 32 (by decide) (by decide) (by decide),
    (payload_located FlaskState.initial 100 rfl).2.2 (bytes "HTTP/1.1 200 OK") (bytes "\x7b")
      (bytes "\"PHA+QSE8L3A+\"\x7d") 1 9 (by decide) (by decide) (by decide) (by decide)
      (by decide) (by decide) (by decide)⟩

/-- C23, counterexample: the same payload is not found when a space stands between the
member name and the colon, nor when a tab or a line break stands between the colon and
the value. -/
theorem payload_missed_on_white_space :
    flask_result (bytes "HTTP/1.1 200 OK\r\n\r\n\x7b\"html_base64\" : \"PHA+QSE8L3A+\"\x7d") = none
    ∧ flask_result (bytes "HTTP/1.1 200 OK\r\n\r\n\x7b\"html_base64\":\t\"PHA+QSE8L3A+\"\x7d") = none
    ∧ flask_result (bytes "HTTP/1.1 200 OK\r\n\r\n\x7b\"html_base64\":\n\"PHA+QSE8L3A+\"\x7d") = none
    ∧ flask_result (bytes "HTTP/1.1 200 OK\r\n\r\n\x7b\"html_base64\": \"PHA+QSE8L3A+\"\x7d")
      = some (bytes "<p>A!</p>") := by
  decide

/-! ### Validity and serial -/

theorem generate_cert_fields (lib : OpenSSL) (ca : CA) (now : Nat) (hostname : List Nat)
    (cert : X509) (h : generate_cert lib ca now hostname = some cert) :
    cert.serial = ulong_to_long (serial_of now hostname)
    ∧ cert.notBefore = (now : Int) - 86400 ∧ cert.notAfter = (now : Int) + 31536000 := by
  unfold generate_cert at h
  by_cases h1 : lib.x509_new = true <;> by_cases h2 : lib.set_version = true <;>
    by_cases h3 : lib.set_pubkey = true <;> by_cases h4 : lib.sign = true <;>
    simp only [h1, h2, h3, h4, not_true_eq_false, not_false_eq_true, if_true, if_false,
      Option.some.injEq, reduceCtorEq] at h
  subst h
  exact ⟨rfl, rfl, rfl⟩

/-- C24 (amended): each of the two calls of `X509_gmtime_adj` reads the clock itself.
For readings `t1 <= t2` (in the years OpenSSL can represent) the minted leaf has
notBefore = t1 - 86400 and notAfter = t2 + 31536000, so the validity window is
31 622 400 + (t2 - t1) seconds long: exactly 31 622 400 seconds when the clock does not
advance between the two calls, and longer by the advance otherwise; it contains every
instant from t1 to t2.  With one reading `now` for both calls these are the fields of
the certificate `generate_cert` returns. -/
theorem validity_window (t1 t2 : Int) (h_order : t1 ≤ t2) (h_low : -62167132800 ≤ t1)
    (h_high : t2 ≤ 253370764799) :
    generate_cert_validity t1 t2 = (some (t1 - 86400), some (t2 + 31536000))
    ∧ (∀ notBefore notAfter, generate_cert_validity t1 t2 = (some notBefore, some notAfter) →
        notAfter - notBefore = 31622400 + (t2 - t1)
        ∧ (t1 = t2 → notAfter - notBefore = 31622400)
        ∧ ∀ t, t1 ≤ t → t ≤ t2 → notBefore ≤ t ∧ t ≤ notAfter)
    ∧ (∀ lib ca hostname cert, ∀ now : Nat, t1 = now → t2 = now →
        generate_cert lib ca now hostname = some cert →
        generate_cert_validity t1 t2 = (some cert.notBefore, some cert.notAfter)
        ∧ cert.notAfter - cert.notBefore = 31622400) := by
  have hv : generate_cert_validity t1 t2 = (some (t1 - 86400), some (t2 + 31536000)) := by
    unfold generate_cert_validity X509_gmtime_adj
    rw [if_pos (by omega), if_pos (by omega)]
    rfl
  refine ⟨hv, ?_, ?_⟩
  · intro nb na h
    rw [hv] at h
    simp only [Prod.mk.injEq, Option.some.injEq] at h
    obtain ⟨rfl, rfl⟩ := h
    refine ⟨by omega, fun _ => by omega, fun t _ _ => by omega⟩
  · intro lib ca hostname cert now e1 e2 h
    obtain ⟨_, hb, ha⟩ := generate_cert_fields lib ca now hostname cert h
    rw [hv, hb, ha, e1, e2]
    exact ⟨rfl, by omega⟩

/-- C24, witness: both calls read 1700000000. -/
theorem validity_window_witness :
    generate_cert_validity 1700000000 1700000000 = (some 1699913600, some 1731536000)
    ∧ (1731536000 : Int) - 1699913600 = 31622400 :=
  ⟨(validity_window 1700000000 1700000000 (by decide) (by decide) (by decide)).1.trans
    (by decide), by decide⟩

/-- C24, counterexample: the clock advances from 1699999999 to 1700000000 between the
two calls; the window is 31 622 401 seconds long, and no single `now` gives both
fields. -/
theorem validity_window_across_tick :
    generate_cert_validity 1699999999 1700000000 = (some 1699913599, some 1731536000)
    ∧ (1731536000 : Int) - 1699913599 = 31622401
    ∧ (1699913599 : Int) + 86400 ≠ 1731536000 - 31536000 := by
  decide

theorem serial_of_fold (hostname : List Nat) (s : Nat) (t : Int)
    (h : (s : Int) = t % 18446744073709551616) :
    ((hostname.foldl (fun serial c => (serial * 31 + char_to_ulong c) % 2 ^ 64) s : Nat) : Int)
      = (hostname.foldl (fun s c => 31 * s + signed_char c) t) % 18446744073709551616 := by
  induction hostname generalizing s t with
  | nil => exact h
  | cons c cs ih =>
    simp only [List.foldl_cons]
    apply ih
    unfold char_to_ulong signed_char
    have e : (2 : Nat) ^ 64 = 18446744073709551616 := by norm_num
    rw [e]
    split_ifs <;> omega

theorem serial_of_fold_ascii (hostname : List Nat) (s t : Nat) (hc : ∀ c ∈ hostname, c < 128)
    (h : s = t % 18446744073709551616) :
    hostname.foldl (fun serial c => (serial * 31 + char_to_ulong c) % 2 ^ 64) s
      = (hostname.foldl (fun s c => 31 * s + c) t) % 18446744073709551616 := by
  induction hostname generalizing s t with
  | nil => exact h
  | cons c cs ih =>
    simp only [List.foldl_cons]
    apply ih _ _ (fun x hx => hc x (List.mem_cons_of_mem _ hx))
    have := hc c (List.mem_cons_self _ _)
    unfold char_to_ulong
    have e : (2 : Nat) ^ 64 = 18446744073709551616 := by norm_num
    rw [e, if_pos this]
    omega

theorem ulong_to_long_emod (v : Nat) (h : v < 18446744073709551616) :
    ulong_to_long v % 18446744073709551616 = (v : Int) := by
  unfold ulong_to_long
  have e : (2 : Int) ^ 64 = 18446744073709551616 := by norm_num
  have e3 : (2 : Nat) ^ 63 = 9223372036854775808 := by norm_num
  rw [e, e3]
  split_ifs <;> omega

theorem serial_of_lt (now : Nat) (hostname : List Nat) :
    serial_of now hostname < 18446744073709551616 := by
  unfold serial_of
  have e : (2 : Nat) ^ 64 = 18446744073709551616 := by norm_num
  induction hostname using List.reverseRecOn with
  | nil => simp only [List.foldl_nil]; rw [e]; omega
  | append_singleton cs c _ =>
    simp only [List.foldl_append, List.foldl_cons, List.foldl_nil]
    rw [e]; omega

/-- C25, the defect and its extent: the serial is a function of the time read in
proxy.c 969 and the hostname, so two mints at the same time for the same hostname get
the same serial; but it is not the fold s -> 31*s + c modulo 2^64.  Let F be that fold
over the `char` values of the hostname (the bytes, for an ASCII hostname), started at
the time and taken modulo 2^64.  The loop computes F as an `unsigned long`, and the
call of `ASN1_INTEGER_set` takes it as a `long`: the serial of the certificate is F
when F is below 2^63 and F - 2^64, a negative number, otherwise. -/
theorem serial_is_signed_fold (lib1 lib2 : OpenSSL) (ca1 ca2 : CA) (now : Nat)
    (hostname : List Nat) (cert1 cert2 : X509)
    (h1 : generate_cert lib1 ca1 now hostname = some cert1)
    (h2 : generate_cert lib2 ca2 now hostname = some cert2) :
    cert1.serial = cert2.serial
    ∧ (serial_of now hostname : Int)
        = (hostname.foldl (fun s c => 31 * s + signed_char c) (now : Int)) % 2 ^ 64
    ∧ ((hostname.foldl (fun s c => 31 * s + signed_char c) (now : Int)) % 2 ^ 64 < 2 ^ 63 →
        cert1.serial
          = (hostname.foldl (fun s c => 31 * s + signed_char c) (now : Int)) % 2 ^ 64)
    ∧ (2 ^ 63 ≤ (hostname.foldl (fun s c => 31 * s + signed_char c) (now : Int)) % 2 ^ 64 →
        cert1.serial
          = (hostname.foldl (fun s c => 31 * s + signed_char c) (now : Int)) % 2 ^ 64 - 2 ^ 64
        ∧ cert1.serial < 0)
    ∧ ((∀ c ∈ hostname, c < 128) →
        serial_of now hostname = (hostname.foldl (fun s c => 31 * s + c) now) % 2 ^ 64) := by
  obtain ⟨hs1, _, _⟩ := generate_cert_fields lib1 ca1 now hostname cert1 h1
  obtain ⟨hs2, _, _⟩ := generate_cert_fields lib2 ca2 now hostname cert2 h2
  have e : (2 : Int) ^ 64 = 18446744073709551616 := by norm_num
  have e3 : (2 : Int) ^ 63 = 9223372036854775808 := by norm_num
  have en : (2 : Nat) ^ 64 = 18446744073709551616 := by norm_num
  have en3 : (2 : Nat) ^ 63 = 9223372036854775808 := by norm_num
  have hfold : (serial_of now hostname : Int)
      = (hostname.foldl (fun s c => 31 * s + signed_char c) (now : Int))
          % 18446744073709551616 := by
    unfold serial_of
    apply serial_of_fold
    rw [en]
    omega
  have hlt := serial_of_lt now hostname
  have hser : cert1.serial = if serial_of now hostname < 9223372036854775808
      then (serial_of now hostname : Int)
      else (serial_of now hostname : Int) - 18446744073709551616 := by
    rw [hs1]
    unfold ulong_to_long
    rw [en3, e]
  refine ⟨by rw [hs1, hs2], by rw [e]; exact hfold, ?_, ?_, ?_⟩
  · rw [e, e3, ← hfold]
    intro hlow
    rw [hser, if_pos (by omega)]
  · rw [e, e3, ← hfold]
    intro hhigh
    rw [hser, if_neg (by omega)]
    exact ⟨rfl, by omega⟩
  · intro hc
    rw [en]
    unfold serial_of
    exact serial_of_fold_ascii hostname _ _ hc (by rw [en])

/-- C25, failing input: the leaf minted for "example.test" at 1700000000.  The fold
modulo 2^64 is 14038024222357335958; the serial of the certificate is that value less
2^64, which is -4408719851352215658. -/
theorem serial_is_signed_fold_witness :
    (bytes "example.test").foldl (fun s c => 31 * s + c) 1700000000 % 2 ^ 64
        = 14038024222357335958
    ∧ (generate_cert OpenSSL.accepting ⟨[(Attr.CN, bytes "CS112 CA")], 7⟩ 1700000000
        (bytes "example.test")).map (fun cert => cert.serial)
      = some (14038024222357335958 - 2 ^ 64)
    ∧ (14038024222357335958 : Int) - 2 ^ 64 = -4408719851352215658 := by
  refine ⟨by decide, ?_, by norm_num⟩
  cases hc : generate_cert OpenSSL.accepting ⟨[(Attr.CN, bytes "CS112 CA")], 7⟩ 1700000000
      (bytes "example.test") with
  | none => exact absurd hc (by decide)
  | some cert =>
    have h := serial_is_signed_fold _ _ _ _ _ _ cert cert hc hc
    have hv : (List.foldl (fun s c => 31 * s + signed_char c) ((1700000000 : Nat) : Int)
        (bytes "example.test")) % 2 ^ 64 = 14038024222357335958 := by
      rw [← h.2.1]
      have : serial_of 1700000000 (bytes "example.test") = 14038024222357335958 := by decide
      rw [this]
      rfl
    have h4 := h.2.2.2.1
    rw [hv] at h4
    simp only [Option.map_some', (h4 (by norm_num)).1]

/-- C29, failing input: the leaf minted for "example.test" at 1700000000.  The loop
computes 14038024222357335958, which is 2^63 or more; handed to `ASN1_INTEGER_set` as a
`long` it is -4408719851352215658, and that is the serial of the certificate. -/
theorem serial_negative :
    serial_of 1700000000 (bytes "example.test") = 14038024222357335958
    ∧ (generate_cert OpenSSL.accepting ⟨[(Attr.CN, bytes "CS112 CA")], 7⟩ 1700000000
        (bytes "example.test")).map (fun cert => cert.serial)
      = some (-4408719851352215658) := by
  decide

/-! ### `json_escape` -/

theorem escape_byte_cases (c : Nat) :
    ((c = 92 ∨ c = 34 ∨ c = 8 ∨ c = 12 ∨ c = 10 ∨ c = 13 ∨ c = 9)
        ∧ ∃ x, escape_byte c = [92, x] ∧ escape_denotes x = some c)
      ∨ (¬ (c = 92 ∨ c = 34 ∨ c = 8 ∨ c = 12 ∨ c = 10 ∨ c = 13 ∨ c = 9)
        ∧ escape_byte c = [c]) := by
  unfold escape_byte
  by_cases h1 : c = 92
  · subst h1; exact Or.inl ⟨by decide, 92, by decide, by decide⟩
  by_cases h2 : c = 34
  · subst h2; exact Or.inl ⟨by decide, 34, by decide, by decide⟩
  by_cases h3 : c = 8
  · subst h3; exact Or.inl ⟨by decide, 98, by decide, by decide⟩
  by_cases h4 : c = 12
  · subst h4; exact Or.inl ⟨by decide, 102, by decide, by decide⟩
  by_cases h5 : c = 10
  · subst h5; exact Or.inl ⟨by decide, 110, by decide, by decide⟩
  by_cases h6 : c = 13
  · subst h6; exact Or.inl ⟨by decide, 114, by decide, by decide⟩
  by_cases h7 : c = 9
  · subst h7; exact Or.inl ⟨by decide, 116, by decide, by decide⟩
  right
  refine ⟨by omega, ?_⟩
  rw [if_neg h1, if_neg h2, if_neg h3, if_neg h4, if_neg h5, if_neg h6, if_neg h7]

theorem escape_bytes_cons (c : Nat) (cs : List Nat) :
    escape_bytes (c :: cs) = escape_byte c ++ escape_bytes cs := rfl

theorem escape_bytes_length (s : List Nat) :
    (escape_bytes s).length = s.length + escape_extra s := by
  induction s with
  | nil => rfl
  | cons c cs ih =>
    rw [escape_bytes_cons, List.length_append, ih, escape_extra]
    rcases escape_byte_cases c with ⟨hc, x, hx, _⟩ | ⟨hc, hx⟩
    · rw [hx, if_pos hc]; simp only [List.length_cons, List.length_nil]; omega
    · rw [hx, if_neg hc]; simp only [List.length_cons, List.length_nil]; omega

theorem escape_extra_count (s : List Nat) :
    escape_extra s = s.countP
      (fun c => decide (c = 92 ∨ c = 34 ∨ c = 8 ∨ c = 12 ∨ c = 10 ∨ c = 13 ∨ c = 9)) := by
  induction s with
  | nil => rfl
  | cons c cs ih =>
    rw [escape_extra, ih, List.countP_cons]
    by_cases hc : c = 92 ∨ c = 34 ∨ c = 8 ∨ c = 12 ∨ c = 10 ∨ c = 13 ∨ c = 9
    · simp only [hc, if_true, decide_True]; omega
    · simp only [hc, if_false, decide_False]; simp

theorem json_unescape_plain (c : Nat) (l : List Nat) (h : c ≠ 92) :
    json_unescape (c :: l) = c :: json_unescape l := by
  cases l with
  | nil => rfl
  | cons x rest => rw [json_unescape, if_neg h]

theorem json_unescape_escape (x d : Nat) (l : List Nat) (h : escape_denotes x = some d) :
    json_unescape (92 :: x :: l) = d :: json_unescape l := by
  rw [json_unescape, if_pos rfl, h]

theorem json_unescape_escape_bytes (s : List Nat) : json_unescape (escape_bytes s) = s := by
  induction s with
  | nil => rfl
  | cons c cs ih =>
    rw [escape_bytes_cons]
    rcases escape_byte_cases c with ⟨_, x, hx, hd⟩ | ⟨hc, hx⟩
    · rw [hx]
      simp only [List.cons_append, List.nil_append]
      rw [json_unescape_escape x c _ hd, ih]
    · rw [hx]
      simp only [List.cons_append, List.nil_append]
      rw [json_unescape_plain c _ (by omega), ih]

theorem quotes_escaped_plain (c : Nat) (l : List Nat) (h1 : c ≠ 92) (h2 : c ≠ 34)
    (h : quotes_escaped l = true) : quotes_escaped (c :: l) = true := by
  cases l with
  | nil => simp [quotes_escaped, h2]
  | cons x rest => rw [quotes_escaped, if_neg h1, if_neg h2]; exact h

theorem quotes_escaped_escape_bytes (s : List Nat) : quotes_escaped (escape_bytes s) = true := by
  induction s with
  | nil => rfl
  | cons c cs ih =>
    rw [escape_bytes_cons]
    rcases escape_byte_cases c with ⟨_, x, hx, hd⟩ | ⟨hc, hx⟩
    · rw [hx]
      simp only [List.cons_append, List.nil_append]
      rw [quotes_escaped, if_pos rfl]
      exact ih
    · rw [hx]
      simp only [List.cons_append, List.nil_append]
      exact quotes_escaped_plain c _ (by omega) (by omega) ih

/-- In a text without a double quote outside an escape, the first character is no
double quote and every double quote follows a backslash. -/
theorem quote_follows_backslash (l : List Nat) (h : quotes_escaped l = true) :
    l.head? ≠ some 34 ∧ ∀ i, l[i + 1]? = some 34 → l[i]? = some 92 := by
  induction l using quotes_escaped.induct with
  | case1 => simp
  | case2 c =>
    simp only [quotes_escaped, decide_eq_true_eq] at h
    simp [h]
  | case3 x rest ih =>
    rw [quotes_escaped, if_pos rfl] at h
    obtain ⟨ih1, ih2⟩ := ih h
    refine ⟨by simp, ?_⟩
    intro i hi
    match i with
    | 0 => rfl
    | 1 =>
      simp only [List.getElem?_cons_succ] at hi
      cases rest with
      | nil => simp at hi
      | cons r rs =>
        simp only [List.getElem?_cons_zero, Option.some.injEq] at hi
        subst hi
        simp at ih1
    | i + 2 =>
      simp only [List.getElem?_cons_succ] at hi ⊢
      exact ih2 i hi
  | case4 x rest _ =>
    simp [quotes_escaped] at h
  | case5 c x rest h92 h34 ih =>
    rw [quotes_escaped, if_neg h92, if_neg h34] at h
    obtain ⟨ih1, ih2⟩ := ih h
    refine ⟨by simp [h34], ?_⟩
    intro i hi
    match i with
    | 0 =>
      simp only [List.getElem?_cons_succ, List.getElem?_cons_zero, Option.some.injEq] at hi
      subst hi
      simp at ih1
    | i + 1 =>
      rw [List.getElem?_cons_succ] at hi ⊢
      exact ih2 i hi

theorem escape_bytes_nul_free (s : List Nat) (h : 0 ∉ s) : 0 ∉ escape_bytes s := by
  induction s with
  | nil => simp [escape_bytes]
  | cons c cs ih =>
    simp only [List.mem_cons, not_or] at h
    rw [escape_bytes_cons, List.mem_append, not_or]
    refine ⟨?_, ih h.2⟩
    rcases escape_byte_cases c with ⟨_, x, hx, hd⟩ | ⟨hc, hx⟩
    · rw [hx]
      intro hm
      simp only [List.mem_cons, List.mem_singleton, List.not_mem_nil, or_false] at hm
      rcases hm with hm | hm
      · omega
      · subst hm
        have : escape_denotes 0 = none := by decide
        rw [this] at hd
        cases hd
    · rw [hx]
      simp only [List.mem_singleton]
      exact h.1

/-- C30: for every string `s` without NUL bytes, `json_escape(s)` has length `|s|` plus
the number of characters of `s` among backslash, double quote, backspace, form feed,
newline, carriage return and tab, which is `len + extra`, one less than the size
allocated; it holds no NUL byte; read from left to right it holds no double quote
outside an escape, so that it does not begin with a double quote and every double quote
in it follows a backslash; and replacing the two-character escapes by the characters
they denote gives back `s`. -/
theorem json_escape_round_trip (s : List Nat) (h_nul : 0 ∉ s) :
    (json_escape (some s)).length
        = s.length + s.countP
            (fun c => decide (c = 92 ∨ c = 34 ∨ c = 8 ∨ c = 12 ∨ c = 10 ∨ c = 13 ∨ c = 9))
    ∧ (json_escape (some s)).length + 1 = s.length + escape_extra s + 1
    ∧ 0 ∉ json_escape (some s)
    ∧ quotes_escaped (json_escape (some s)) = true
    ∧ (json_escape (some s)).head? ≠ some 34
    ∧ (∀ i, (json_escape (some s))[i + 1]? = some 34 → (json_escape (some s))[i]? = some 92)
    ∧ json_unescape (json_escape (some s)) = s := by
  have he : json_escape (some s) = escape_bytes s := by
    show escape_bytes (cstr s) = escape_bytes s
    rw [cstr_eq_self s h_nul]
  rw [he]
  have hq := quotes_escaped_escape_bytes s
  have hl := escape_bytes_length s
  exact ⟨by rw [hl, escape_extra_count], by rw [hl], escape_bytes_nul_free s h_nul, hq,
    (quote_follows_backslash _ hq).1, (quote_follows_backslash _ hq).2,
    json_unescape_escape_bytes s⟩

/-- C30, witness: the eleven bytes `say "a\b"`, newline, tab become sixteen. -/
theorem json_escape_round_trip_witness :
    json_escape (some (bytes "say \"a\\b\"\n\t")) = bytes "say \\\"a\\\\b\\\"\\n\\t"
    ∧ (json_escape (some (bytes "say \"a\\b\"\n\t"))).length = 11 + 5
    ∧ json_unescape (json_escape (some (bytes "say \"a\\b\"\n\t"))) = bytes "say \"a\\b\"\n\t" :=
  ⟨by decide,
    (json_escape_round_trip (bytes "say \"a\\b\"\n\t") (by decide)).1.trans (by decide),
    (json_escape_round_trip (bytes "say \"a\\b\"\n\t") (by decide)).2.2.2.2.2.2⟩

/-! ### The size of the reissued frame -/

theorem find_first_after (c : Nat) (n pre t : List Nat) (h : c ∉ pre) :
    find_first (c :: n) (pre ++ t) = (find_first (c :: n) t).map (· + pre.length) := by
  induction pre with
  | nil => simp
  | cons y ys ih =>
    simp only [List.mem_cons, not_or] at h
    have hy : (c == y) = false := by simpa using h.1
    rw [List.cons_append, find_first_cons, isPrefixOf_cons_cons, hy, ih h.2]
    simp only [Bool.false_and, Bool.false_eq_true, if_false, Option.map_map, List.length_cons]
    congr 1

theorem llm_response_overflow (full_url r e : List Nat) (p : Nat)
    (h_enh : should_enhance r = true)
    (h_pos : 0 < e.length) (h_lt : e.length < max_response)
    (h_status : strstr r (bytes "\r\n") = some p)
    (h_over : max_response < p + (enhanced_headers e.length).length + e.length) :
    (llm_response full_url r (some e)).to_client = none := by
  obtain ⟨q, hq⟩ := should_enhance_separator r h_enh
  unfold llm_response
  simp only [h_enh, hq, h_status, if_true]
  rw [if_pos ⟨h_pos, h_lt⟩, if_neg (by omega)]

/-- A response whose status line is "HTTP/1.1 200 " followed by `n` letters A, with
the one header Content-Type: text/html and the body "<p>A</p>". -/
theorem long_status_selected (n : Nat) :
    should_enhance (bytes "HTTP/1.1 200 " ++ List.replicate n 65
        ++ bytes "\r\nContent-Type: text/html\r\n\r\n<p>A</p>") = true
    ∧ strstr (bytes "HTTP/1.1 200 " ++ List.replicate n 65
        ++ bytes "\r\nContent-Type: text/html\r\n\r\n<p>A</p>") (bytes "\r\n") = some (13 + n)
    ∧ (bytes "HTTP/1.1 200 " ++ List.replicate n 65
        ++ bytes "\r\nContent-Type: text/html\r\n\r\n<p>A</p>").length = n + 50 := by
  have hlenpre : (bytes "HTTP/1.1 200 " ++ List.replicate n 65).length = 13 + n := by
    rw [List.length_append, List.length_replicate]; rfl
  have hlen : (bytes "HTTP/1.1 200 " ++ List.replicate n 65
      ++ bytes "\r\nContent-Type: text/html\r\n\r\n<p>A</p>").length = n + 50 := by
    rw [List.length_append, hlenpre]
    have : (bytes "\r\nContent-Type: text/html\r\n\r\n<p>A</p>").length = 37 := by decide
    rw [this]; omega
  have hmem : ∀ x, x ∈ bytes "HTTP/1.1 200 " ++ List.replicate n 65 →
      x ∈ bytes "HTTP/1.1 200 " ∨ x = 65 := by
    intro x hx
    rcases List.mem_append.1 hx with h | h
    · exact Or.inl h
    · exact Or.inr (List.eq_of_mem_replicate h)
  have h0 : (0 : Nat) ∉ bytes "HTTP/1.1 200 " ++ List.replicate n 65
      ++ bytes "\r\nContent-Type: text/html\r\n\r\n<p>A</p>" := by
    intro hx
    rcases List.mem_append.1 hx with h | h
    · rcases hmem 0 h with h | h
      · revert h; decide
      · cases h
    · revert h; decide
  have hc := cstr_eq_self _ h0
  have h13 : (13 : Nat) ∉ bytes "HTTP/1.1 200 " ++ List.replicate n 65 := by
    intro hx
    rcases hmem 13 hx with h | h
    · revert h; decide
    · cases h
  have h99 : (99 : Nat) ∉ (bytes "HTTP/1.1 200 " ++ List.replicate n 65).map tolower := by
    intro hx
    obtain ⟨y, hy, hty⟩ := List.mem_map.1 hx
    have hlit : ∀ z ∈ bytes "HTTP/1.1 200 ", tolower z ≠ 99 := by decide
    rcases hmem y hy with h | h
    · exact hlit y h hty
    · subst h; revert hty; decide
  have hsep : strstr (bytes "HTTP/1.1 200 " ++ List.replicate n 65
      ++ bytes "\r\nContent-Type: text/html\r\n\r\n<p>A</p>") (bytes "\r\n\r\n")
      = some (25 + (13 + n)) := by
    unfold strstr
    rw [hc, bytes_crlf2, find_first_after 13 _ _ _ h13, hlenpre]
    have : find_first [13, 10, 13, 10] (bytes "\r\nContent-Type: text/html\r\n\r\n<p>A</p>")
        = some 25 := by decide
    rw [this]; rfl
  have hst : strstr (bytes "HTTP/1.1 200 " ++ List.replicate n 65
      ++ bytes "\r\nContent-Type: text/html\r\n\r\n<p>A</p>") (bytes "\r\n") = some (13 + n) := by
    unfold strstr
    rw [hc, bytes_crlf, find_first_after 13 _ _ _ h13, hlenpre]
    have : find_first [13, 10] (bytes "\r\nContent-Type: text/html\r\n\r\n<p>A</p>")
        = some 0 := by decide
    rw [this]
    simp
  have hct : strcasestr (bytes "HTTP/1.1 200 " ++ List.replicate n 65
      ++ bytes "\r\nContent-Type: text/html\r\n\r\n<p>A</p>") (bytes "Content-Type:")
      = some (2 + (13 + n)) := by
    unfold strcasestr
    rw [hc, List.map_append]
    have hn : (bytes "Content-Type:").map tolower = 99 :: bytes "ontent-type:" := by decide
    rw [hn, find_first_after 99 _ _ _ h99, List.length_map, hlenpre]
    have : find_first (99 :: bytes "ontent-type:")
        ((bytes "\r\nContent-Type: text/html\r\n\r\n<p>A</p>").map tolower) = some 2 := by decide
    rw [this]; rfl
  have hce : strcasestr (bytes "HTTP/1.1 200 " ++ List.replicate n 65
      ++ bytes "\r\nContent-Type: text/html\r\n\r\n<p>A</p>") (bytes "Content-Encoding:")
      = none := by
    unfold strcasestr
    rw [hc, List.map_append]
    have hn : (bytes "Content-Encoding:").map tolower = 99 :: bytes "ontent-encoding:" := by
      decide
    rw [hn, find_first_after 99 _ _ _ h99]
    have : find_first (99 :: bytes "ontent-encoding:")
        ((bytes "\r\nContent-Type: text/html\r\n\r\n<p>A</p>").map tolower) = none := by decide
    rw [this]; rfl
  have hext : extract_content_type (bytes "HTTP/1.1 200 " ++ List.replicate n 65
      ++ bytes "\r\nContent-Type: text/html\r\n\r\n<p>A</p>") = some (bytes "text/html") := by
    rw [extract_content_type_of _ _ hct, hc]
    have hd : List.drop (2 + (13 + n) + 13) (bytes "HTTP/1.1 200 " ++ List.replicate n 65
        ++ bytes "\r\nContent-Type: text/html\r\n\r\n<p>A</p>")
        = bytes " text/html\r\n\r\n<p>A</p>" := by
      rw [show 2 + (13 + n) + 13 = (bytes "HTTP/1.1 200 " ++ List.replicate n 65).length + 15 by
        rw [hlenpre]; omega]
      rw [← List.drop_drop, List.drop_left]
      decide
    rw [hd]
    decide
  refine ⟨?_, hst, hlen⟩
  unfold should_enhance
  rw [hsep]
  simp only
  rw [hlen, if_pos (by omega), hext, hce]
  have e1 : is_html_content_type (some (bytes "text/html")) = true := by decide
  rw [e1]
  have e2 : n + 50 - (25 + (13 + n) + 4) = 8 := by omega
  rw [e2]
  decide

theorem answer_length (head l : List Nat) (k : Nat) :
    (head ++ bytes "\r\n\r\n" ++ (bytes "\x7b\"html_base64\":" ++ List.replicate k 32 ++ 34
      :: (l ++ 34 :: bytes "\x7d"))).length = head.length + k + l.length + 22 := by
  have a2 : (bytes "\r\n\r\n").length = 4 := by decide
  have a3 : (bytes "\x7b\"html_base64\":").length = 15 := by decide
  have a4 : (bytes "\x7d").length = 1 := by decide
  simp only [List.length_append, List.length_cons, List.length_replicate, a2, a3, a4]
  omega

/-- C28, failing input: the origin answers with a status line of 1 MiB (the response
has 1048626 bytes and is selected for enhancement) and the backend answers with the
base64 of 1048575 bytes (its response has 1398137 bytes).  The enhancement client
returns those 1048575 bytes, a length between 0 and 2 MiB; the reissued frame has
1048589 + 103 + 1048575 bytes, more than the 2097152 bytes of `new_response`, so the
`memcpy` of the enhanced body writes past its end. -/
theorem reissued_frame_overflows :
    (bytes "HTTP/1.1 200 " ++ List.replicate 1048576 65
        ++ bytes "\r\nContent-Type: text/html\r\n\r\n<p>A</p>").length = 1048626
    ∧ should_enhance (bytes "HTTP/1.1 200 " ++ List.replicate 1048576 65
        ++ bytes "\r\nContent-Type: text/html\r\n\r\n<p>A</p>") = true
    ∧ (bytes "HTTP/1.1 200 OK" ++ bytes "\r\n\r\n"
        ++ (bytes "\x7b\"html_base64\":" ++ List.replicate 0 32 ++ 34
          :: (EVP_EncodeBlock (List.replicate 1048575 66) ++ 34 :: bytes "\x7d"))).length
        = 1398137
    ∧ (enhance FlaskState.initial 0 (Network.answered (bytes "HTTP/1.1 200 OK" ++ bytes "\r\n\r\n"
        ++ (bytes "\x7b\"html_base64\":" ++ List.replicate 0 32 ++ 34
          :: (EVP_EncodeBlock (List.replicate 1048575 66) ++ 34 :: bytes "\x7d"))))).result
        = some (List.replicate 1048575 66)
    ∧ (List.replicate 1048575 66).length = 1048575
    ∧ (handle_http_request_llm (bytes "example.test") (bytes "/")
        (bytes "HTTP/1.1 200 " ++ List.replicate 1048576 65
          ++ bytes "\r\nContent-Type: text/html\r\n\r\n<p>A</p>")
        (some (List.replicate 1048575 66))).to_client = none
    ∧ (handle_https_connect_llm (bytes "example.test") (bytes "GET / HTTP/1.1\r\n\r\n")
        (bytes "HTTP/1.1 200 " ++ List.replicate 1048576 65
          ++ bytes "\r\nContent-Type: text/html\r\n\r\n<p>A</p>")
        (some (List.replicate 1048575 66))).to_client = none
    ∧ 2 * 1024 * 1024 < 1048589 + (enhanced_headers 1048575).length + 1048575 := by
  obtain ⟨hs, hst, hlen⟩ := long_status_selected 1048576
  have hel : (List.replicate 1048575 66).length = 1048575 := List.length_replicate _ _
  have hh : (enhanced_headers 1048575).length = 103 := by decide
  have hbyte : ∀ x ∈ List.replicate 1048575 66, x < 256 := by
    intro x hx
    rw [List.eq_of_mem_replicate hx]
    omega
  have hover : ∀ u, (llm_response u (bytes "HTTP/1.1 200 " ++ List.replicate 1048576 65
      ++ bytes "\r\nContent-Type: text/html\r\n\r\n<p>A</p>")
      (some (List.replicate 1048575 66))).to_client = none := by
    intro u
    apply llm_response_overflow u _ _ (13 + 1048576) hs
    · rw [hel]; omega
    · rw [hel]; unfold max_response; omega
    · exact hst
    · rw [hel, hh]; unfold max_response; omega
  refine ⟨hlen, hs, ?_, ?_, hel, hover _, hover _, by rw [hh]; omega⟩
  · have hl : (EVP_EncodeBlock (List.replicate 1048575 66)).length = 1398100 := by
      rw [encode_length, List.length_replicate]
    have hhead : (bytes "HTTP/1.1 200 OK").length = 15 := by decide
    rw [answer_length, hl, hhead]
  · have hl : (EVP_EncodeBlock (List.replicate 1048575 66)).length = 1398100 := by
      rw [encode_length, List.length_replicate]
    have hhead : (bytes "HTTP/1.1 200 OK").length = 15 := by decide
    rw [enhance_result _ _ _ rfl,
      take_max_response _ (by rw [answer_length, hl, hhead]; unfold max_response; omega),
      flask_result_of_body _ _ (by decide) (by decide)]
    exact parse_html_base64_field _ _ 0 hbyte

/-! ### The request body of `llmproxy_generate` -/

theorem json_string_plain (name rest : List Nat) (h : ∀ c ∈ name, c ≠ 34 ∧ c ≠ 92) :
    json_string (name ++ 34 :: rest) = some (name, rest) := by
  induction name with
  | nil =>
    cases rest with
    | nil => rfl
    | cons x r => rfl
  | cons c cs ih =>
    have hc := h c (List.mem_cons_self _ _)
    have ih2 := ih (fun x hx => h x (List.mem_cons_of_mem _ hx))
    have hne : ∃ y t, cs ++ 34 :: rest = y :: t := by
      cases cs with
      | nil => exact ⟨34, rest, rfl⟩
      | cons y t => exact ⟨y, t ++ 34 :: rest, rfl⟩
    obtain ⟨y, t, hyt⟩ := hne
    rw [List.cons_append, hyt, json_string, if_neg hc.1, if_neg hc.2, ← hyt, ih2]
    rfl

theorem json_string_escaped (s rest : List Nat) :
    json_string (escape_bytes s ++ 34 :: rest) = some (escape_bytes s, rest) := by
  induction s with
  | nil =>
    cases rest with
    | nil => rfl
    | cons x r => rfl
  | cons c cs ih =>
    rw [escape_bytes_cons]
    rcases escape_byte_cases c with ⟨_, x, hx, hd⟩ | ⟨hc, hx⟩
    · rw [hx]
      simp only [List.cons_append, List.nil_append, List.append_assoc]
      rw [json_string, if_neg (by decide), if_pos rfl, ih]
      rfl
    · rw [hx]
      simp only [List.cons_append, List.nil_append]
      have hne : ∃ y t, escape_bytes cs ++ 34 :: rest = y :: t := by
        cases escape_bytes cs with
        | nil => exact ⟨34, rest, rfl⟩
        | cons y t => exact ⟨y, t ++ 34 :: rest, rfl⟩
      obtain ⟨y, t, hyt⟩ := hne
      rw [hyt, json_string, if_neg (by omega), if_neg (by omega), ← hyt, ih]
      rfl

theorem takeWhile_until (p : Nat → Bool) (txt rest : List Nat) (c : Nat)
    (h : ∀ x ∈ txt, p x = true) (hc : p c = false) :
    (txt ++ c :: rest).takeWhile p = txt ∧ (txt ++ c :: rest).dropWhile p = c :: rest := by
  induction txt with
  | nil => simp [hc]
  | cons x xs ih =>
    have hx := h x (List.mem_cons_self _ _)
    obtain ⟨i1, i2⟩ := ih (fun y hy => h y (List.mem_cons_of_mem _ hy))
    rw [List.cons_append, List.takeWhile_cons_of_pos hx, List.dropWhile_cons_of_pos hx, i1, i2]
    exact ⟨rfl, rfl⟩

theorem json_value_string (s rest : List Nat) :
    json_value (34 :: (escape_bytes s ++ 34 :: rest)) = some (JsonValue.string s, rest) := by
  unfold json_value
  simp only [List.headD_cons, if_true, List.drop_succ_cons, List.drop_zero]
  rw [json_string_escaped, Option.map_some', json_unescape_escape_bytes]

theorem json_value_literal (txt rest : List Nat) (c : Nat) (hc : c = 44 ∨ c = 125)
    (h : ∀ x ∈ txt, x ≠ 44 ∧ x ≠ 125 ∧ x ≠ 34) :
    json_value (txt ++ c :: rest) = some (JsonValue.literal txt, c :: rest) := by
  unfold json_value
  have hhead : (txt ++ c :: rest).headD 0 ≠ 34 := by
    cases txt with
    | nil =>
      simp only [List.nil_append, List.headD_cons]
      omega
    | cons x xs => exact (h x (List.mem_cons_self _ _)).2.2
  rw [if_neg hhead]
  obtain ⟨h1, h2⟩ := takeWhile_until (fun c => decide (c ≠ 44 ∧ c ≠ 125)) txt rest c
    (fun x hx => by
      have := h x hx
      simp only [decide_eq_true_eq]
      exact ⟨this.1, this.2.1⟩)
    (by
      simp only [decide_eq_false_iff_not]
      omega)
  rw [h1, h2]

/-- One member that is not the last: the reading goes on after the comma. -/
theorem json_members_step (fuel : Nat) (name vtext more : List Nat) (value : JsonValue)
    (hf : 0 < fuel) (hname : ∀ c ∈ name, c ≠ 34 ∧ c ≠ 92)
    (hv : json_value (vtext ++ 44 :: more) = some (value, 44 :: more)) :
    json_members_from fuel (34 :: (name ++ 34 :: 58 :: (vtext ++ 44 :: more)))
      = (json_members_from (fuel - 1) more).map (fun ms => (name, value) :: ms) := by
  obtain ⟨k, rfl⟩ : ∃ k, fuel = k + 1 := ⟨fuel - 1, by omega⟩
  rw [json_members_from]
  simp only [List.headD_cons, ne_eq, not_true_eq_false, if_false, List.drop_succ_cons,
    List.drop_zero]
  rw [json_string_plain name _ hname]
  simp only [List.headD_cons, ne_eq, not_true_eq_false, if_false, List.drop_succ_cons,
    List.drop_zero]
  rw [hv]
  simp only [List.headD_cons, if_true, List.drop_succ_cons, List.drop_zero,
    Nat.add_sub_cancel]
  rw [if_neg (by
    intro h
    have := congrArg List.head? h
    simp at this)]

/-- The last member: the closing brace ends the text. -/
theorem json_members_last (fuel : Nat) (name vtext : List Nat) (value : JsonValue)
    (hf : 0 < fuel) (hname : ∀ c ∈ name, c ≠ 34 ∧ c ≠ 92)
    (hv : json_value (vtext ++ [125]) = some (value, [125])) :
    json_members_from fuel (34 :: (name ++ 34 :: 58 :: (vtext ++ [125])))
      = some [(name, value)] := by
  obtain ⟨k, rfl⟩ : ∃ k, fuel = k + 1 := ⟨fuel - 1, by omega⟩
  rw [json_members_from]
  simp only [List.headD_cons, ne_eq, not_true_eq_false, if_false, List.drop_succ_cons,
    List.drop_zero]
  rw [json_string_plain name _ hname]
  simp only [List.headD_cons, ne_eq, not_true_eq_false, if_false, List.drop_succ_cons,
    List.drop_zero]
  rw [hv]
  simp only [if_true]

theorem digitChar_digit : ∀ d, d < 10 → 48 ≤ (Nat.digitChar d).toNat ∧ (Nat.digitChar d).toNat ≤ 57 := by
  decide

theorem toDigitsCore_digits (fuel n : Nat) (ds : List Char)
    (h : ∀ c ∈ ds, 48 ≤ c.toNat ∧ c.toNat ≤ 57) :
    ∀ c ∈ Nat.toDigitsCore 10 fuel n ds, 48 ≤ c.toNat ∧ c.toNat ≤ 57 := by
  induction fuel generalizing n ds with
  | zero => simpa [Nat.toDigitsCore] using h
  | succ f ih =>
    have hd := digitChar_digit (n % 10) (Nat.mod_lt _ (by decide))
    have hds : ∀ c ∈ Nat.digitChar (n % 10) :: ds, 48 ≤ c.toNat ∧ c.toNat ≤ 57 := by
      intro c hc
      rcases List.mem_cons.1 hc with rfl | hc
      · exact hd
      · exact h c hc
    unfold Nat.toDigitsCore
    simp only
    split_ifs
    · exact hds
    · exact ih _ _ hds

theorem decimal_digits (n : Nat) : ∀ c ∈ decimal n, 48 ≤ c ∧ c ≤ 57 := by
  intro c hc
  unfold decimal Nat.toDigits at hc
  obtain ⟨ch, hch, rfl⟩ := List.mem_map.1 hc
  exact toDigitsCore_digits _ _ [] (by simp) ch hch

theorem decimal_length (n e : Nat) (h : n < 10 ^ e) (he : 0 < e) : (decimal n).length ≤ e := by
  unfold decimal Nat.toDigits
  rw [List.length_map]
  exact Nat.toDigitsCore_length 10 (by decide) _ _ _ h he

theorem printf_d_chars (n : Int) : ∀ c ∈ printf_d n, c ≠ 44 ∧ c ≠ 125 ∧ c ≠ 34 := by
  intro c hc
  unfold printf_d at hc
  split_ifs at hc
  · rcases List.mem_cons.1 hc with rfl | hc
    · decide
    · have := decimal_digits _ c hc; omega
  · have := decimal_digits _ c hc; omega

theorem printf_d_length (n : Int) (h1 : -2147483648 ≤ n) (h2 : n < 2147483648) :
    (printf_d n).length ≤ 11 := by
  have hl : (decimal n.natAbs).length ≤ 10 := by
    apply decimal_length _ 10 _ (by decide)
    have : (10 : Nat) ^ 10 = 10000000000 := by norm_num
    rw [this]
    omega
  unfold printf_d
  split_ifs
  · simp only [List.length_cons]; omega
  · omega

theorem printf_f_chars (x : Double) : ∀ c ∈ printf_f x, c ≠ 44 ∧ c ≠ 125 ∧ c ≠ 34 := by
  intro c hc
  have hsign : ∀ (b : Bool), c ∈ (if b = true then [45] else []) → c = 45 := by
    intro b hb
    cases b
    · simp at hb
    · simpa using hb
  cases x with
  | finite negative m e =>
    unfold printf_f at hc
    simp only [List.mem_append, List.mem_singleton] at hc
    rcases hc with ((hc | hc) | hc) | hc
    · have := hsign _ hc; omega
    · have := decimal_digits _ c hc; omega
    · omega
    · unfold six_digits at hc
      rcases List.mem_append.1 hc with hc | hc
      · have := List.eq_of_mem_replicate hc; omega
      · have := decimal_digits _ c hc; omega
  | infinite negative =>
    unfold printf_f at hc
    rcases List.mem_append.1 hc with hc | hc
    · have := hsign _ hc; omega
    · have hlit : ∀ z ∈ bytes "inf", z ≠ 44 ∧ z ≠ 125 ∧ z ≠ 34 := by decide
      exact hlit c hc
  | nan negative =>
    unfold printf_f at hc
    rcases List.mem_append.1 hc with hc | hc
    · have := hsign _ hc; omega
    · have hlit : ∀ z ∈ bytes "nan", z ≠ 44 ∧ z ≠ 125 ∧ z ≠ 34 := by decide
      exact hlit c hc

theorem json_members_string (fuel : Nat) (name s more : List Nat) (hf : 0 < fuel)
    (hname : ∀ c ∈ name, c ≠ 34 ∧ c ≠ 92) :
    json_members_from fuel (34 :: (name ++ 34 :: 58 :: 34 :: (escape_bytes s ++ 34 :: 44 :: more)))
      = (json_members_from (fuel - 1) more).map (fun ms => (name, JsonValue.string s) :: ms) := by
  have h := json_members_step fuel name (34 :: (escape_bytes s ++ [34])) more
    (JsonValue.string s) hf hname
    (by
      have := json_value_string s (44 :: more)
      simpa [List.append_assoc] using this)
  simpa [List.append_assoc] using h

theorem json_members_literal (fuel : Nat) (name txt more : List Nat) (hf : 0 < fuel)
    (hname : ∀ c ∈ name, c ≠ 34 ∧ c ≠ 92) (htxt : ∀ x ∈ txt, x ≠ 44 ∧ x ≠ 125 ∧ x ≠ 34) :
    json_members_from fuel (34 :: (name ++ 34 :: 58 :: (txt ++ 44 :: more)))
      = (json_members_from (fuel - 1) more).map (fun ms => (name, JsonValue.literal txt) :: ms) :=
  json_members_step fuel name txt more (JsonValue.literal txt) hf hname
    (json_value_literal txt more 44 (Or.inl rfl) htxt)

theorem json_members_last_literal (fuel : Nat) (name txt : List Nat) (hf : 0 < fuel)
    (hname : ∀ c ∈ name, c ≠ 34 ∧ c ≠ 92) (htxt : ∀ x ∈ txt, x ≠ 44 ∧ x ≠ 125 ∧ x ≠ 34) :
    json_members_from fuel (34 :: (name ++ 34 :: 58 :: (txt ++ [125])))
      = some [(name, JsonValue.literal txt)] :=
  json_members_last fuel name txt (JsonValue.literal txt) hf hname
    (json_value_literal txt [] 125 (Or.inr rfl) htxt)

/-- The four members every body ends with. -/
theorem json_members_tail (fuel : Nat) (se rt ru rk : List Nat) (hf : 4 ≤ fuel)
    (hrt : ∀ x ∈ rt, x ≠ 44 ∧ x ≠ 125 ∧ x ≠ 34) (hru : ∀ x ∈ ru, x ≠ 44 ∧ x ≠ 125 ∧ x ≠ 34)
    (hrk : ∀ x ∈ rk, x ≠ 44 ∧ x ≠ 125 ∧ x ≠ 34) :
    json_members_from fuel
        ((bytes "\"session_id\":\"" ++ escape_bytes se ++ bytes "\",")
          ++ (bytes "\"rag_threshold\":" ++ rt ++ bytes ",")
          ++ (bytes "\"rag_usage\":" ++ ru ++ bytes ",")
          ++ (bytes "\"rag_k\":" ++ rk) ++ bytes "\x7d")
      = some [(bytes "session_id", JsonValue.string se),
          (bytes "rag_threshold", JsonValue.literal rt),
          (bytes "rag_usage", JsonValue.literal ru),
          (bytes "rag_k", JsonValue.literal rk)] := by
  have e1 : bytes "\"session_id\":\"" = 34 :: (bytes "session_id" ++ [34, 58, 34]) := by decide
  have e2 : bytes "\"rag_threshold\":" = 34 :: (bytes "rag_threshold" ++ [34, 58]) := by decide
  have e3 : bytes "\"rag_usage\":" = 34 :: (bytes "rag_usage" ++ [34, 58]) := by decide
  have e4 : bytes "\"rag_k\":" = 34 :: (bytes "rag_k" ++ [34, 58]) := by decide
  have e5 : bytes "\"," = [34, 44] := by decide
  have e6 : bytes "," = [44] := by decide
  have e7 : bytes "\x7d" = [125] := by decide
  rw [e1, e2, e3, e4, e5, e6, e7]
  simp only [List.append_assoc, List.cons_append, List.nil_append]
  rw [json_members_string fuel _ _ _ (by omega) (by decide),
    json_members_literal (fuel - 1) _ _ _ (by omega) (by decide) hrt,
    json_members_literal (fuel - 1 - 1) _ _ _ (by omega) (by decide) hru,
    json_members_last_literal (fuel - 1 - 1 - 1) _ _ (by omega) (by decide) hrk]
  rfl

/-- The three members every body begins with. -/
theorem json_members_head (fuel : Nat) (m s q more : List Nat) (hf : 3 ≤ fuel) :
    json_members_from fuel
        ((bytes "\"model\":\"" ++ escape_bytes m ++ bytes "\",")
          ++ (bytes "\"system\":\"" ++ escape_bytes s ++ bytes "\",")
          ++ (bytes "\"query\":\"" ++ escape_bytes q ++ bytes "\",") ++ more)
      = (json_members_from (fuel - 3) more).map (fun ms =>
          (bytes "model", JsonValue.string m) :: (bytes "system", JsonValue.string s)
            :: (bytes "query", JsonValue.string q) :: ms) := by
  have e1 : bytes "\"model\":\"" = 34 :: (bytes "model" ++ [34, 58, 34]) := by decide
  have e2 : bytes "\"system\":\"" = 34 :: (bytes "system" ++ [34, 58, 34]) := by decide
  have e3 : bytes "\"query\":\"" = 34 :: (bytes "query" ++ [34, 58, 34]) := by decide
  have e5 : bytes "\"," = [34, 44] := by decide
  rw [e1, e2, e3, e5]
  simp only [List.append_assoc, List.cons_append, List.nil_append]
  rw [json_members_string fuel _ _ _ (by omega) (by decide),
    json_members_string (fuel - 1) _ _ _ (by omega) (by decide),
    json_members_string (fuel - 1 - 1) _ _ _ (by omega) (by decide)]
  rw [show fuel - 1 - 1 - 1 = fuel - 3 by omega]
  simp only [Option.map_map]
  rfl

theorem json_members_optional (fuel : Nat) (name txt more : List Nat) (hf : 0 < fuel)
    (hname : ∀ c ∈ name, c ≠ 34 ∧ c ≠ 92) (htxt : ∀ x ∈ txt, x ≠ 44 ∧ x ≠ 125 ∧ x ≠ 34) :
    json_members_from fuel ((34 :: (name ++ [34, 58]) ++ txt ++ bytes ",") ++ more)
      = (json_members_from (fuel - 1) more).map (fun ms => (name, JsonValue.literal txt) :: ms) := by
  have e6 : bytes "," = [44] := by decide
  rw [e6]
  simp only [List.append_assoc, List.cons_append, List.nil_append]
  exact json_members_literal fuel name txt more hf hname htxt

theorem json_members_of_body (fuel : Nat) (m s q se rt ru rk : List Nat)
    (topt kopt : Option (List Nat)) (hf : 9 ≤ fuel)
    (ht : ∀ t, topt = some t → ∀ x ∈ t, x ≠ 44 ∧ x ≠ 125 ∧ x ≠ 34)
    (hk : ∀ k, kopt = some k → ∀ x ∈ k, x ≠ 44 ∧ x ≠ 125 ∧ x ≠ 34)
    (hrt : ∀ x ∈ rt, x ≠ 44 ∧ x ≠ 125 ∧ x ≠ 34) (hru : ∀ x ∈ ru, x ≠ 44 ∧ x ≠ 125 ∧ x ≠ 34)
    (hrk : ∀ x ∈ rk, x ≠ 44 ∧ x ≠ 125 ∧ x ≠ 34) :
    json_members_from fuel
        ((bytes "\"model\":\"" ++ escape_bytes m ++ bytes "\",")
          ++ (bytes "\"system\":\"" ++ escape_bytes s ++ bytes "\",")
          ++ (bytes "\"query\":\"" ++ escape_bytes q ++ bytes "\",")
          ++ ((topt.map (fun t => bytes "\"temperature\":" ++ t ++ bytes ",")).getD []
            ++ ((kopt.map (fun k => bytes "\"lastk\":" ++ k ++ bytes ",")).getD []
              ++ ((bytes "\"session_id\":\"" ++ escape_bytes se ++ bytes "\",")
                ++ (bytes "\"rag_threshold\":" ++ rt ++ bytes ",")
                ++ (bytes "\"rag_usage\":" ++ ru ++ bytes ",")
                ++ (bytes "\"rag_k\":" ++ rk) ++ bytes "\x7d"))))
      = some ([(bytes "model", JsonValue.string m), (bytes "system", JsonValue.string s),
            (bytes "query", JsonValue.string q)]
          ++ (topt.map (fun t => (bytes "temperature", JsonValue.literal t))).toList
          ++ (kopt.map (fun k => (bytes "lastk", JsonValue.literal k))).toList
          ++ [(bytes "session_id", JsonValue.string se),
              (bytes "rag_threshold", JsonValue.literal rt),
              (bytes "rag_usage", JsonValue.literal ru),
              (bytes "rag_k", JsonValue.literal rk)]) := by
  have et : bytes "\"temperature\":" = 34 :: (bytes "temperature" ++ [34, 58]) := by decide
  have ek : bytes "\"lastk\":" = 34 :: (bytes "lastk" ++ [34, 58]) := by decide
  rw [json_members_head fuel m s q _ (by omega)]
  cases topt with
  | none =>
    cases kopt with
    | none =>
      simp only [Option.map_none', Option.getD_none, List.nil_append]
      rw [json_members_tail (fuel - 3) se rt ru rk (by omega) hrt hru hrk]
      rfl
    | some k =>
      simp only [Option.map_none', Option.getD_none, Option.map_some', Option.getD_some,
        List.nil_append]
      rw [ek, json_members_optional (fuel - 3) _ k _ (by omega) (by decide) (hk k rfl),
        json_members_tail (fuel - 3 - 1) se rt ru rk (by omega) hrt hru hrk]
      rfl
  | some t =>
    cases kopt with
    | none =>
      simp only [Option.map_none', Option.getD_none, Option.map_some', Option.getD_some,
        List.nil_append]
      rw [et, json_members_optional (fuel - 3) _ t _ (by omega) (by decide) (ht t rfl),
        json_members_tail (fuel - 3 - 1) se rt ru rk (by omega) hrt hru hrk]
      rfl
    | some k =>
      simp only [Option.map_some', Option.getD_some]
      rw [et, ek, json_members_optional (fuel - 3) _ t _ (by omega) (by decide) (ht t rfl),
        json_members_optional (fuel - 3 - 1) _ k _ (by omega) (by decide) (hk k rfl),
        json_members_tail (fuel - 3 - 1 - 1) se rt ru rk (by omega) hrt hru hrk]
      rfl

theorem json_escape_eq (s : Option (List Nat)) :
    json_escape s = escape_bytes ((s.map cstr).getD []) := by
  cases s <;> rfl

/-- C26 (amended): for all arguments of `llmproxy_generate` whose numbers print in the
room the code leaves for them (`int` values, and doubles that `%.6f` prints in at most
57 characters), the request body is a JSON object whose members are, in this order:
"model", "system" and "query" (the strings given, empty for NULL); "temperature" only
when the pointer is not NULL, with the value as `%.6f` prints it; "lastk" only when the
pointer is not NULL; and then always "session_id" (the string given, or
"GenericSession" for NULL), "rag_threshold" (the value given, or 0.5 for NULL),
"rag_usage" (`true` for a value other than 0, `false` for 0 and for NULL) and "rag_k"
(the value given, or 5 for NULL). -/
theorem generate_body_members (model system query : Option (List Nat))
    (temperature : Option Double) (lastk : Option Int) (session_id : Option (List Nat))
    (rag_threshold : Option Double) (rag_usage rag_k : Option Int)
    (h_lastk : ∀ k, lastk = some k → -2147483648 ≤ k ∧ k < 2147483648)
    (h_rag_k : ∀ k, rag_k = some k → -2147483648 ≤ k ∧ k < 2147483648)
    (h_temperature : ∀ t, temperature = some t → (printf_f t).length ≤ 57)
    (h_threshold : ∀ t, rag_threshold = some t → (printf_f t).length ≤ 57) :
    ∃ body, llmproxy_generate model system query temperature lastk session_id rag_threshold
        rag_usage rag_k = some body
      ∧ json_members body = some (
          [(bytes "model", JsonValue.string ((model.map cstr).getD [])),
            (bytes "system", JsonValue.string ((system.map cstr).getD [])),
            (bytes "query", JsonValue.string ((query.map cstr).getD []))]
          ++ (temperature.map
              (fun t => (bytes "temperature", JsonValue.literal (printf_f t)))).toList
          ++ (lastk.map (fun k => (bytes "lastk", JsonValue.literal (printf_d k)))).toList
          ++ [(bytes "session_id",
                JsonValue.string (cstr (session_id.getD (bytes "GenericSession")))),
              (bytes "rag_threshold",
                JsonValue.literal (printf_f (rag_threshold.getD Double.half))),
              (bytes "rag_usage",
                JsonValue.literal (if rag_usage.getD 0 ≠ 0 then bytes "true" else bytes "false")),
              (bytes "rag_k", JsonValue.literal (printf_d (rag_k.getD 5)))]) := by
  have hrt : (printf_f (rag_threshold.getD Double.half)).length ≤ 57 := by
    cases hx : rag_threshold with
    | none => decide
    | some x => exact h_threshold x hx
  have hrk : (printf_d (rag_k.getD 5)).length ≤ 11 := by
    cases hx : rag_k with
    | none => decide
    | some k => exact printf_d_length k (h_rag_k k hx).1 (h_rag_k k hx).2
  have hru : ((if rag_usage.getD 0 ≠ 0 then bytes "true" else bytes "false") : List Nat).length
      ≤ 5 := by
    split_ifs <;> decide
  have hruc : ∀ x ∈ ((if rag_usage.getD 0 ≠ 0 then bytes "true" else bytes "false") : List Nat),
      x ≠ 44 ∧ x ≠ 125 ∧ x ≠ 34 := by
    split_ifs <;> decide
  have hT : ∀ o : Option Double, (match o with
      | some t => bytes "\"temperature\":" ++ printf_f t ++ bytes ","
      | none => [])
      = ((o.map printf_f).map (fun t => bytes "\"temperature\":" ++ t ++ bytes ",")).getD [] := by
    intro o
    cases o <;> rfl
  have hK : ∀ o : Option Int, (match o with
      | some k => bytes "\"lastk\":" ++ printf_d k ++ bytes ","
      | none => [])
      = ((o.map printf_d).map (fun k => bytes "\"lastk\":" ++ k ++ bytes ",")).getD [] := by
    intro o
    cases o <;> rfl
  have hT2 : (temperature.map
      (fun t => (bytes "temperature", JsonValue.literal (printf_f t)))).toList
      = ((temperature.map printf_f).map
          (fun t => (bytes "temperature", JsonValue.literal t))).toList := by
    cases temperature <;> rfl
  have hK2 : (lastk.map (fun k => (bytes "lastk", JsonValue.literal (printf_d k)))).toList
      = ((lastk.map printf_d).map (fun k => (bytes "lastk", JsonValue.literal k))).toList := by
    cases lastk <;> rfl
  have hTl : (((temperature.map printf_f).map
      (fun t => bytes "\"temperature\":" ++ t ++ bytes ",")).getD []).length ≤ 72 := by
    cases hx : temperature with
    | none => simp
    | some t =>
      have := h_temperature t hx
      have e : (bytes "\"temperature\":").length = 14 := by decide
      have e2 : (bytes ",").length = 1 := by decide
      simp only [Option.map_some', Option.getD_some, List.length_append, e, e2]
      omega
  have hKl : (((lastk.map printf_d).map
      (fun k => bytes "\"lastk\":" ++ k ++ bytes ",")).getD []).length ≤ 20 := by
    cases hx : lastk with
    | none => simp
    | some k =>
      have := printf_d_length k (h_lastk k hx).1 (h_lastk k hx).2
      have e : (bytes "\"lastk\":").length = 8 := by decide
      have e2 : (bytes ",").length = 1 := by decide
      simp only [Option.map_some', Option.getD_some, List.length_append, e, e2]
      omega
  have l0 : (bytes "\x7b").length = 1 := by decide
  have l1 : (bytes "\"model\":\"").length = 9 := by decide
  have l2 : (bytes "\"system\":\"").length = 10 := by decide
  have l3 : (bytes "\"query\":\"").length = 9 := by decide
  have l4 : (bytes "\",").length = 2 := by decide
  have l5 : (bytes "\"session_id\":\"").length = 14 := by decide
  have l6 : (bytes "\"rag_threshold\":").length = 16 := by decide
  have l7 : (bytes "\"rag_usage\":").length = 12 := by decide
  have l8 : (bytes "\"rag_k\":").length = 8 := by decide
  have l9 : (bytes ",").length = 1 := by decide
  have l10 : (bytes "\x7d").length = 1 := by decide
  have key := fun fuel hf => json_members_of_body fuel
    ((model.map cstr).getD []) ((system.map cstr).getD []) ((query.map cstr).getD [])
    (cstr (session_id.getD (bytes "GenericSession")))
    (printf_f (rag_threshold.getD Double.half))
    (if rag_usage.getD 0 ≠ 0 then bytes "true" else bytes "false")
    (printf_d (rag_k.getD 5))
    (temperature.map printf_f) (lastk.map printf_d) hf
    (fun t ht => by
      obtain ⟨x, _, rfl⟩ := Option.map_eq_some'.1 ht
      exact printf_f_chars x)
    (fun k hk => by
      obtain ⟨x, _, rfl⟩ := Option.map_eq_some'.1 hk
      exact printf_d_chars x)
    (printf_f_chars _) hruc (printf_d_chars _)
  unfold llmproxy_generate
  simp only [hT, hK, json_escape_eq, Option.map_some', Option.getD_some]
  rw [if_pos (by
    simp only [List.length_append, l0, l1, l2, l3, l4, l5, l6, l7, l8, l9, l10]
    omega)]
  refine ⟨_, rfl, ?_⟩
  have e0 : bytes "\x7b" = [123] := by decide
  unfold json_members
  rw [e0, hT2, hK2]
  simp only [List.append_assoc, List.cons_append, List.nil_append, List.headD_cons, if_true,
    List.drop_succ_cons, List.drop_zero] at key ⊢
  apply key
  simp only [List.length_cons, List.length_append, l1, l4]
  omega

set_option maxRecDepth 100000 in
/-- C26, witness: the call of `examples/example_generate.c`: temperature NULL, lastk 5,
session "GenericSession", the three RAG parameters NULL. -/
theorem generate_body_members_witness :
    ∃ body, llmproxy_generate (some (bytes "4o-mini"))
        (some (bytes "Answer my question in a funny manner")) (some (bytes "who are the jumbos?"))
        none (some 5) (some (bytes "GenericSession")) none none none = some body
      ∧ json_members body = some [(bytes "model", JsonValue.string (bytes "4o-mini")),
          (bytes "system", JsonValue.string (bytes "Answer my question in a funny manner")),
          (bytes "query", JsonValue.string (bytes "who are the jumbos?")),
          (bytes "lastk", JsonValue.literal (bytes "5")),
          (bytes "session_id", JsonValue.string (bytes "GenericSession")),
          (bytes "rag_threshold", JsonValue.literal (bytes "0.500000")),
          (bytes "rag_usage", JsonValue.literal (bytes "false")),
          (bytes "rag_k", JsonValue.literal (bytes "5"))] := by
  obtain ⟨body, h1, h2⟩ := generate_body_members (some (bytes "4o-mini"))
    (some (bytes "Answer my question in a funny manner")) (some (bytes "who are the jumbos?"))
    none (some 5) (some (bytes "GenericSession")) none none none
    (fun k hk => by cases hk; decide) (fun k hk => by cases hk)
    (fun t ht => by cases ht) (fun t ht => by cases ht)
  exact ⟨body, h1, h2.trans (by decide)⟩

set_option maxRecDepth 100000 in
/-- C26, counterexample: with all six optional parameters NULL the body still holds
"session_id", "rag_threshold", "rag_usage" and "rag_k", with the values
"GenericSession", 0.500000, false and 5; only "temperature" and "lastk" are left
out. -/
theorem generate_sends_defaults :
    llmproxy_generate (some (bytes "4o-mini")) (some (bytes "sys")) (some (bytes "who?"))
        none none none none none none
      = some (bytes ("\x7b\"model\":\"4o-mini\",\"system\":\"sys\",\"query\":\"who?\","
          ++ "\"session_id\":\"GenericSession\",\"rag_threshold\":0.500000,"
          ++ "\"rag_usage\":false,\"rag_k\":5\x7d")) := by
  decide

/-! ### `load_dotenv` -/

set_option maxRecDepth 100000 in
/-- The room `llmproxy_generate` leaves for the numbers is 256 bytes less the member
names: for temperature = rag_threshold = 2^250, which `%.6f` prints in 83 characters
each, the text of the body is longer than the buffer allocated for it, so the `sprintf`
calls write past its end. -/
theorem generate_body_overflows :
    (printf_f (Double.finite false 1 250)).length = 83
    ∧ llmproxy_generate (some (bytes "m")) (some (bytes "s")) (some (bytes "q"))
        (some (Double.finite false 1 250)) none none (some (Double.finite false 1 250)) none none
      = none := by
  decide

end Proxy
